import Mathlib

/-!
# Beekeeper: chunks, node selection, seed resolution and the check run loop

A shallow embedding of `pkg/bee/chunk.go`, of `randNot` in `pkg/check/smoke/smoke.go`,
of the option resolvers in `pkg/config` (`applyCheckConfig`, `applyOptions`,
`applySimulationConfig`), of the seed handling in `cmd/beekeeper/cmd` and of the run
loop of the `check` command, together with the library operations they call
(`swarm.DistanceCmp`, `binary.LittleEndian.PutUint64`, `math/rand.Rand`, reflection on
structs), followed by the properties checked against them.

Conventions of the embedding:

* a Go `byte` is a `Fin 256`, a `[]byte` a `List Byte`;
* a Go `int` is an `Int` (no operation here comes near the 64-bit bounds);
* a Go `error` is an `Option String`: `none` is `nil`, `some msg` carries the
  rendered message;
* a Go function returning `(T, error)` returns the pair, so the value that
  accompanies an error is visible;
* a function that can hit a Go run-time panic returns a `GoResult`;
* the `*rand.Rand` receiver is an explicit generator state that is threaded
  through the call and returned;
* a struct handled through reflection is the list of its fields; field names of a Go
  struct are distinct, which the theorems about such structs assume;
* a value read from outside (a decoded YAML struct, a flag, the value `random.Int64()`
  returns) is an argument of the function that reads it.
-/

/-- One Go `byte`. -/
abbrev Byte := Fin 256

/-- Go `error`: `none` is `nil`, `some msg` an error with rendered message `msg`. -/
abbrev GoError := Option String

/-- Outcome of a Go call that may end in a run-time panic instead of returning. -/
inductive GoResult (α : Type) where
  | ret : α → GoError → GoResult α
  | runtimePanic : String → GoResult α
deriving DecidableEq, Repr

namespace swarm

/-- The `swarm.Address` struct: a wrapper around the address bytes. -/
structure Address where
  b : List Byte
deriving DecidableEq, Repr

/-- The zero value `swarm.Address{}`. -/
def Address.zero : Address := { b := [] }

/-- The `Bytes()` accessor of an address. -/
def Address.Bytes (a : Address) : List Byte := a.b

/-- Byte loop of `DistanceCmp`: the first index where the two XOR bytes differ decides. -/
def distanceCmpLoop : List Byte → List Byte → List Byte → Int
  | a :: as, x :: xs, y :: ys =>
    let dx := x ^^^ a
    let dy := y ^^^ a
    if dx = dy then distanceCmpLoop as xs ys
    else if dx < dy then 1
    else -1
  | _, _, _ => 0

/-- Modelled from the spec: `swarm.DistanceCmp` belongs to the bee library, outside this
repository.  The spec defines the distance relation as "a total order per reference point
via bitwise XOR of address bytes compared as a big-endian integer; smaller XOR value =
closer" and requires that "addresses of unequal byte length" are "an error".  The sign
convention is the one `ClosestNode` relies on in its `switch`: `1` when `x` is closer to
`a` than `y`, `0` at equal distance, `-1` when `x` is farther from `a` than `y`. -/
def DistanceCmp (a x y : List Byte) : Int × GoError :=
  if a.length ≠ x.length ∨ a.length ≠ y.length then
    (0, some "address length must match")
  else
    (distanceCmpLoop a x y, none)

end swarm

namespace binary

/-- Byte number `i` (least significant first) of an unsigned value: `byte(v >> (8*i))`. -/
def leByte (v : Nat) (i : Nat) : Byte := ⟨(v >>> (8 * i)) % 256, Nat.mod_lt _ (by decide)⟩

/-- Modelled from the spec: `binary.LittleEndian.PutUint64` is Go library code.  It stores
the "fixed-width little-endian integer" encoding of `v` in the first eight bytes of the
buffer `b` and leaves the other bytes alone. -/
def PutUint64 (b : List Byte) (v : Nat) : List Byte :=
  (List.range 8).map (leByte v) ++ b.drop 8

/-- Modelled from the spec: `binary.LittleEndian.Uint64`, the decoder of the little-endian
encoding: byte `i` weighs `256 ^ i`. -/
def Uint64 : List Byte → Nat
  | [] => 0
  | x :: xs => x.val + 256 * Uint64 xs

end binary

/-- Go conversion `uint64(i)` of an `int`: reduction modulo `2 ^ 64`. -/
def uint64 (i : Int) : Nat := (i % (2 ^ 64 : Int)).toNat

namespace rand

/-- Modelled from the spec: the seeded generator handle (`math/rand.Rand`, Go library
code).  `σ` is the type of generator states; every call consumes a state and yields the
next one, so "consecutive calls on the same handle advance an internal cursor".
`Intn n` is the "pick in `[0, n)`" for `0 < n`; `Read n` fills a buffer of `n` bytes
("produces exactly `n` bytes") and reports the number of bytes written and an error,
which for this generator is always `n` and `nil`. -/
structure Rand (σ : Type) where
  Intn : Nat → σ → Nat × σ
  Read : Nat → σ → (List Byte × Nat × GoError) × σ
  Intn_lt : ∀ n s, 0 < n → (Intn n s).1 < n
  Read_length : ∀ n s, (Read n s).1.1.length = n
  Read_result : ∀ n s, (Read n s).1.2 = (n, none)

/-- A concrete generator step: a linear congruential update of a 63-bit state. -/
def lcgNext (s : Nat) : Nat := (s * 6364136223846793005 + 1442695040888963407) % 2 ^ 63

/-- Bytes produced by the concrete generator, one state update per byte. -/
def lcgBytes (n s : Nat) : List Byte :=
  (List.range n).map
    (fun i => (⟨((lcgNext^[i] s) / 2 ^ 24) % 256, Nat.mod_lt _ (by decide)⟩ : Byte))

/-- A concrete generator satisfying the contract, used to run the embedding. -/
def lcg : Rand Nat where
  Intn := fun n s => ((s / 2 ^ 16) % n, lcgNext s)
  Read := fun n s => ((lcgBytes n s, n, none), lcgNext^[n] s)
  Intn_lt := fun _ _ h => Nat.mod_lt _ h
  Read_length := fun n s => by simp [lcgBytes]
  Read_result := fun _ _ => rfl

end rand

namespace bee

/-- Maximum size of a chunk's data, in bytes. -/
def maxChunkSize : Int := 4096

/-- Size of the span information in front of a random chunk's payload, in bytes. -/
def spanInfoSize : Int := 8

/-- The `Chunk` struct. -/
structure Chunk where
  address : swarm.Address
  data : List Byte
  span : Int
deriving DecidableEq, Repr

/-- The zero value `Chunk{}`. -/
def Chunk.zero : Chunk := { address := swarm.Address.zero, data := [], span := 0 }

/-- Constructor `NewChunk`: it refuses data longer than `maxChunkSize`, otherwise sets only the `data`
field (`Chunk{data: data}`): the address and the span keep their zero values. -/
def NewChunk (data : List Byte) : Chunk × GoError :=
  if (data.length : Int) > maxChunkSize then
    (Chunk.zero, some "create chunk: requested size too big (max 4096 bytes)")
  else
    ({ address := swarm.Address.zero, data := data, span := 0 }, none)

/-- Constructor `NewRandomChunk`: it draws the payload length with `Intn(maxChunkSize-spanInfoSize)`,
fills the payload with `Read`, and puts the little-endian span in front of it.  The
generator state after the call is returned next to the result. -/
def NewRandomChunk {σ : Type} (R : rand.Rand σ) (r : σ) : (Chunk × GoError) × σ :=
  let n := R.Intn (maxChunkSize - spanInfoSize).toNat r
  let rd := R.Read n.1 n.2
  match rd.1.2.2 with
  | some e => ((Chunk.zero, some ("create random chunk: " ++ e)), rd.2)
  | none =>
    let data := rd.1.1
    let span : Int := data.length
    let b := binary.PutUint64 (List.replicate spanInfoSize.toNat 0) (uint64 span)
    let data := b ++ data
    (({ address := swarm.Address.zero, data := data, span := span }, none), rd.2)

/-- The payload bytes `NewRandomChunk` generates from state `r`, before the span is put
in front of them. -/
def randomPayload {σ : Type} (R : rand.Rand σ) (r : σ) : List Byte :=
  (R.Read (R.Intn (maxChunkSize - spanInfoSize).toNat r).1
    (R.Intn (maxChunkSize - spanInfoSize).toNat r).2).1.1

/-- Accessor `Chunk.Address`. -/
def Chunk.Address (c : Chunk) : swarm.Address := c.address

/-- Accessor `Chunk.Data`. -/
def Chunk.Data (c : Chunk) : List Byte := c.data

/-- Accessor `Chunk.Size`: `len(c.data)`. -/
def Chunk.Size (c : Chunk) : Int := c.data.length

/-- Accessor `Chunk.Span`. -/
def Chunk.Span (c : Chunk) : Int := c.span

/-- The `for _, a := range nodes[1:]` loop of `ClosestNode`, with the current `closest`
as loop state.  An error of `DistanceCmp` ends the loop with the zero address and the
wrapped error. -/
def closestLoop (addr : swarm.Address) (closest : swarm.Address) :
    List swarm.Address → swarm.Address × GoError
  | [] => (closest, none)
  | a :: rest =>
    match swarm.DistanceCmp addr.Bytes closest.Bytes a.Bytes with
    | (_, some e) => (swarm.Address.zero, some ("find closest node: " ++ e))
    | (dcmp, none) =>
      if dcmp = 0 then closestLoop addr closest rest
      else if dcmp = -1 then closestLoop addr a rest
      else closestLoop addr closest rest

/-- Method `Chunk.ClosestNode`.  Its first statement `closest = nodes[0]` runs before the loop and is a run-time panic of Go
when `nodes` is empty. -/
def Chunk.ClosestNode (c : Chunk) (nodes : List swarm.Address) : GoResult swarm.Address :=
  match nodes with
  | [] => GoResult.runtimePanic "index out of range [0] with length 0"
  | n0 :: rest =>
    let r := closestLoop c.Address n0 rest
    GoResult.ret r.1 r.2

end bee

/-- Big-endian value of a byte string: the first byte is the most significant. -/
def beNat : List Byte → Nat
  | [] => 0
  | x :: xs => x.val * 256 ^ xs.length + beNat xs

/-- Byte-wise XOR of two byte strings. -/
def xorBytes (x y : List Byte) : List Byte := List.zipWith (fun p q => p ^^^ q) x y

/-- XOR distance between two addresses: their byte-wise XOR read as a big-endian integer. -/
def xorDistance (x y : List Byte) : Nat := beNat (xorBytes x y)

/-- XOR distance from a chunk's address to a candidate address. -/
def bee.Chunk.dist (c : bee.Chunk) (a : swarm.Address) : Nat :=
  xorDistance a.Bytes c.Address.Bytes

/-- A chunk with a two-byte address, for running the selection on concrete input. -/
def bee.sampleChunk : bee.Chunk := { address := { b := [1, 2] }, data := [9], span := 0 }

/-- Four two-byte candidates; the first and the last are the same nearest address. -/
def bee.sampleNodes : List swarm.Address :=
  [{ b := [1, 3] }, { b := [0, 2] }, { b := [1, 0] }, { b := [1, 3] }]

namespace smoke

/-- The `for` loop of `randNot`: draw `r.Intn(l)` until the pick differs from `not`.
The number of draws is not bounded by the code; `fuel` bounds the number of draws that
are looked at, and `none` says that the loop has not returned within `fuel` draws. -/
def randNotLoop {σ : Type} (R : rand.Rand σ) (l not : Int) : Nat → σ → Option (Int × σ)
  | 0, _ => none
  | fuel + 1, r =>
    let pick := R.Intn l.toNat r
    if (pick.1 : Int) ≠ not then some ((pick.1 : Int), pick.2)
    else randNotLoop R l not fuel pick.2

/-- Function `randNot`: for `l < 2` it prints a warning and returns `0` without a draw,
otherwise it runs the loop.  The result holds the returned index, the generator state
after the call and the lines printed. -/
def randNot {σ : Type} (R : rand.Rand σ) (fuel : Nat) (r : σ) (l not : Int) :
    Option ((Int × σ) × List String) :=
  if l < 2 then some ((0, r), ["Warning: downloading from same node!"])
  else (randNotLoop R l not fuel r).map (fun p => (p, []))

end smoke

namespace push

/-- Modelled from the spec: the metrics sink handle `push.Pusher` of the Prometheus client
library, reduced to the two strings `push.New` is called with. -/
structure Pusher where
  url : String
  job : String
deriving DecidableEq, Repr

/-- The library constructor `push.New(url, job)`. -/
def New (url job : String) : Pusher := { url := url, job := job }

end push

namespace reflect

/-- The Go types that occur as fields of the option structs. -/
inductive GoType where
  | bool | int | int32 | int64 | string | duration | pusher
deriving DecidableEq, Repr

/-- A Go value of one of these types; `pusher none` is the nil `*push.Pusher`. -/
inductive Value where
  | bool : Bool → Value
  | int : Int → Value
  | int32 : Int → Value
  | int64 : Int → Value
  | string : String → Value
  | duration : Int → Value
  | pusher : Option push.Pusher → Value
deriving DecidableEq, Repr

/-- The type of a value.  All the types are named and none is an interface, so
`AssignableTo` between two of them is equality of the types. -/
def Value.type : Value → GoType
  | Value.bool _ => GoType.bool
  | Value.int _ => GoType.int
  | Value.int32 _ => GoType.int32
  | Value.int64 _ => GoType.int64
  | Value.string _ => GoType.string
  | Value.duration _ => GoType.duration
  | Value.pusher _ => GoType.pusher

/-- A field of a struct of pointers (the decoded "local" options): its name, the type
`elem` the pointer points to, and `none` for a nil pointer or `some v` for a pointer to
`v`. -/
structure PtrField where
  name : String
  elem : GoType
  val : Option Value
deriving DecidableEq, Repr

/-- A struct value seen through reflection: its fields in declaration order, each with
its name and current value.  The type of a field is the type of its value. -/
abbrev Struct := List (String × Value)

/-- Lookup `FieldByName(name)`: the value of the first field with that name, `none` when
there is no such field. -/
def Struct.FieldByName : Struct → String → Option Value
  | [], _ => none
  | (n, v) :: rest, name => if n = name then some v else Struct.FieldByName rest name

/-- Assignment `ov.FieldByName(name).Set(v)`: the field takes the value `v`.  The result
is `none` when Go panics: there is no such field, or the type of `v` is not assignable
to the type of the field. -/
def Struct.Set : Struct → String → Value → Option Struct
  | [], _, _ => none
  | (n, old) :: rest, name, v =>
    if n = name then
      if v.type = old.type then some ((n, v) :: rest) else none
    else (Struct.Set rest name v).map (fun r => (n, old) :: r)

/-- The loop `for i := 0; i < lv.NumField(); i++` over the fields of the local struct:
the body runs on each field in turn; a returned error or a panic ends the loop. -/
def eachField (body : PtrField → Struct → GoResult Struct) :
    List PtrField → Struct → GoResult Struct
  | [], ov => GoResult.ret ov none
  | f :: rest, ov =>
    match body f ov with
    | GoResult.ret ov1 none => eachField body rest ov1
    | GoResult.ret ov1 (some e) => GoResult.ret ov1 (some e)
    | GoResult.runtimePanic m => GoResult.runtimePanic m

end reflect

namespace config

open reflect

/-- The struct `CheckGlobalConfig`; `MetricsPusher` is `none` for a nil pointer. -/
structure CheckGlobalConfig where
  MetricsEnabled : Bool
  MetricsPusher : Option push.Pusher
  Seed : Int
deriving DecidableEq, Repr

/-- The struct `SimulationGlobalConfig`. -/
structure SimulationGlobalConfig where
  MetricsEnabled : Bool
  MetricsPusher : Option push.Pusher
  Seed : Int
deriving DecidableEq, Repr

/-- The values `applyOptions` reads from its `cfg` argument, whose type is not among the
sources: `MetricsEnabled` and `Seed` of
`cfg.Playbooks[cfg.Execute.Playbook].ChecksCommonOptions`, and `Namespace` of
`cfg.Clusters[cfg.Execute.Cluster]`. -/
structure CommonOptions where
  MetricsEnabled : Bool
  Seed : Int
  Namespace : String
deriving DecidableEq, Repr

/-- The branch "set locally" shared by the `Seed` and the `default` cases: the value the
local pointer points to is copied when the options struct has a field of the same name
whose type the pointed-to type is assignable to; otherwise nothing happens. -/
def setLocal (f : PtrField) (v : Value) (ov : Struct) : GoResult Struct :=
  match ov.FieldByName f.name with
  | none => GoResult.ret ov none
  | some old =>
    if f.elem = old.type then
      match ov.Set f.name v with
      | some ov1 => GoResult.ret ov1 none
      | none => GoResult.runtimePanic "reflect.Set: value is not assignable to the field"
    else GoResult.ret ov none

/-- Statement `ov.FieldByName(name).Set(v)` without a guard in front of it. -/
def setField (name : String) (v : Value) (ov : Struct) : GoResult Struct :=
  match ov.Set name v with
  | some ov1 => GoResult.ret ov1 none
  | none => GoResult.runtimePanic "reflect: call of reflect.Value.Set on zero Value"

/-- Body of the loop of `applyCheckConfig`, the `switch fieldName`.  `fresh` is the
value `random.Int64()` returns if it is called (package `random` is not among the
sources); the lines printed for unset fields are left out. -/
def checkField (global : CheckGlobalConfig) (fresh : Int) (f : PtrField) (ov : Struct) :
    GoResult Struct :=
  if f.name = "MetricsEnabled" then
    match f.val with
    | none =>
      if global.MetricsEnabled then
        match global.MetricsPusher with
        | none => GoResult.ret ov (some "metrics pusher is nil (not set)")
        | some p => setField "MetricsPusher" (Value.pusher (some p)) ov
      else GoResult.ret ov none
    | some (Value.bool b) =>
      if b then
        match global.MetricsPusher with
        | none => GoResult.ret ov (some "metrics pusher is nil (not set)")
        | some p => setField "MetricsPusher" (Value.pusher (some p)) ov
      else GoResult.ret ov none
    | some _ => GoResult.runtimePanic "reflect: call of reflect.Value.Bool on non-bool Value"
  else if f.name = "Seed" then
    match f.val with
    | none =>
      if global.Seed ≥ 0 then setField f.name (Value.int64 global.Seed) ov
      else setField f.name (Value.int64 fresh) ov
    | some v => setLocal f v ov
  else
    match f.val with
    | none => GoResult.ret ov none
    | some v => setLocal f v ov

/-- Function `applyCheckConfig(global, local, opts)`: `loc` holds the fields of the
local struct, `ov` the fields of the options struct `opts` points to.  The options
struct is changed in place, so it is returned next to the error. -/
def applyCheckConfig (global : CheckGlobalConfig) (fresh : Int) (loc : List PtrField)
    (ov : Struct) : GoResult Struct :=
  eachField (checkField global fresh) loc ov

/-- Body of the loop of `applySimulationConfig`. -/
def simulationField (global : SimulationGlobalConfig) (fresh : Int) (f : PtrField)
    (ov : Struct) : GoResult Struct :=
  if f.name = "MetricsEnabled" then
    match f.val with
    | none =>
      if global.MetricsEnabled then
        match global.MetricsPusher with
        | none => GoResult.ret ov (some "metrics pusher is nil (not set)")
        | some p => setField "MetricsPusher" (Value.pusher (some p)) ov
      else GoResult.ret ov none
    | some (Value.bool b) =>
      if b then
        match global.MetricsPusher with
        | none => GoResult.ret ov (some "metrics pusher is nil (not set)")
        | some p => setField "MetricsPusher" (Value.pusher (some p)) ov
      else GoResult.ret ov none
    | some _ => GoResult.runtimePanic "reflect: call of reflect.Value.Bool on non-bool Value"
  else if f.name = "Seed" then
    match f.val with
    | none =>
      if global.Seed ≥ 0 then setField f.name (Value.int64 global.Seed) ov
      else setField f.name (Value.int64 fresh) ov
    | some v => setLocal f v ov
  else
    match f.val with
    | none => GoResult.ret ov none
    | some v => setLocal f v ov

/-- Function `applySimulationConfig(global, local, opts)`. -/
def applySimulationConfig (global : SimulationGlobalConfig) (fresh : Int)
    (loc : List PtrField) (ov : Struct) : GoResult Struct :=
  eachField (simulationField global fresh) loc ov

/-- Body of the loop of `applyOptions`: the metrics case builds a new pusher instead of
taking one from a global configuration. -/
def optionsField (cfg : CommonOptions) (fresh : Int) (f : PtrField) (ov : Struct) :
    GoResult Struct :=
  if f.name = "MetricsEnabled" then
    match f.val with
    | none =>
      if cfg.MetricsEnabled then
        setField "MetricsPusher"
          (Value.pusher (some (push.New "optionNamePushGateway" cfg.Namespace))) ov
      else GoResult.ret ov none
    | some (Value.bool b) =>
      if b then
        setField "MetricsPusher"
          (Value.pusher (some (push.New "optionNamePushGateway" cfg.Namespace))) ov
      else GoResult.ret ov none
    | some _ => GoResult.runtimePanic "reflect: call of reflect.Value.Bool on non-bool Value"
  else if f.name = "Seed" then
    match f.val with
    | none =>
      if cfg.Seed ≥ 0 then setField f.name (Value.int64 cfg.Seed) ov
      else setField f.name (Value.int64 fresh) ov
    | some v => setLocal f v ov
  else
    match f.val with
    | none => GoResult.ret ov none
    | some v => setLocal f v ov

/-- Function `applyOptions(cfg, local, opts)`. -/
def applyOptions (cfg : CommonOptions) (fresh : Int) (loc : List PtrField) (ov : Struct) :
    GoResult Struct :=
  eachField (optionsField cfg fresh) loc ov

/-- The local struct of the `balances` check with only the seed set, to `s`. -/
def sampleLocal (s : Int) : List PtrField :=
  [{ name := "DryRun", elem := GoType.bool, val := none },
   { name := "FileName", elem := GoType.string, val := none },
   { name := "Seed", elem := GoType.int64, val := some (Value.int64 s) },
   { name := "UploadNodeCount", elem := GoType.int, val := some (Value.int 2) }]

/-- The local struct of the `balances` check with the seed unset. -/
def sampleLocalUnset : List PtrField :=
  [{ name := "DryRun", elem := GoType.bool, val := none },
   { name := "FileName", elem := GoType.string, val := none },
   { name := "Seed", elem := GoType.int64, val := none },
   { name := "UploadNodeCount", elem := GoType.int, val := some (Value.int 2) }]

/-- An options struct with default values. -/
def sampleOpts : Struct :=
  [("DryRun", Value.bool false), ("FileName", Value.string "balances"),
   ("Seed", Value.int64 0), ("UploadNodeCount", Value.int 1)]

end config

namespace balances

/-- The fields of `balances.Options` that the registry of `cmd/checks.go` sets. -/
structure Options where
  DryRun : Bool
  FileName : String
  FileSize : Int
  NodeGroup : String
  Seed : Int
  UploadNodeCount : Int
  WaitBeforeDownload : Int
deriving DecidableEq, Repr

end balances

namespace pushsync

/-- The fields of `pushsync.Options` that the registry of `cmd/checks.go` sets;
`RetryDelay` is a duration in nanoseconds. -/
structure Options where
  ChunksPerNode : Int
  FileSize : Int
  FilesPerNode : Int
  MetricsPusher : Option push.Pusher
  Mode : String
  NodeGroup : String
  Retries : Int
  RetryDelay : Int
  Seed : Int
  UploadNodeCount : Int
deriving DecidableEq, Repr

end pushsync

namespace chunkrepair

/-- The fields of `chunkrepair.Options` that the `chunkrepair` command sets. -/
structure Options where
  NodeGroup : String
  NumberOfChunksToRepair : Int
  Seed : Int
  PostageAmount : Int
  PostageWait : Int
deriving DecidableEq, Repr

end chunkrepair

namespace localpinning

/-- The fields of `localpinning.Options` that the `pin-remote` command sets. -/
structure Options where
  StoreSize : Int
  StoreSizeDivisor : Int
  Seed : Int
  PostageAmount : Int
  PostageWait : Int
deriving DecidableEq, Repr

end localpinning

namespace config

/-- The struct `config.CheckConfig`; the YAML node of the options is kept as text, the
timeout is a duration in nanoseconds, `none` when nil, and `TypeName` is the field
`Type`. -/
structure CheckConfig where
  Options : String
  Timeout : Option Int
  TypeName : String
deriving DecidableEq, Repr

/-- The struct `config.CheckType` as the run loop uses it.  `ω` is the state of the
cluster the checks act on and `Opt` the type of the option values.  `Run o w` stands for
`NewAction().Run(ctx, cluster, o)` on the cluster state `w`: it yields the cluster state
after the check and the error of the check. -/
structure CheckType (ω Opt : Type) where
  NewOptions : CheckGlobalConfig → CheckConfig → Opt × GoError
  Run : Opt → ω → ω × GoError

end config

namespace cmd

/-- The struct `balancesOptions`: every field is a pointer, `none` when nil. -/
structure balancesOptions where
  DryRun : Option Bool
  FileName : Option String
  FileSize : Option Int
  NodeGroup : Option String
  Seed : Option Int
  UploadNodeCount : Option Int
  WaitBeforeDownload : Option Int
deriving DecidableEq, Repr

/-- The struct `pushSyncOptions`. -/
structure pushSyncOptions where
  ChunksPerNode : Option Int
  FileSize : Option Int
  FilesPerNode : Option Int
  MetricsEnabled : Option Bool
  Mode : Option String
  NodeGroup : Option String
  Retries : Option Int
  RetryDelay : Option Int
  Seed : Option Int
  UploadNodeCount : Option Int
deriving DecidableEq, Repr

/-- The values the registry of `cmd/checks.go` reads from its `cfg` argument, whose type
is not among the sources: `Seed` and `MetricsEnabled` of `cfg.Run["default"]` and
`cfg.Cluster.Namespace`. -/
structure RunConfig where
  Seed : Int
  MetricsEnabled : Bool
  Namespace : String
deriving DecidableEq, Repr

/-- The `NewOptions` function of `Checks["balances"]`.  `o` is the struct and
`decodeErr` the error that `checkProfile.Options.Decode(o)` yields, `profileName` is
`checkProfile.Name`, and `fresh` is the value `random.Int64()` returns if it is called.
The result is the pair `(interface{}, error)`, with `none` for a nil interface. -/
def balancesNewOptions (cfg : RunConfig) (profileName : String) (o : balancesOptions)
    (decodeErr : GoError) (fresh : Int) : Option balances.Options × GoError :=
  match decodeErr with
  | some err => (none, some ("decoding check " ++ profileName ++ " options: " ++ err))
  | none =>
    let seed : Int :=
      if o.Seed = none ∧ cfg.Seed > 0 then cfg.Seed
      else
        match o.Seed with
        | some s => if s > 0 then s else fresh
        | none => fresh
    (some
      { Seed := seed
        DryRun := match o.DryRun with
          | some v => v
          | none => false
        FileName := match o.FileName with
          | some v => v
          | none => "balances"
        FileSize := match o.FileSize with
          | some v => v
          | none => 1 * 1024 * 1024
        NodeGroup := match o.NodeGroup with
          | some v => v
          | none => "bee"
        UploadNodeCount := match o.UploadNodeCount with
          | some v => v
          | none => 1
        WaitBeforeDownload := match o.WaitBeforeDownload with
          | some v => v
          | none => 5 }, none)

/-- The `NewOptions` function of `Checks["pushsync"]`, with the same arguments. -/
def pushSyncNewOptions (cfg : RunConfig) (profileName : String) (o : pushSyncOptions)
    (decodeErr : GoError) (fresh : Int) : Option pushsync.Options × GoError :=
  match decodeErr with
  | some err => (none, some ("decoding check " ++ profileName ++ " optiosns: " ++ err))
  | none =>
    let seed : Int :=
      if o.Seed = none ∧ cfg.Seed > 0 then cfg.Seed
      else
        match o.Seed with
        | some s => if s > 0 then s else fresh
        | none => fresh
    let pusher : Option push.Pusher :=
      if o.MetricsEnabled = none ∧ cfg.MetricsEnabled = true then
        some (push.New "optionNamePushGateway" cfg.Namespace)
      else
        match o.MetricsEnabled with
        | some true => some (push.New "optionNamePushGateway" cfg.Namespace)
        | _ => none
    (some
      { Seed := seed
        MetricsPusher := pusher
        ChunksPerNode := match o.ChunksPerNode with
          | some v => v
          | none => 1
        FileSize := match o.FileSize with
          | some v => v
          | none => 1 * 1024 * 1024
        FilesPerNode := match o.FilesPerNode with
          | some v => v
          | none => 1
        Mode := match o.Mode with
          | some v => v
          | none => "default"
        NodeGroup := match o.NodeGroup with
          | some v => v
          | none => "bee"
        Retries := match o.Retries with
          | some v => v
          | none => 5
        RetryDelay := match o.RetryDelay with
          | some v => v
          | none => 1 * 1000000000
        UploadNodeCount := match o.UploadNodeCount with
          | some v => v
          | none => 1 }, none)

/-- What the standalone commands read about the seed: `Changed` is
`cmd.Flags().Changed("seed")`, `Value` is `c.config.GetInt64(optionNameSeed)`, which is
the value given on the command line when the flag was given. -/
structure SeedFlag where
  Changed : Bool
  Value : Int
deriving DecidableEq, Repr

/-- The options the `chunkrepair` command passes to `chunkrepair.Check`: the end of its
`RunE`, after the cluster is set up.  `fresh` is the value `random.Int64()` returns if it
is called. -/
def chunkRepairOptions (flag : SeedFlag) (numberOfChunks postageAmount postageWait : Int)
    (fresh : Int) : chunkrepair.Options :=
  let seed : Int := if flag.Changed then flag.Value else fresh
  { NodeGroup := "bee"
    NumberOfChunksToRepair := numberOfChunks
    Seed := seed
    PostageAmount := postageAmount
    PostageWait := postageWait }

/-- The options the `pin-remote` command passes to
`localpinning.CheckRemoteChunksFound`: the end of its `RunE`. -/
def pinRemoteOptions (flag : SeedFlag) (storeSize storeSizeDivisor postageAmount
    postageWait : Int) (fresh : Int) : localpinning.Options :=
  let seed : Int := if flag.Changed then flag.Value else fresh
  { StoreSize := storeSize
    StoreSizeDivisor := storeSizeDivisor
    Seed := seed
    PostageAmount := postageAmount
    PostageWait := postageWait }

/-- The loop `for _, checkName := range ...` in the `RunE` of the `check` command.
`cfgChecks` is the map `c.config.Checks`, `registry` the map `config.Checks`.  The
result is the cluster state when `RunE` returns, and the error it returns. -/
def runChecks {ω Opt : Type} (cfgChecks : String → Option config.CheckConfig)
    (registry : String → Option (config.CheckType ω Opt)) (global : config.CheckGlobalConfig) :
    List String → ω → ω × GoError
  | [], w => (w, none)
  | checkName :: rest, w =>
    match cfgChecks checkName with
    | none => (w, some ("check " ++ checkName ++ " doesn't exist"))
    | some checkConfig =>
      match registry checkConfig.TypeName with
      | none => (w, some ("check " ++ checkConfig.TypeName ++ " not implemented"))
      | some check =>
        match check.NewOptions global checkConfig with
        | (_, some err) => (w, some ("creating check " ++ checkName ++ " options: " ++ err))
        | (o, none) =>
          match check.Run o w with
          | (w1, some err) => (w1, some ("running check " ++ checkName ++ ": " ++ err))
          | (w1, none) => runChecks cfgChecks registry global rest w1

/-- A registry for running the loop on concrete input: the cluster state is the list of
the options of the checks run so far, and the check of type `"bad"` fails. -/
def sampleRegistry : String → Option (config.CheckType (List String) String) := fun t =>
  if t = "good" then
    some { NewOptions := fun _ c => (c.Options, none), Run := fun o w => (w ++ [o], none) }
  else if t = "bad" then
    some { NewOptions := fun _ c => (c.Options, none),
           Run := fun o w => (w ++ [o], some "replication too low") }
  else none

/-- A check configuration for the sample registry: `first` is good, `second` is bad,
`third` is good. -/
def sampleChecks : String → Option config.CheckConfig := fun n =>
  if n = "first" then some { Options := "first ran", Timeout := none, TypeName := "good" }
  else if n = "second" then some { Options := "second ran", Timeout := none, TypeName := "bad" }
  else if n = "third" then some { Options := "third ran", Timeout := none, TypeName := "good" }
  else none

/-- A global check configuration without metrics. -/
def sampleGlobal : config.CheckGlobalConfig :=
  { MetricsEnabled := false, MetricsPusher := none, Seed := 0 }

end cmd

namespace soc

/-- Method `Check2.Run(ctx, cluster, o)`: its body is the single statement `return`, with
the named result `err` at its zero value.  The result is the cluster after the call and
the error. -/
def Check2.Run {κ ω α : Type} (_ctx : κ) (cluster : ω) (_o : α) : ω × GoError :=
  (cluster, none)

end soc

namespace config

/-- The entry `Checks["soc"]` of the registry: its action is `soc.NewCheck()`, a
`Check2`.  `newOptions` stands for the `NewOptions` function of the entry. -/
def socCheckType {ω Opt : Type} (newOptions : CheckGlobalConfig → CheckConfig → Opt × GoError) :
    CheckType ω Opt :=
  { NewOptions := newOptions, Run := fun o w => soc.Check2.Run () w o }

end config

namespace config

/-- The pusher the `check` command builds for the namespace `ns`. -/
def samplePusher : push.Pusher := push.New "beekeeper" "ns"

/-- The local struct of the `chunk-repair` check with the seed set to `s`; `lv` is what
the pointer `MetricsEnabled` points to, `none` for nil. -/
def sampleRepairLocal (lv : Option Bool) (s : Int) : List reflect.PtrField :=
  [reflect.PtrField.mk "MetricsEnabled" reflect.GoType.bool (lv.map reflect.Value.bool),
   reflect.PtrField.mk "NodeGroup" reflect.GoType.string none,
   reflect.PtrField.mk "NumberOfChunksToRepair" reflect.GoType.int none,
   reflect.PtrField.mk "Seed" reflect.GoType.int64 (some (reflect.Value.int64 s))]

/-- An options struct for the `chunk-repair` check with a nil `MetricsPusher` and the
seed `0`. -/
def sampleRepairOpts : reflect.Struct :=
  [("MetricsPusher", reflect.Value.pusher none),
   ("NodeGroup", reflect.Value.string "bee"),
   ("NumberOfChunksToRepair", reflect.Value.int 1),
   ("Seed", reflect.Value.int64 0)]

end config

namespace config

/-- The struct `Simulation`; `TypeName` is the field `Type`. -/
structure Simulation where
  Options : String
  Timeout : Option Int
  TypeName : String
deriving DecidableEq, Repr

/-- A profile of one of the kinds `BeeConfig`, `NodeGroup` and `Cluster`, whose struct
declarations are not among the sources.  `Config.merge` uses two things of such a struct:
the promoted field `ParrentName` of the embedded `Inherit`, and, through reflection, the
list of its fields, every one of which can be nil (`none`). -/
structure Profile where
  ParrentName : String
  fields : List (Option reflect.Value)
deriving DecidableEq, Repr

/-- A Go map from profile names to profiles: its entries, with distinct names.  The order
of the list is the order in which a `range` loop visits the entries, which Go does not
fix. -/
abbrev Profiles := List (String × Profile)

/-- Map index `m[name]` with the `ok` result: `none` when the name is not in the map. -/
def Profiles.get : Profiles → String → Option Profile
  | [], _ => none
  | (n, v) :: rest, name => if n = name then some v else Profiles.get rest name

/-- Map assignment `m[name] = v`. -/
def Profiles.set : Profiles → String → Profile → Profiles
  | [], name, v => [(name, v)]
  | (n, old) :: rest, name, v =>
    if n = name then (n, v) :: rest else (n, old) :: Profiles.set rest name v

/-- The inner loop `for i := 0; i < m.NumField(); i++` of `merge` on the fields of the
child `m` and of the parent `p`, two structs of the same type: a field that is nil in the
child and not nil in the parent takes the parent's value. -/
def mergeFields : List (Option reflect.Value) → List (Option reflect.Value) →
    List (Option reflect.Value)
  | m :: ms, p :: ps => (if m = none ∧ p ≠ none then p else m) :: mergeFields ms ps
  | ms, [] => ms
  | [], _ :: _ => []

/-- One of the three loops `for name, v := range ...` of `merge`.  `all` is the map that
is ranged over and in which parents are looked up, the list argument holds the entries
still to visit, `merged` is the map built so far, and `kind` is the start of the error
message.  The result is the merged map and the error the loop makes `merge` return. -/
def mergeLoop (kind : String) (all : Profiles) : Profiles → Profiles → Profiles × GoError
  | [], merged => (merged, none)
  | (name, v) :: rest, merged =>
    if v.ParrentName.length = 0 then
      mergeLoop kind all rest (merged.set name v)
    else
      match all.get v.ParrentName with
      | none => (merged, some (kind ++ v.ParrentName ++ " doesn't exist"))
      | some parent =>
        mergeLoop kind all rest
          (merged.set name { v with fields := mergeFields v.fields parent.fields })

/-- The merged value of a profile `v` in the map `all`: the profile itself when it names
no parent, its merge with the parent when the parent is in the map, and `none` when the
parent is missing. -/
def mergedProfile (all : Profiles) (v : Profile) : Option Profile :=
  if v.ParrentName.length = 0 then some v
  else (all.get v.ParrentName).map
    (fun parent => { v with fields := mergeFields v.fields parent.fields })

/-- The struct `Config`. -/
structure Config where
  Clusters : Profiles
  NodeGroups : Profiles
  BeeConfigs : Profiles
  Checks : List (String × CheckConfig)
  Simulations : List (String × Simulation)
deriving DecidableEq, Repr

/-- Method `Config.merge`.  The configuration is changed in place, so it is returned next
to the error: after a failing loop the maps merged before it are already replaced. -/
def Config.merge (c : Config) : Config × GoError :=
  match mergeLoop "bee profile " c.BeeConfigs c.BeeConfigs [] with
  | (_, some e) => (c, some e)
  | (mergedBC, none) =>
    match mergeLoop "node group profile " c.NodeGroups c.NodeGroups [] with
    | (_, some e) => ({ c with BeeConfigs := mergedBC }, some e)
    | (mergedNG, none) =>
      match mergeLoop "bee profile " c.Clusters c.Clusters [] with
      | (_, some e) => ({ c with BeeConfigs := mergedBC, NodeGroups := mergedNG }, some e)
      | (mergedC, none) =>
        ({ c with BeeConfigs := mergedBC, NodeGroups := mergedNG, Clusters := mergedC },
          none)

/-- A chain of three bee profiles: `child` inherits from `parent`, which inherits from
`grandparent`.  Field 0 is set only in the grandparent, field 1 only in the parent,
field 2 in the child and in the parent. -/
def sampleProfiles : Profiles :=
  [("child", Profile.mk "parent" [none, none, some (reflect.Value.int 3)]),
   ("grandparent", Profile.mk "" [some (reflect.Value.string "g"), none, none]),
   ("parent", Profile.mk "grandparent"
      [none, some (reflect.Value.bool true), some (reflect.Value.int 2)])]

/-- A configuration with the sample chain as bee profiles. -/
def sampleConfig : Config :=
  { Clusters := [], NodeGroups := [], BeeConfigs := sampleProfiles, Checks := [],
    Simulations := [] }

end config

namespace smoke

/-- The struct `Options` of the smoke check; `Timeout` is a duration in nanoseconds. -/
structure Options where
  Bytes : Int
  NodeGroup : String
  Runs : Int
  Seed : Int
  Timeout : Int
  UploadNodeCount : Int
deriving DecidableEq, Repr

/-- Function `NewDefaultOptions`. -/
def NewDefaultOptions : Options :=
  { Bytes := 0, NodeGroup := "bee", Runs := 1, Seed := 0, Timeout := 0, UploadNodeCount := 1 }

/-- What `Run` calls outside the sources.  `ω` is the state of the cluster, `σ` and `ρ`
are the states of the two generators: `R` with `NewRand seed` stands for
`rand.New(rand.NewSource(seed))`, `P` with `PseudoGenerator seed` for
`random.PseudoGenerator(seed)`.  `NodesSorted` gives the sorted node names of a node
group; the other four are the operations of a node client, which take the node name and
the cluster state and yield their results and the cluster state after the call.
`WaitSync` and `DownloadBytes` run under the context with the timeout of the options,
which they get as an argument. -/
structure Env (ω σ ρ : Type) where
  R : rand.Rand σ
  NewRand : Int → σ
  P : rand.Rand ρ
  PseudoGenerator : Int → ρ
  NodesSorted : String → ω → List String
  CreateTag : String → ω → (Nat × GoError) × ω
  UploadBytes : String → List Byte → Nat → ω → (swarm.Address × GoError) × ω
  WaitSync : String → Nat → Int → ω → GoError × ω
  DownloadBytes : String → swarm.Address → Int → ω → (List Byte × GoError) × ω

/-- Everything `Run` changes: the cluster, the generator `r` that picks nodes, the
generator `rnd` that makes the payload, and the lines printed. -/
structure State (ω σ ρ : Type) where
  cluster : ω
  r : σ
  rnd : ρ
  out : List String
deriving DecidableEq

/-- How `Run` ends: `none` when a `randNot` loop has not returned within the fuel,
otherwise the state at the end with the returned error, or a run-time panic. -/
abbrev Final (ω σ ρ : Type) := Option (GoResult (State ω σ ρ))

/-- What an iteration holds when it reaches the comparison `bytes.Equal(data, dd)`: the
state after the download, the name of the download node, the payload `data` that was
generated and uploaded, and the downloaded bytes `dd`. -/
structure Transfer (ω σ ρ : Type) where
  st : State ω σ ρ
  downloadNode : String
  data : List Byte
  dd : List Byte
deriving DecidableEq

/-- The body of the loop of `Run` up to the download: pick the uploader, create a tag,
generate the payload, upload it, wait for the sync, pick the download node with
`randNot`, download.  A `return` of `Run` inside this part is `Except.error` with the
way `Run` ends. -/
def transfer {ω σ ρ : Type} (E : Env ω σ ρ) (o : Options) (sortedNodes : List String)
    (fuel : Nat) (i : Nat) (st : State ω σ ρ) : Except (Final ω σ ρ) (Transfer ω σ ρ) :=
  if sortedNodes.length = 0 then
    Except.error (some (GoResult.runtimePanic "invalid argument to Intn"))
  else
    let u := E.R.Intn sortedNodes.length st.r
    match sortedNodes[u.1]? with
    | none => Except.error (some (GoResult.runtimePanic "index out of range"))
    | some nodeName =>
      let out1 := st.out ++ ["run " ++ toString i ++ ", uploader node is: " ++ nodeName]
      match E.CreateTag nodeName st.cluster with
      | ((_, some e), w1) =>
        Except.error (some (GoResult.ret
          { cluster := w1, r := u.2, rnd := st.rnd, out := out1 }
          (some ("get tag from node " ++ nodeName ++ ": " ++ e))))
      | ((uid, none), w1) =>
        if o.Bytes < 0 then
          Except.error (some (GoResult.runtimePanic "makeslice: len out of range"))
        else
          let rd := E.P.Read o.Bytes.toNat st.rnd
          match rd.1.2.2 with
          | some e =>
            Except.error (some (GoResult.ret
              { cluster := w1, r := u.2, rnd := rd.2, out := out1 }
              (some ("create random data: " ++ e))))
          | none =>
            let data := rd.1.1
            match E.UploadBytes nodeName data uid w1 with
            | ((_, some e), w2) =>
              Except.error (some (GoResult.ret
                { cluster := w2, r := u.2, rnd := rd.2, out := out1 }
                (some ("upload to node " ++ nodeName ++ ": " ++ e))))
            | ((addr, none), w2) =>
              match E.WaitSync nodeName uid o.Timeout w2 with
              | (some e, w3) =>
                Except.error (some (GoResult.ret
                  { cluster := w3, r := u.2, rnd := rd.2, out := out1 }
                  (some ("sync with node " ++ nodeName ++ ": " ++ e))))
              | (none, w3) =>
                match randNot E.R fuel u.2 sortedNodes.length u.1 with
                | none => Except.error none
                | some ((n, r2), lines) =>
                  match sortedNodes[n.toNat]? with
                  | none => Except.error (some (GoResult.runtimePanic "index out of range"))
                  | some downloadNode =>
                    match E.DownloadBytes downloadNode addr o.Timeout w3 with
                    | ((_, some e), w4) =>
                      Except.error (some (GoResult.ret
                        { cluster := w4, r := r2, rnd := rd.2, out := out1 ++ lines }
                        (some ("download from node " ++ nodeName ++ ": " ++ e))))
                    | ((dd, none), w4) =>
                      Except.ok
                        { st := { cluster := w4, r := r2, rnd := rd.2, out := out1 ++ lines }
                          downloadNode := downloadNode
                          data := data
                          dd := dd }

/-- The body of the loop of `Run`: the part up to the download, then the comparison of
the downloaded bytes with the payload. -/
def iteration {ω σ ρ : Type} (E : Env ω σ ρ) (o : Options) (sortedNodes : List String)
    (fuel : Nat) (i : Nat) (st : State ω σ ρ) : Except (Final ω σ ρ) (State ω σ ρ) :=
  match transfer E o sortedNodes fuel i st with
  | Except.error fin => Except.error fin
  | Except.ok t =>
    if t.data ≠ t.dd then
      Except.error (some (GoResult.ret t.st (some "download data mismatch")))
    else
      Except.ok { t.st with
        out := t.st.out ++ ["Downloaded successfully from node: " ++ t.downloadNode] }

/-- The loop `for i := 0; i < o.Runs; i++` of `Run`, from iteration `i` on with `k`
iterations left. -/
def runLoop {ω σ ρ : Type} (E : Env ω σ ρ) (o : Options) (sortedNodes : List String)
    (fuel : Nat) : Nat → Nat → State ω σ ρ → Except (Final ω σ ρ) (State ω σ ρ)
  | _, 0, st => Except.ok st
  | i, k + 1, st =>
    match iteration E o sortedNodes fuel i st with
    | Except.error fin => Except.error fin
    | Except.ok st1 => runLoop E o sortedNodes fuel (i + 1) k st1

/-- The state in which the loop of `Run` starts: the seed is printed and the two
generators are made from the seed. -/
def startState {ω σ ρ : Type} (E : Env ω σ ρ) (o : Options) (cluster : ω) : State ω σ ρ :=
  { cluster := cluster, r := E.NewRand o.Seed, rnd := E.PseudoGenerator o.Seed,
    out := ["seed: " ++ toString o.Seed] }

/-- Method `Check.Run(ctx, cluster, opts)` for an `opts` that holds an `Options` value
`o` (for any other value `Run` returns "invalid options type" at once).  `fuel` bounds
the draws of each `randNot` call. -/
def Run {ω σ ρ : Type} (E : Env ω σ ρ) (fuel : Nat) (o : Options) (cluster : ω) :
    Final ω σ ρ :=
  match runLoop E o (E.NodesSorted o.NodeGroup cluster) fuel 0 o.Runs.toNat
      (startState E o cluster) with
  | Except.error fin => fin
  | Except.ok st =>
    some (GoResult.ret { st with out := st.out ++ ["smoke test completed successfully"] }
      none)

/-- A cluster for running the check on concrete input: its state is the list of the
operations performed so far.  The address of uploaded bytes holds these bytes, and a
download gives them back, with one more byte when the cluster is `spoiled`; the wait for
the sync fails when `syncFails` is set. -/
def sampleEnv (spoiled : Bool) (syncFails : Bool) : Env (List String) Nat Nat :=
  { R := rand.lcg
    NewRand := fun seed => seed.toNat
    P := rand.lcg
    PseudoGenerator := fun seed => seed.toNat + 1
    NodesSorted := fun _ _ => ["bee-0", "bee-1", "bee-2"]
    CreateTag := fun node w => ((1, none), w ++ ["tag " ++ node])
    UploadBytes := fun node data _ w => ((swarm.Address.mk data, none), w ++ ["upload " ++ node])
    WaitSync := fun node _ _ w =>
      (if syncFails then some "context deadline exceeded" else none, w ++ ["sync " ++ node])
    DownloadBytes := fun node addr _ w =>
      ((if spoiled then addr.b ++ [0] else addr.b, none), w ++ ["download " ++ node]) }

/-- The options of the sample runs: two runs with payloads of two bytes. -/
def sampleOptions : Options :=
  { Bytes := 2, NodeGroup := "bee", Runs := 2, Seed := 65536, Timeout := 0, UploadNodeCount := 1 }

end smoke

namespace hex

/-- Modelled from the spec: the digit of `encoding/hex` (Go library code) for a value
below 16, in lower case. -/
def digit (n : Nat) : Char :=
  "0123456789abcdef".toList.getD n '0'

/-- Modelled from the spec: `hex.EncodeToString` (Go library code), two lower-case
hexadecimal digits for each byte, the high four bits first. -/
def EncodeToString (bs : List Byte) : String :=
  String.mk (bs.foldr (fun b acc => digit (b.val / 16) :: digit (b.val % 16) :: acc) [])

end hex

namespace swarm

/-- Modelled from the spec: method `Address.String` of the bee library, the hexadecimal
form of the bytes of the address. -/
def Address.String (a : Address) : String :=
  hex.EncodeToString a.b

/-- Modelled from the spec: a chunk of the bee library (interface `swarm.Chunk`), with
what `Address()` and `Data()` give.  `spare` holds the bytes of the backing array of
`Data()` between its length and its capacity, which a slice expression can reach. -/
structure Chunk where
  address : Address
  data : List Byte
  spare : List Byte
deriving DecidableEq

end swarm

namespace time

/-- Modelled from the spec: `time.Minute` (Go library), a duration in nanoseconds. -/
def Minute : Int := 60000000000

end time

namespace soc

/-- The struct `Options` of the soc check. -/
structure Options where
  NodeGroup : String
  Seed : Int
deriving DecidableEq, Repr

/-- Modelled from the spec: `soc.IdSize` of the bee library. -/
def IdSize : Nat := 32

/-- Modelled from the spec: `soc.SignatureSize` of the bee library. -/
def SignatureSize : Nat := 65

/-- What `Check` calls outside the sources.  `ω` is the state of the world (the cluster
and the random source of the system), `κ` the type of private keys, `π` the type of
public keys.  `NodesSorted` gives the sorted node names of a node group;
`GenerateSecp256k1Key` is `crypto.GenerateSecp256k1Key`; `cacNew` is `cac.New`;
`randRead n` is `crypto/rand.Read` on a buffer of `n` bytes and gives the buffer after
the call; `Sign id ch key` is `soc.New(id, ch).Sign(signer)` for the default signer of
`key`; `PublicKey` is `signer.PublicKey()`, whose result is a pointer (`none` for nil);
`NewEthereumAddress` is `crypto.NewEthereumAddress`; `UploadSOC` and `DownloadChunk` are
the operations of a node client, which take the node name and the timeout of their
context. -/
structure Env (ω κ π : Type) where
  NodesSorted : String → ω → List String
  GenerateSecp256k1Key : ω → (κ × GoError) × ω
  cacNew : List Byte → swarm.Chunk × GoError
  randRead : Nat → ω → (List Byte × GoError) × ω
  Sign : List Byte → swarm.Chunk → κ → ω → (swarm.Chunk × GoError) × ω
  PublicKey : κ → Option π × GoError
  NewEthereumAddress : π → List Byte × GoError
  UploadSOC : String → Int → String → String → String → List Byte → ω →
    (swarm.Address × GoError) × ω
  DownloadChunk : String → Int → swarm.Address → String → ω → (List Byte × GoError) × ω
  randRead_length : ∀ n w, (randRead n w).1.1.length = n

/-- Everything `Check` changes: the world and the lines printed. -/
structure State (ω : Type) where
  world : ω
  out : List String
deriving DecidableEq

/-- Function `randomID`: a key of 32 bytes read from the random source, or nil with the
error of the read. -/
def randomID {ω κ π : Type} (E : Env ω κ π) (w : ω) : (List Byte × GoError) × ω :=
  match E.randRead 32 w with
  | ((_, some e), w1) => (([], some e), w1)
  | ((key, none), w1) => ((key, none), w1)

/-- The bytes of the string `"Hello Swarm :)"`. -/
def payload : List Byte :=
  [72, 101, 108, 108, 111, 32, 83, 119, 97, 114, 109, 32, 58, 41]

end soc

namespace soc

/-- Function `Check(c, o, pusher, pushMetrics)`: sign a single-owner chunk over the
payload with a fresh key and a random id, upload it through the first node of the node
group, download it from the same node by the reference of the upload, and compare the
retrieved bytes with the data of the signed chunk.  The arguments `pusher` and
`pushMetrics` are not used. -/
def Check {ω κ π Ψ : Type} (E : Env ω κ π) (c : ω) (o : Options) (_pusher : Ψ)
    (_pushMetrics : Bool) : GoResult (State ω) :=
  let sortedNodes := E.NodesSorted o.NodeGroup c
  match E.GenerateSecp256k1Key c with
  | ((_, some e), w1) => GoResult.ret { world := w1, out := [] } (some e)
  | ((privKey, none), w1) =>
    match E.cacNew payload with
    | (_, some e) => GoResult.ret { world := w1, out := [] } (some e)
    | (ch, none) =>
      match randomID E w1 with
      | ((_, some e), w2) => GoResult.ret { world := w2, out := [] } (some e)
      | ((idBytes, none), w2) =>
        match E.Sign idBytes ch privKey w2 with
        | ((_, some e), w3) => GoResult.ret { world := w3, out := [] } (some e)
        | ((sch, none), w3) =>
          let chunkData := sch.data
          if sch.data.length + sch.spare.length < IdSize + SignatureSize then
            GoResult.runtimePanic ("slice bounds out of range [:97] with capacity " ++
              toString (sch.data.length + sch.spare.length))
          else
            let signatureBytes := ((sch.data ++ sch.spare).drop IdSize).take SignatureSize
            match E.PublicKey privKey with
            | (_, some e) => GoResult.ret { world := w3, out := [] } (some e)
            | (none, none) =>
              GoResult.runtimePanic "invalid memory address or nil pointer dereference"
            | (some publicKey, none) =>
              match E.NewEthereumAddress publicKey with
              | (_, some e) => GoResult.ret { world := w3, out := [] } (some e)
              | (ownerBytes, none) =>
                match sortedNodes[0]? with
                | none => GoResult.runtimePanic "index out of range [0] with length 0"
                | some nodeName =>
                  let owner := hex.EncodeToString ownerBytes
                  let id := hex.EncodeToString idBytes
                  let sig := hex.EncodeToString signatureBytes
                  let out :=
                    ["soc: submitting soc chunk " ++ sch.address.String ++ " to node " ++
                      nodeName,
                     "soc: owner " ++ owner, "soc: id " ++ id, "soc: sig " ++ sig]
                  match E.UploadSOC nodeName time.Minute owner id sig ch.data w3 with
                  | ((_, some e), w4) => GoResult.ret { world := w4, out := out } (some e)
                  | ((ref, none), w4) =>
                    match E.DownloadChunk nodeName time.Minute ref "" w4 with
                    | ((_, some e), w5) =>
                      GoResult.ret { world := w5, out := out } (some e)
                    | ((retrieved, none), w5) =>
                      if retrieved ≠ chunkData then
                        GoResult.ret { world := w5, out := out }
                          (some "soc: retrieved chunk data does NOT match soc chunk")
                      else
                        GoResult.ret { world := w5, out := out } none

/-- The data of the single-owner chunk that the sample signer makes: the id, the
signature, and the data of the content chunk. -/
def sampleData : List Byte :=
  List.replicate 32 5 ++ List.replicate 65 9 ++ ([14, 0, 0, 0, 0, 0, 0, 0] ++ payload)

/-- A world for running the check on concrete input: its state is the list of the
operations performed so far.  The download gives the data of the chunk of the sample
signer, without its last byte when the world is `spoiled`. -/
def sampleEnv (spoiled : Bool) : Env (List String) Nat Nat :=
  { NodesSorted := fun _ _ => ["bee-0", "bee-1"]
    GenerateSecp256k1Key := fun w => ((7, none), w ++ ["key"])
    cacNew := fun p =>
      (swarm.Chunk.mk (swarm.Address.mk [1]) ([14, 0, 0, 0, 0, 0, 0, 0] ++ p) [], none)
    randRead := fun n w => ((List.replicate n 5, none), w ++ ["read"])
    Sign := fun id ch _ w =>
      ((swarm.Chunk.mk (swarm.Address.mk [2]) (id ++ List.replicate 65 9 ++ ch.data) [],
        none), w ++ ["sign"])
    PublicKey := fun k => (some (k + 1), none)
    NewEthereumAddress := fun p => (List.replicate 20 (Fin.ofNat p), none)
    UploadSOC := fun node _ _ _ _ _ w => ((swarm.Address.mk [3], none), w ++ ["upload " ++ node])
    DownloadChunk := fun node _ _ _ w =>
      ((if spoiled then sampleData.dropLast else sampleData, none),
        w ++ ["download " ++ node])
    randRead_length := fun n _ => List.length_replicate n 5 }

/-- The options of the sample runs. -/
def sampleOptions : Options :=
  { NodeGroup := "bee", Seed := 0 }

end soc

/-! ## Distance comparison against the big-endian XOR distance -/

theorem beNat_lt (xs : List Byte) : beNat xs < 256 ^ xs.length := by
  induction xs with
  | nil => simp [beNat]
  | cons x xs ih =>
    have hx : x.val + 1 ≤ 256 := x.isLt
    have hmul : (x.val + 1) * 256 ^ xs.length ≤ 256 * 256 ^ xs.length :=
      Nat.mul_le_mul_right _ hx
    simp only [beNat, List.length_cons, pow_succ]
    rw [Nat.add_mul] at hmul
    omega

theorem xorBytes_length (x a : List Byte) (h : x.length = a.length) :
    (xorBytes x a).length = a.length := by
  simp [xorBytes, h]

theorem beNat_cons_lt (p q : Byte) (ps qs : List Byte) (hlen : ps.length = qs.length)
    (hpq : p < q) : beNat (p :: ps) < beNat (q :: qs) := by
  have hp := beNat_lt ps
  have hv : p.val + 1 ≤ q.val := hpq
  have hmul : (p.val + 1) * 256 ^ qs.length ≤ q.val * 256 ^ qs.length :=
    Nat.mul_le_mul_right _ hv
  simp only [beNat, hlen] at hp ⊢
  rw [Nat.add_mul] at hmul
  omega

/-- The byte loop of `DistanceCmp` decides the order of the two XOR distances: `0` when
they are equal, `1` when `x` is nearer to `a`, `-1` when `y` is nearer. -/
theorem distanceCmpLoop_spec (a : List Byte) :
    ∀ x y : List Byte, x.length = a.length → y.length = a.length →
      (swarm.distanceCmpLoop a x y = 0 ∧ xorDistance x a = xorDistance y a) ∨
      (swarm.distanceCmpLoop a x y = 1 ∧ xorDistance x a < xorDistance y a) ∨
      (swarm.distanceCmpLoop a x y = -1 ∧ xorDistance y a < xorDistance x a) := by
  induction a with
  | nil =>
    intro x y hx hy
    have hx0 : x = [] := List.length_eq_zero.mp hx
    have hy0 : y = [] := List.length_eq_zero.mp hy
    subst hx0 hy0
    left
    simp [swarm.distanceCmpLoop, xorDistance, xorBytes]
  | cons a0 as ih =>
    intro x y hx hy
    cases x with
    | nil => simp at hx
    | cons x0 xs =>
      cases y with
      | nil => simp at hy
      | cons y0 ys =>
        have hxs : xs.length = as.length := by simpa using hx
        have hys : ys.length = as.length := by simpa using hy
        have hlx := xorBytes_length xs as hxs
        have hly := xorBytes_length ys as hys
        by_cases heq : x0 ^^^ a0 = y0 ^^^ a0
        · have hloop : swarm.distanceCmpLoop (a0 :: as) (x0 :: xs) (y0 :: ys) =
              swarm.distanceCmpLoop as xs ys := by
            simp [swarm.distanceCmpLoop, heq]
          have hdx : xorDistance (x0 :: xs) (a0 :: as) =
              (y0 ^^^ a0).val * 256 ^ as.length + xorDistance xs as := by
            simp [xorDistance, xorBytes, beNat, heq, hxs]
          have hdy : xorDistance (y0 :: ys) (a0 :: as) =
              (y0 ^^^ a0).val * 256 ^ as.length + xorDistance ys as := by
            simp [xorDistance, xorBytes, beNat, hys]
          rw [hloop, hdx, hdy]
          rcases ih xs ys hxs hys with h | h | h
          · left; exact ⟨h.1, by omega⟩
          · right; left; exact ⟨h.1, by omega⟩
          · right; right; exact ⟨h.1, by omega⟩
        · by_cases hlt : x0 ^^^ a0 < y0 ^^^ a0
          · right; left
            refine ⟨by simp [swarm.distanceCmpLoop, heq, hlt], ?_⟩
            exact beNat_cons_lt _ _ _ _ (hlx.trans hly.symm) hlt
          · right; right
            refine ⟨by simp [swarm.distanceCmpLoop, heq, hlt], ?_⟩
            have hgt : y0 ^^^ a0 < x0 ^^^ a0 := by
              rcases lt_trichotomy (x0 ^^^ a0) (y0 ^^^ a0) with h | h | h
              · exact absurd h hlt
              · exact absurd h heq
              · exact h
            exact beNat_cons_lt _ _ _ _ (hly.trans hlx.symm) hgt

/-! ## The selection loop -/

/-- One iteration of the loop on addresses of the right length: the candidate replaces
the current closest exactly when it is strictly nearer to the reference address. -/
theorem closestLoop_step (addr closest a : swarm.Address) (rest : List swarm.Address)
    (hc : closest.Bytes.length = addr.Bytes.length)
    (ha : a.Bytes.length = addr.Bytes.length) :
    bee.closestLoop addr closest (a :: rest) =
      if xorDistance a.Bytes addr.Bytes < xorDistance closest.Bytes addr.Bytes then
        bee.closestLoop addr a rest
      else bee.closestLoop addr closest rest := by
  have hcmp : swarm.DistanceCmp addr.Bytes closest.Bytes a.Bytes =
      (swarm.distanceCmpLoop addr.Bytes closest.Bytes a.Bytes, none) := by
    simp [swarm.DistanceCmp, hc, ha]
  rw [bee.closestLoop, hcmp]
  rcases distanceCmpLoop_spec addr.Bytes closest.Bytes a.Bytes hc ha with h | h | h
  · have hn : ¬ xorDistance a.Bytes addr.Bytes < xorDistance closest.Bytes addr.Bytes := by
      omega
    simp [h.1, hn]
  · have hn : ¬ xorDistance a.Bytes addr.Bytes < xorDistance closest.Bytes addr.Bytes := by
      omega
    simp [h.1, hn]
  · simp [h.1, h.2]

/-- On addresses of the right length the loop ends without error on the first element of
`closest :: rest` that has the least distance: everything before it is strictly farther,
everything after it is at least as far. -/
theorem closestLoop_first_min (addr : swarm.Address) (rest : List swarm.Address) :
    ∀ closest : swarm.Address, closest.Bytes.length = addr.Bytes.length →
      (∀ a ∈ rest, a.Bytes.length = addr.Bytes.length) →
      ∃ pre r post, closest :: rest = pre ++ r :: post ∧
        bee.closestLoop addr closest rest = (r, none) ∧
        (∀ a ∈ pre, xorDistance r.Bytes addr.Bytes < xorDistance a.Bytes addr.Bytes) ∧
        (∀ a ∈ post, xorDistance r.Bytes addr.Bytes ≤ xorDistance a.Bytes addr.Bytes) := by
  induction rest with
  | nil =>
    intro closest _ _
    exact ⟨[], closest, [], rfl, rfl, by simp, by simp⟩
  | cons a rest ih =>
    intro closest hc hr
    have ha : a.Bytes.length = addr.Bytes.length := hr a (List.mem_cons_self _ _)
    have hrest : ∀ x ∈ rest, x.Bytes.length = addr.Bytes.length :=
      fun x hx => hr x (List.mem_cons_of_mem _ hx)
    rw [closestLoop_step addr closest a rest hc ha]
    by_cases hlt : xorDistance a.Bytes addr.Bytes < xorDistance closest.Bytes addr.Bytes
    · rw [if_pos hlt]
      obtain ⟨pre, r, post, hsplit, hrun, hpre, hpost⟩ := ih a ha hrest
      have hra : xorDistance r.Bytes addr.Bytes ≤ xorDistance a.Bytes addr.Bytes := by
        cases pre with
        | nil =>
          simp only [List.nil_append, List.cons.injEq] at hsplit
          rw [← hsplit.1]
        | cons p pre =>
          simp only [List.cons_append, List.cons.injEq] at hsplit
          exact Nat.le_of_lt (hpre a (by rw [hsplit.1]; exact List.mem_cons_self _ _))
      refine ⟨closest :: pre, r, post, by rw [hsplit]; rfl, hrun, ?_, hpost⟩
      intro x hx
      rcases List.mem_cons.mp hx with h | h
      · subst h; omega
      · exact hpre x h
    · rw [if_neg hlt]
      obtain ⟨pre, r, post, hsplit, hrun, hpre, hpost⟩ := ih closest hc hrest
      cases pre with
      | nil =>
        simp only [List.nil_append, List.cons.injEq] at hsplit
        obtain ⟨h1, h2⟩ := hsplit
        subst h1 h2
        refine ⟨[], closest, a :: rest, rfl, hrun, by simp, ?_⟩
        intro x hx
        rcases List.mem_cons.mp hx with h | h
        · subst h; omega
        · exact hpost x h
      | cons p pre =>
        simp only [List.cons_append, List.cons.injEq] at hsplit
        obtain ⟨h1, h2⟩ := hsplit
        subst h1
        have hrc := hpre closest (List.mem_cons_self _ _)
        refine ⟨closest :: a :: pre, r, post, by rw [h2]; rfl, hrun, ?_, hpost⟩
        intro x hx
        rcases List.mem_cons.mp hx with h | h
        · subst h; exact hrc
        · rcases List.mem_cons.mp h with h' | h'
          · subst h'; omega
          · exact hpre x (List.mem_cons_of_mem _ h')

/-- As soon as two candidates are compared and an address of the wrong length is the
current closest or lies ahead in the list, the loop ends with the zero address and the
wrapped length error. -/
theorem closestLoop_mismatch (addr : swarm.Address) (rest : List swarm.Address) :
    ∀ closest : swarm.Address,
      (closest.Bytes.length ≠ addr.Bytes.length ∧ rest ≠ []) ∨
        (∃ a ∈ rest, a.Bytes.length ≠ addr.Bytes.length) →
      bee.closestLoop addr closest rest =
        (swarm.Address.zero, some "find closest node: address length must match") := by
  induction rest with
  | nil =>
    intro closest h
    rcases h with h | ⟨a, ha, _⟩
    · exact absurd rfl h.2
    · simp at ha
  | cons a rest ih =>
    intro closest h
    by_cases hbad : addr.Bytes.length ≠ closest.Bytes.length ∨
        addr.Bytes.length ≠ a.Bytes.length
    · have hcmp : swarm.DistanceCmp addr.Bytes closest.Bytes a.Bytes =
          (0, some "address length must match") := by
        unfold swarm.DistanceCmp
        rw [if_pos hbad]
      rw [bee.closestLoop, hcmp]
      rfl
    · have hc : closest.Bytes.length = addr.Bytes.length := by
        by_contra hne
        exact hbad (Or.inl (fun e => hne e.symm))
      have ha : a.Bytes.length = addr.Bytes.length := by
        by_contra hne
        exact hbad (Or.inr (fun e => hne e.symm))
      have hrest : ∃ x ∈ rest, x.Bytes.length ≠ addr.Bytes.length := by
        rcases h with h | ⟨x, hx, hxl⟩
        · exact absurd hc h.1
        · rcases List.mem_cons.mp hx with e | e
          · subst e; exact absurd ha hxl
          · exact ⟨x, e, hxl⟩
      rw [closestLoop_step addr closest a rest hc ha]
      split
      · exact ih a (Or.inr hrest)
      · exact ih closest (Or.inr hrest)

/-! ## Closest-node selection -/

/-- C1: for every chunk and every non-empty list of candidates that all have the byte
length of the chunk's address, `ClosestNode` returns with a nil error a member of the
list whose XOR distance to the chunk's address (byte-wise XOR read as a big-endian
integer) is at most the XOR distance of every candidate in the list. -/
theorem ClosestNode_minimal (c : bee.Chunk) (nodes : List swarm.Address)
    (hne : nodes ≠ [])
    (hlen : ∀ a ∈ nodes, a.Bytes.length = c.Address.Bytes.length) :
    ∃ r, c.ClosestNode nodes = GoResult.ret r none ∧ r ∈ nodes ∧
      ∀ a ∈ nodes, c.dist r ≤ c.dist a := by
  cases nodes with
  | nil => exact absurd rfl hne
  | cons n0 rest =>
    obtain ⟨pre, r, post, hsplit, hrun, hpre, hpost⟩ :=
      closestLoop_first_min c.Address rest n0 (hlen n0 (List.mem_cons_self _ _))
        (fun a ha => hlen a (List.mem_cons_of_mem _ ha))
    refine ⟨r, ?_, ?_, ?_⟩
    · simp [bee.Chunk.ClosestNode, hrun]
    · rw [hsplit]; simp
    · intro a ha
      rw [hsplit] at ha
      rcases List.mem_append.mp ha with h | h
      · exact Nat.le_of_lt (hpre a h)
      · rcases List.mem_cons.mp h with e | e
        · rw [e]
        · exact hpost a e

/-- Witness for C1: the selection run on the sample chunk and its four candidates. -/
theorem ClosestNode_minimal_witness :
    bee.sampleNodes ≠ [] ∧
    (∀ a ∈ bee.sampleNodes, a.Bytes.length = bee.sampleChunk.Address.Bytes.length) ∧
    ∃ r, bee.sampleChunk.ClosestNode bee.sampleNodes = GoResult.ret r none ∧
      r ∈ bee.sampleNodes ∧ ∀ a ∈ bee.sampleNodes, bee.sampleChunk.dist r ≤ bee.sampleChunk.dist a :=
  ⟨by decide, by decide,
    ClosestNode_minimal bee.sampleChunk bee.sampleNodes (by decide) (by decide)⟩

/-- C2: for every chunk and every non-empty list of candidates of the address length,
`ClosestNode` returns the candidate at the smallest index among those at minimum XOR
distance: every candidate is at least as far as the result, every candidate at a smaller
index is strictly farther, and inside the loop a candidate at the same distance as the
current closest does not replace it. -/
theorem ClosestNode_first_minimum (c : bee.Chunk) (nodes : List swarm.Address)
    (hne : nodes ≠ [])
    (hlen : ∀ a ∈ nodes, a.Bytes.length = c.Address.Bytes.length) :
    (∃ (i : Nat) (r : swarm.Address), nodes[i]? = some r ∧ c.ClosestNode nodes = GoResult.ret r none ∧
      (∀ (j : Nat) (a : swarm.Address), nodes[j]? = some a → c.dist r ≤ c.dist a) ∧
      (∀ (j : Nat) (a : swarm.Address), j < i → nodes[j]? = some a → c.dist r < c.dist a)) ∧
    (∀ closest a rest, closest ∈ nodes → a ∈ nodes → c.dist a = c.dist closest →
      bee.closestLoop c.Address closest (a :: rest) =
        bee.closestLoop c.Address closest rest) := by
  constructor
  · cases nodes with
    | nil => exact absurd rfl hne
    | cons n0 rest =>
      obtain ⟨pre, r, post, hsplit, hrun, hpre, hpost⟩ :=
        closestLoop_first_min c.Address rest n0 (hlen n0 (List.mem_cons_self _ _))
          (fun a ha => hlen a (List.mem_cons_of_mem _ ha))
      refine ⟨pre.length, r, ?_, ?_, ?_, ?_⟩
      · rw [hsplit, List.getElem?_append_right (Nat.le_refl _)]; simp
      · simp [bee.Chunk.ClosestNode, hrun]
      · intro j a hj
        have ha : a ∈ pre ++ r :: post := by
          rw [← hsplit]; exact List.getElem?_mem hj
        rcases List.mem_append.mp ha with h | h
        · exact Nat.le_of_lt (hpre a h)
        · rcases List.mem_cons.mp h with e | e
          · rw [e]
          · exact hpost a e
      · intro j a hji hj
        rw [hsplit, List.getElem?_append_left hji] at hj
        exact hpre a (List.getElem?_mem hj)
  · intro closest a rest hc ha hd
    rw [closestLoop_step c.Address closest a rest (hlen closest hc) (hlen a ha)]
    have hn : ¬ xorDistance a.Bytes c.Address.Bytes <
        xorDistance closest.Bytes c.Address.Bytes := by
      have h := hd
      simp only [bee.Chunk.dist] at h
      omega
    rw [if_neg hn]

/-- Witness for C2: the sample candidates hold the nearest address twice. -/
theorem ClosestNode_first_minimum_witness :
    bee.sampleNodes ≠ [] ∧
    (∀ a ∈ bee.sampleNodes, a.Bytes.length = bee.sampleChunk.Address.Bytes.length) ∧
    ((∃ (i : Nat) (r : swarm.Address), bee.sampleNodes[i]? = some r ∧
      bee.sampleChunk.ClosestNode bee.sampleNodes = GoResult.ret r none ∧
      (∀ (j : Nat) (a : swarm.Address), bee.sampleNodes[j]? = some a → bee.sampleChunk.dist r ≤ bee.sampleChunk.dist a) ∧
      (∀ (j : Nat) (a : swarm.Address), j < i → bee.sampleNodes[j]? = some a →
        bee.sampleChunk.dist r < bee.sampleChunk.dist a)) ∧
    (∀ closest a rest, closest ∈ bee.sampleNodes → a ∈ bee.sampleNodes →
      bee.sampleChunk.dist a = bee.sampleChunk.dist closest →
      bee.closestLoop bee.sampleChunk.Address closest (a :: rest) =
        bee.closestLoop bee.sampleChunk.Address closest rest)) :=
  ⟨by decide, by decide,
    ClosestNode_first_minimum bee.sampleChunk bee.sampleNodes (by decide) (by decide)⟩

/-- C3 (evaluation of the code on the empty list): `ClosestNode` reads `nodes[0]` before
anything else, so on an empty candidate list the call ends in a run-time panic and
returns neither an error nor an address. -/
theorem ClosestNode_empty_panics (c : bee.Chunk) :
    c.ClosestNode [] = GoResult.runtimePanic "index out of range [0] with length 0" ∧
    ∀ (a : swarm.Address) (e : GoError), c.ClosestNode [] ≠ GoResult.ret a e := by
  refine ⟨rfl, ?_⟩
  intro a e h
  simp [bee.Chunk.ClosestNode] at h

/-- C4 fails for a single candidate: the sample chunk has a two-byte address, the only
candidate has one byte, and `ClosestNode` returns that candidate with a nil error,
because no comparison is made. -/
theorem ClosestNode_single_mismatch_returns :
    (∃ a ∈ [({ b := [1] } : swarm.Address)],
      a.Bytes.length ≠ bee.sampleChunk.Address.Bytes.length) ∧
    bee.sampleChunk.ClosestNode [{ b := [1] }] = GoResult.ret { b := [1] } none := by
  decide

/-- C4 as amended: for every chunk and every candidate list with at least two candidates
in which some candidate's byte length differs from the byte length of the chunk's
address, `ClosestNode` returns the zero address together with the wrapped length
error. -/
theorem ClosestNode_length_mismatch (c : bee.Chunk) (nodes : List swarm.Address)
    (h2 : 2 ≤ nodes.length)
    (hbad : ∃ a ∈ nodes, a.Bytes.length ≠ c.Address.Bytes.length) :
    c.ClosestNode nodes =
      GoResult.ret swarm.Address.zero (some "find closest node: address length must match") := by
  cases nodes with
  | nil => simp at h2
  | cons n0 rest =>
    have hrest : rest ≠ [] := by
      intro e
      subst e
      simp at h2
    have hcond : (n0.Bytes.length ≠ c.Address.Bytes.length ∧ rest ≠ []) ∨
        (∃ a ∈ rest, a.Bytes.length ≠ c.Address.Bytes.length) := by
      obtain ⟨a, ha, hal⟩ := hbad
      rcases List.mem_cons.mp ha with e | e
      · subst e; exact Or.inl ⟨hal, hrest⟩
      · exact Or.inr ⟨a, e, hal⟩
    simp [bee.Chunk.ClosestNode, closestLoop_mismatch c.Address rest n0 hcond]

/-- Witness for the amended C4: two candidates, the second one a byte short. -/
theorem ClosestNode_length_mismatch_witness :
    2 ≤ [({ b := [1, 3] } : swarm.Address), { b := [0] }].length ∧
    (∃ a ∈ [({ b := [1, 3] } : swarm.Address), { b := [0] }],
      a.Bytes.length ≠ bee.sampleChunk.Address.Bytes.length) ∧
    bee.sampleChunk.ClosestNode [{ b := [1, 3] }, { b := [0] }] =
      GoResult.ret swarm.Address.zero (some "find closest node: address length must match") :=
  ⟨by decide, by decide,
    ClosestNode_length_mismatch bee.sampleChunk [{ b := [1, 3] }, { b := [0] }]
      (by decide) (by decide)⟩

/-- C5: for every chunk and every list holding exactly one candidate, `ClosestNode`
returns that candidate and a nil error. -/
theorem ClosestNode_singleton (c : bee.Chunk) (a : swarm.Address) :
    c.ClosestNode [a] = GoResult.ret a none := by
  rfl

/-! ## Chunk construction -/

/-- C6: `NewChunk data` returns an error if and only if `len(data) > 4096`; for every
data of length at most 4096 (the empty payload and length 4096 included) it returns a nil
error and a chunk whose `Data()` is `data` and whose `Size()` is `len(data)`. -/
theorem NewChunk_size_limit (data : List Byte) :
    ((bee.NewChunk data).2 ≠ none ↔ (data.length : Int) > 4096) ∧
    ((data.length : Int) ≤ 4096 →
      (bee.NewChunk data).2 = none ∧ (bee.NewChunk data).1.Data = data ∧
        (bee.NewChunk data).1.Size = data.length) := by
  by_cases h : (data.length : Int) > bee.maxChunkSize
  · have h4 : (data.length : Int) > 4096 := h
    refine ⟨?_, fun hle => absurd hle (by omega)⟩
    simp [bee.NewChunk, h, h4]
  · have h4 : ¬ (data.length : Int) > 4096 := h
    refine ⟨?_, fun _ => ?_⟩
    · simp only [bee.NewChunk, if_neg h]
      exact ⟨fun hne => absurd rfl hne, fun hgt => absurd hgt h4⟩
    · simp only [bee.NewChunk, if_neg h]
      exact ⟨trivial, rfl, rfl⟩

/-- Witness for C6: data of exactly 4096 bytes is accepted and kept as it is. -/
theorem NewChunk_size_limit_witness :
    (bee.NewChunk (List.replicate 4096 0)).2 = none ∧
    (bee.NewChunk (List.replicate 4096 0)).1.Data = List.replicate 4096 0 ∧
    (bee.NewChunk (List.replicate 4096 0)).1.Size = (List.replicate 4096 (0 : Byte)).length :=
  (NewChunk_size_limit (List.replicate 4096 0)).2
    (by rw [List.length_replicate]; decide)

/-- C7 fails on the code: chunks built from different data have the same address, and
that address is empty. -/
theorem NewChunk_address_not_digest :
    (bee.NewChunk [1]).2 = none ∧ (bee.NewChunk [2]).2 = none ∧
    (bee.NewChunk [1]).1.Data ≠ (bee.NewChunk [2]).1.Data ∧
    (bee.NewChunk [1]).1.Address = (bee.NewChunk [2]).1.Address ∧
    (bee.NewChunk [1]).1.Address.Bytes = [] := by
  decide

/-- Unfolding of `NewRandomChunk`: the generator never reports a read error, so the call
always takes the successful branch. -/
theorem NewRandomChunk_eq {σ : Type} (R : rand.Rand σ) (r : σ) :
    bee.NewRandomChunk R r =
      (({ address := swarm.Address.zero,
          data := (List.range 8).map (binary.leByte (uint64 (bee.randomPayload R r).length))
            ++ bee.randomPayload R r,
          span := (bee.randomPayload R r).length }, none),
        (R.Read (R.Intn 4088 r).1 (R.Intn 4088 r).2).2) := by
  have h8 : bee.spanInfoSize.toNat = 8 := by decide
  have h4088 : (bee.maxChunkSize - bee.spanInfoSize).toNat = 4088 := by decide
  have herr : (R.Read (R.Intn 4088 r).1 (R.Intn 4088 r).2).1.2.2 = none := by
    rw [R.Read_result]
  simp only [bee.NewRandomChunk, bee.randomPayload, h8, h4088, herr, binary.PutUint64]
  simp

/-- A run of `NewRandomChunk` on the concrete generator: a five-byte payload behind the
eight span bytes. -/
theorem NewRandomChunk_lcg_sample :
    (bee.NewRandomChunk rand.lcg 327683).1 =
      ({ address := swarm.Address.zero,
         data := [5, 0, 0, 0, 0, 0, 0, 0, 89, 238, 209, 236, 157],
         span := 5 }, none) := by
  decide

/-- The payload of a random chunk is shorter than 4088 bytes. -/
theorem randomPayload_length_lt {σ : Type} (R : rand.Rand σ) (r : σ) :
    (bee.randomPayload R r).length < 4088 := by
  have h4088 : (bee.maxChunkSize - bee.spanInfoSize).toNat = 4088 := by decide
  simp only [bee.randomPayload, h4088]
  rw [R.Read_length]
  exact R.Intn_lt 4088 r (by decide)

/-- Decoding the eight little-endian bytes of `v` gives `v` modulo `2 ^ 64`. -/
theorem Uint64_leBytes (v : Nat) :
    binary.Uint64 ((List.range 8).map (binary.leByte v)) = v % 2 ^ 64 := by
  have hr : List.range 8 = [0, 1, 2, 3, 4, 5, 6, 7] := by decide
  rw [hr]
  simp only [List.map, binary.Uint64, binary.leByte, Nat.shiftRight_eq_div_pow]
  norm_num
  omega

/-- C7 as amended: for every chunk returned by `NewChunk` or `NewRandomChunk`,
`Address()` is the zero-value, empty address whatever the data and the span are; the
constructors compute no digest. -/
theorem constructors_address_zero {σ : Type} (data : List Byte) (R : rand.Rand σ) (r : σ) :
    (bee.NewChunk data).1.Address = swarm.Address.zero ∧
    (bee.NewChunk data).1.Address.Bytes = [] ∧
    (bee.NewRandomChunk R r).1.1.Address = swarm.Address.zero ∧
    (bee.NewRandomChunk R r).1.1.Address.Bytes = [] := by
  rw [NewRandomChunk_eq]
  by_cases h : (data.length : Int) > bee.maxChunkSize
  · simp only [bee.NewChunk, if_pos h]
    exact ⟨rfl, rfl, rfl, rfl⟩
  · simp only [bee.NewChunk, if_neg h]
    exact ⟨rfl, rfl, rfl, rfl⟩

/-- C8 (evaluation of the code): `NewChunk` accepts the one-byte payload `[1]` and the
chunk's `Span()` is `0`, not the payload length `1`; no data gives another span. -/
theorem NewChunk_span_zero :
    (bee.NewChunk [1]).2 = none ∧ (bee.NewChunk [1]).1.Span = 0 ∧
    (([1] : List Byte).length : Int) = 1 ∧
    ∀ data : List Byte, (bee.NewChunk data).1.Span = 0 := by
  refine ⟨by decide, by decide, by decide, ?_⟩
  intro data
  by_cases h : (data.length : Int) > bee.maxChunkSize
  · simp only [bee.NewChunk, if_pos h]; rfl
  · simp only [bee.NewChunk, if_neg h]; rfl

/-- C9: for every generator and every generator state, `NewRandomChunk` returns a nil
error and a chunk with `0 ≤ Span() < 4088` and `Size() = Span() + 8`, so that `Size()`
lies between 8 and 4095. -/
theorem NewRandomChunk_span_range {σ : Type} (R : rand.Rand σ) (r : σ) :
    (bee.NewRandomChunk R r).1.2 = none ∧
    0 ≤ (bee.NewRandomChunk R r).1.1.Span ∧
    (bee.NewRandomChunk R r).1.1.Span < bee.maxChunkSize - bee.spanInfoSize ∧
    (bee.NewRandomChunk R r).1.1.Span < 4088 ∧
    (bee.NewRandomChunk R r).1.1.Size = (bee.NewRandomChunk R r).1.1.Span + 8 ∧
    8 ≤ (bee.NewRandomChunk R r).1.1.Size ∧
    (bee.NewRandomChunk R r).1.1.Size ≤ 4095 := by
  have hlt := randomPayload_length_lt R r
  have hm : bee.maxChunkSize - bee.spanInfoSize = 4088 := by decide
  rw [NewRandomChunk_eq, hm]
  simp only [bee.Chunk.Span, bee.Chunk.Size, List.length_append, List.length_map,
    List.length_range]
  refine ⟨?_, ?_, ?_, ?_, ?_, ?_, ?_⟩ <;> first | trivial | omega

/-- C10: for every chunk returned by `NewRandomChunk`, the first eight bytes of `Data()`
are the little-endian encoding of `Span()`, the bytes after them are the generated
payload, whose length is `Span()`, and decoding `Data()[0:8]` as a little-endian unsigned
integer gives `Span()`, which is `len(Data()) - 8`. -/
theorem NewRandomChunk_span_encoding {σ : Type} (R : rand.Rand σ) (r : σ) :
    (bee.NewRandomChunk R r).1.2 = none ∧
    (bee.NewRandomChunk R r).1.1.Data.take 8 =
      (List.range 8).map (binary.leByte (bee.NewRandomChunk R r).1.1.Span.toNat) ∧
    (bee.NewRandomChunk R r).1.1.Data.drop 8 = bee.randomPayload R r ∧
    ((bee.randomPayload R r).length : Int) = (bee.NewRandomChunk R r).1.1.Span ∧
    (binary.Uint64 ((bee.NewRandomChunk R r).1.1.Data.take 8) : Int) =
      (bee.NewRandomChunk R r).1.1.Span ∧
    (binary.Uint64 ((bee.NewRandomChunk R r).1.1.Data.take 8) : Int) =
      ((bee.NewRandomChunk R r).1.1.Data.length : Int) - 8 := by
  have hlt := randomPayload_length_lt R r
  have hu : uint64 ((bee.randomPayload R r).length : Int) = (bee.randomPayload R r).length := by
    unfold uint64
    omega
  have htake : ((List.range 8).map (binary.leByte (bee.randomPayload R r).length)
      ++ bee.randomPayload R r).take 8 =
      (List.range 8).map (binary.leByte (bee.randomPayload R r).length) := by
    rw [List.take_append_of_le_length (by simp)]
    exact List.take_of_length_le (by simp)
  have hdrop : ((List.range 8).map (binary.leByte (bee.randomPayload R r).length)
      ++ bee.randomPayload R r).drop 8 = bee.randomPayload R r := by
    rw [List.drop_append_of_le_length (by simp)]
    simp [List.drop_of_length_le]
  have hdec := Uint64_leBytes (bee.randomPayload R r).length
  have hmod : (bee.randomPayload R r).length % 2 ^ 64 = (bee.randomPayload R r).length := by
    omega
  rw [NewRandomChunk_eq, hu]
  simp only [bee.Chunk.Span, bee.Chunk.Data, htake, hdrop, hdec, hmod, Int.toNat_ofNat,
    List.length_append, List.length_map, List.length_range]
  refine ⟨trivial, trivial, trivial, trivial, trivial, ?_⟩
  push_cast
  omega

/-- C11: every chunk successfully produced by `NewChunk` or by `NewRandomChunk` has
`Size()` at most 4096, the maximum chunk size. -/
theorem constructors_size_le_max (c : bee.Chunk)
    (h : (∃ data : List Byte, bee.NewChunk data = (c, none)) ∨
      (∃ (σ : Type) (R : rand.Rand σ) (r : σ), (bee.NewRandomChunk R r).1 = (c, none))) :
    c.Size ≤ bee.maxChunkSize ∧ c.Size ≤ 4096 := by
  have hmax : bee.maxChunkSize = 4096 := rfl
  rcases h with ⟨data, hd⟩ | ⟨σ, R, r, hr⟩
  · by_cases hbig : (data.length : Int) > bee.maxChunkSize
    · simp [bee.NewChunk, hbig] at hd
    · simp only [bee.NewChunk, if_neg hbig, Prod.mk.injEq] at hd
      have hc : c.Size = data.length := by
        rw [← hd.1]; rfl
      rw [hc, hmax]
      rw [hmax] at hbig
      omega
  · have hlt := randomPayload_length_lt R r
    rw [NewRandomChunk_eq] at hr
    simp only [Prod.mk.injEq] at hr
    have hc : c.Size = (8 + (bee.randomPayload R r).length : Nat) := by
      rw [← hr.1]
      simp [bee.Chunk.Size]
    rw [hc, hmax]
    omega

/-- Witness for C11: the chunk built from 4096 zero bytes. -/
theorem constructors_size_le_max_witness :
    (bee.NewChunk (List.replicate 4096 0)).1.Size ≤ bee.maxChunkSize ∧
    (bee.NewChunk (List.replicate 4096 0)).1.Size ≤ 4096 :=
  constructors_size_le_max (bee.NewChunk (List.replicate 4096 0)).1
    (Or.inl ⟨List.replicate 4096 0, by
      have h : ¬ (((List.replicate 4096 (0 : Byte)).length : Int) > bee.maxChunkSize) := by
        rw [List.length_replicate]; decide
      simp only [bee.NewChunk, if_neg h]⟩)

/-! ## Generator-consuming operations -/

/-- The loop of `randNot` looks at the generator only through the values `Intn` returns:
on related states it returns the same pick, or has not returned on either side, and the
states after the call are related again. -/
theorem randNotLoop_related {σ₁ σ₂ : Type} (R₁ : rand.Rand σ₁) (R₂ : rand.Rand σ₂)
    (rel : σ₁ → σ₂ → Prop)
    (hI : ∀ n s₁ s₂, rel s₁ s₂ →
      (R₁.Intn n s₁).1 = (R₂.Intn n s₂).1 ∧ rel (R₁.Intn n s₁).2 (R₂.Intn n s₂).2)
    (l not : Int) (fuel : Nat) :
    ∀ r₁ r₂, rel r₁ r₂ →
      (smoke.randNotLoop R₁ l not fuel r₁).map (fun a => a.1) =
        (smoke.randNotLoop R₂ l not fuel r₂).map (fun a => a.1) ∧
      ∀ a b, smoke.randNotLoop R₁ l not fuel r₁ = some a →
        smoke.randNotLoop R₂ l not fuel r₂ = some b → rel a.2 b.2 := by
  induction fuel with
  | zero =>
    intro r₁ r₂ _
    simp [smoke.randNotLoop]
  | succ k ih =>
    intro r₁ r₂ h
    obtain ⟨hv, hs⟩ := hI l.toNat r₁ r₂ h
    by_cases hp : ((R₂.Intn l.toNat r₂).1 : Int) ≠ not
    · have hp1 : ((R₁.Intn l.toNat r₁).1 : Int) ≠ not := by rw [hv]; exact hp
      simp only [smoke.randNotLoop, if_pos hp, if_pos hp1, Option.map_some', hv, true_and]
      intro a b ha hb
      simp only [Option.some.injEq] at ha hb
      rw [← ha, ← hb]
      exact hs
    · have hp1 : ¬ ((R₁.Intn l.toNat r₁).1 : Int) ≠ not := by rw [hv]; exact hp
      simp only [smoke.randNotLoop, if_neg hp, if_neg hp1]
      exact ih _ _ hs

/-- C12: the generator-consuming operations are deterministic in the generator state.
Two generators are in the same state when their states are related by a relation that
every draw preserves while returning equal values (equality of states is such a
relation).  Then `NewRandomChunk` returns equal chunks (equal data and span) and equal
errors, `randNot` returns the same index and prints the same lines for the same
`(l, not)`, or has not returned on either side, and the states after the calls are in
the relation again, so that a replayed call sequence yields the same outputs. -/
theorem generator_ops_deterministic {σ₁ σ₂ : Type} (R₁ : rand.Rand σ₁) (R₂ : rand.Rand σ₂)
    (rel : σ₁ → σ₂ → Prop)
    (hI : ∀ n s₁ s₂, rel s₁ s₂ →
      (R₁.Intn n s₁).1 = (R₂.Intn n s₂).1 ∧ rel (R₁.Intn n s₁).2 (R₂.Intn n s₂).2)
    (hR : ∀ n s₁ s₂, rel s₁ s₂ →
      (R₁.Read n s₁).1 = (R₂.Read n s₂).1 ∧ rel (R₁.Read n s₁).2 (R₂.Read n s₂).2)
    (r₁ : σ₁) (r₂ : σ₂) (h : rel r₁ r₂) :
    ((bee.NewRandomChunk R₁ r₁).1 = (bee.NewRandomChunk R₂ r₂).1 ∧
      (bee.NewRandomChunk R₁ r₁).1.1.Data = (bee.NewRandomChunk R₂ r₂).1.1.Data ∧
      (bee.NewRandomChunk R₁ r₁).1.1.Span = (bee.NewRandomChunk R₂ r₂).1.1.Span ∧
      rel (bee.NewRandomChunk R₁ r₁).2 (bee.NewRandomChunk R₂ r₂).2) ∧
    ∀ (fuel : Nat) (l not : Int),
      (smoke.randNot R₁ fuel r₁ l not).map (fun a => (a.1.1, a.2)) =
        (smoke.randNot R₂ fuel r₂ l not).map (fun a => (a.1.1, a.2)) ∧
      ∀ a b, smoke.randNot R₁ fuel r₁ l not = some a →
        smoke.randNot R₂ fuel r₂ l not = some b → rel a.1.2 b.1.2 := by
  constructor
  · obtain ⟨hv, hs⟩ := hI 4088 r₁ r₂ h
    obtain ⟨hrv, hrs⟩ := hR (R₂.Intn 4088 r₂).1 _ _ hs
    have hpay : bee.randomPayload R₁ r₁ = bee.randomPayload R₂ r₂ := by
      have h4088 : (bee.maxChunkSize - bee.spanInfoSize).toNat = 4088 := by decide
      simp only [bee.randomPayload, h4088, hv, hrv]
    have hchunk : (bee.NewRandomChunk R₁ r₁).1 = (bee.NewRandomChunk R₂ r₂).1 := by
      rw [NewRandomChunk_eq, NewRandomChunk_eq, hpay]
    refine ⟨hchunk, by rw [hchunk], by rw [hchunk], ?_⟩
    rw [NewRandomChunk_eq, NewRandomChunk_eq]
    rw [hv]
    exact hrs
  · intro fuel l not
    obtain ⟨hv, hs⟩ := randNotLoop_related R₁ R₂ rel hI l not fuel r₁ r₂ h
    by_cases hl : l < 2
    · simp only [smoke.randNot, if_pos hl, Option.map_some', true_and]
      intro a b ha hb
      simp only [Option.some.injEq] at ha hb
      rw [← ha, ← hb]
      exact h
    · simp only [smoke.randNot, if_neg hl]
      constructor
      · cases h1 : smoke.randNotLoop R₁ l not fuel r₁ <;>
          cases h2 : smoke.randNotLoop R₂ l not fuel r₂ <;>
          simp [h1, h2] at hv ⊢
        exact hv
      · intro a b ha hb
        cases h1 : smoke.randNotLoop R₁ l not fuel r₁ with
        | none => simp [h1] at ha
        | some x =>
          cases h2 : smoke.randNotLoop R₂ l not fuel r₂ with
          | none => simp [h2] at hb
          | some y =>
            simp only [h1, h2, Option.map_some', Option.some.injEq] at ha hb
            rw [← ha, ← hb]
            exact hs x y h1 h2

/-- Witness for C12: two handles of the concrete generator in the same state. -/
theorem generator_ops_deterministic_witness :
    ((bee.NewRandomChunk rand.lcg 65536).1 = (bee.NewRandomChunk rand.lcg 65536).1 ∧
      (bee.NewRandomChunk rand.lcg 65536).1.1.Data = (bee.NewRandomChunk rand.lcg 65536).1.1.Data ∧
      (bee.NewRandomChunk rand.lcg 65536).1.1.Span = (bee.NewRandomChunk rand.lcg 65536).1.1.Span ∧
      (bee.NewRandomChunk rand.lcg 65536).2 = (bee.NewRandomChunk rand.lcg 65536).2) ∧
    ∀ (fuel : Nat) (l not : Int),
      (smoke.randNot rand.lcg fuel 65536 l not).map (fun a => (a.1.1, a.2)) =
        (smoke.randNot rand.lcg fuel 65536 l not).map (fun a => (a.1.1, a.2)) ∧
      ∀ a b, smoke.randNot rand.lcg fuel 65536 l not = some a →
        smoke.randNot rand.lcg fuel 65536 l not = some b → a.1.2 = b.1.2 :=
  generator_ops_deterministic rand.lcg rand.lcg Eq
    (fun _ _ _ h => by subst h; exact ⟨rfl, rfl⟩)
    (fun _ _ _ h => by subst h; exact ⟨rfl, rfl⟩)
    65536 65536 rfl

/-- A pick returned by the loop of `randNot` lies in `[0, l)` and differs from `not`. -/
theorem randNotLoop_pick {σ : Type} (R : rand.Rand σ) (l not : Int) (hl : 0 < l)
    (fuel : Nat) :
    ∀ (r : σ) (p : Int) (r' : σ), smoke.randNotLoop R l not fuel r = some (p, r') →
      0 ≤ p ∧ p < l ∧ p ≠ not := by
  induction fuel with
  | zero =>
    intro r p r' h
    simp [smoke.randNotLoop] at h
  | succ k ih =>
    intro r p r' h
    have hlt := R.Intn_lt l.toNat r (by omega)
    by_cases hp : ((R.Intn l.toNat r).1 : Int) ≠ not
    · simp only [smoke.randNotLoop, if_pos hp, Option.some.injEq, Prod.mk.injEq] at h
      rw [← h.1]
      exact ⟨by omega, by omega, hp⟩
    · simp only [smoke.randNotLoop, if_neg hp] at h
      exact ih _ p r' h

/-- A run of `randNot` on the concrete generator: with three nodes and index 1 excluded
the first two draws are 1 and are rejected, the third draw is 2 and is returned. -/
theorem randNot_lcg_sample :
    (rand.lcg.Intn 3 65536).1 = 1 ∧
    smoke.randNot rand.lcg 2 65536 3 1 = none ∧
    smoke.randNot rand.lcg 3 65536 3 1 = some ((2, 319028003254796569), []) := by
  decide

/-- C14 fails on the code: for a population of one node `randNot` returns the index `0`,
which is the excluded index here, after printing a warning; nothing fails. -/
theorem randNot_small_population_returns :
    smoke.randNot rand.lcg 0 5 1 0 =
      some ((0, 5), ["Warning: downloading from same node!"]) := by
  decide

/-- C14 as amended: for every population size `l < 2` the index pick with exclusion
(`randNot`) prints the warning "Warning: downloading from same node!" and returns the
index `0`, whatever the excluded index is, without drawing from the generator; it reports
no error. -/
theorem randNot_small_population {σ : Type} (R : rand.Rand σ) (fuel : Nat) (r : σ)
    (l not : Int) (hl : l < 2) :
    smoke.randNot R fuel r l not =
      some ((0, r), ["Warning: downloading from same node!"]) := by
  simp only [smoke.randNot, if_pos hl]

/-- Witness for the amended C14: one node, index 0 excluded. -/
theorem randNot_small_population_witness :
    (1 : Int) < 2 ∧
    smoke.randNot rand.lcg 7 5 1 0 =
      some ((0, 5), ["Warning: downloading from same node!"]) :=
  ⟨by decide, randNot_small_population rand.lcg 7 5 1 0 (by decide)⟩

/-! ## Reflection on option structs -/

theorem Struct_Set_same (ov : reflect.Struct) (name : String) (v : reflect.Value) :
    ∀ ov1, ov.Set name v = some ov1 → ov1.FieldByName name = some v := by
  induction ov with
  | nil =>
    intro ov1 h
    simp [reflect.Struct.Set] at h
  | cons p rest ih =>
    intro ov1 h
    obtain ⟨n, old⟩ := p
    by_cases hn : n = name
    · by_cases ht : v.type = old.type
      · simp only [reflect.Struct.Set, if_pos hn, if_pos ht, Option.some.injEq] at h
        rw [← h]
        simp [reflect.Struct.FieldByName, hn]
      · simp [reflect.Struct.Set, hn, ht] at h
    · simp only [reflect.Struct.Set, if_neg hn] at h
      cases hr : reflect.Struct.Set rest name v with
      | none => simp [hr] at h
      | some r =>
        simp only [hr, Option.map_some', Option.some.injEq] at h
        rw [← h]
        simp only [reflect.Struct.FieldByName, if_neg hn]
        exact ih r hr

theorem Struct_Set_other (ov : reflect.Struct) (name key : String) (v : reflect.Value)
    (hk : key ≠ name) :
    ∀ ov1, ov.Set name v = some ov1 → ov1.FieldByName key = ov.FieldByName key := by
  induction ov with
  | nil =>
    intro ov1 h
    simp [reflect.Struct.Set] at h
  | cons p rest ih =>
    intro ov1 h
    obtain ⟨n, old⟩ := p
    by_cases hn : n = name
    · by_cases ht : v.type = old.type
      · simp only [reflect.Struct.Set, if_pos hn, if_pos ht, Option.some.injEq] at h
        rw [← h]
        have hnk : ¬ n = key := fun e => hk (e.symm.trans hn)
        simp [reflect.Struct.FieldByName, hnk]
      · simp [reflect.Struct.Set, hn, ht] at h
    · simp only [reflect.Struct.Set, if_neg hn] at h
      cases hr : reflect.Struct.Set rest name v with
      | none => simp [hr] at h
      | some r =>
        simp only [hr, Option.map_some', Option.some.injEq] at h
        rw [← h]
        by_cases hnk : n = key
        · simp [reflect.Struct.FieldByName, hnk]
        · simp only [reflect.Struct.FieldByName, if_neg hnk]
          exact ih r hr

theorem setField_other (name key : String) (v : reflect.Value) (ov ov1 : reflect.Struct)
    (e : GoError) (hk : key ≠ name) (h : config.setField name v ov = GoResult.ret ov1 e) :
    ov1.FieldByName key = ov.FieldByName key := by
  unfold config.setField at h
  cases hs : ov.Set name v with
  | none => simp [hs] at h
  | some r =>
    simp only [hs, GoResult.ret.injEq] at h
    rw [← h.1]
    exact Struct_Set_other ov name key v hk r hs

theorem setLocal_other (f : reflect.PtrField) (key : String) (v : reflect.Value)
    (ov ov1 : reflect.Struct) (e : GoError) (hk : key ≠ f.name)
    (h : config.setLocal f v ov = GoResult.ret ov1 e) :
    ov1.FieldByName key = ov.FieldByName key := by
  unfold config.setLocal at h
  cases hf : ov.FieldByName f.name with
  | none =>
    simp only [hf, GoResult.ret.injEq] at h
    rw [← h.1]
  | some old =>
    by_cases ht : f.elem = old.type
    · cases hs : ov.Set f.name v with
      | none => simp [hf, ht, hs] at h
      | some r =>
        simp only [hf, hs, if_pos ht, GoResult.ret.injEq] at h
        rw [← h.1]
        exact Struct_Set_other ov f.name key v hk r hs
    · simp only [hf, if_neg ht, GoResult.ret.injEq] at h
      rw [← h.1]

theorem setLocal_same (f : reflect.PtrField) (v old : reflect.Value)
    (ov ov1 : reflect.Struct) (e : GoError) (hold : ov.FieldByName f.name = some old)
    (ht : f.elem = old.type) (h : config.setLocal f v ov = GoResult.ret ov1 e) :
    ov1.FieldByName f.name = some v := by
  unfold config.setLocal at h
  cases hs : ov.Set f.name v with
  | none => simp [hold, ht, hs] at h
  | some r =>
    simp only [hold, hs, if_pos ht, GoResult.ret.injEq] at h
    rw [← h.1]
    exact Struct_Set_same ov f.name v r hs

/-- A loop whose body leaves the field `key` alone on every local field not named `key`
leaves it alone on a list of such fields. -/
theorem eachField_frame (body : reflect.PtrField → reflect.Struct → GoResult reflect.Struct)
    (key : String)
    (hframe : ∀ f ov ov1 e, f.name ≠ key → body f ov = GoResult.ret ov1 e →
      ov1.FieldByName key = ov.FieldByName key)
    (fields : List reflect.PtrField) :
    ∀ (ov ov' : reflect.Struct) (e : GoError), (∀ f ∈ fields, f.name ≠ key) →
      reflect.eachField body fields ov = GoResult.ret ov' e →
      ov'.FieldByName key = ov.FieldByName key := by
  induction fields with
  | nil =>
    intro ov ov' e _ h
    simp only [reflect.eachField, GoResult.ret.injEq] at h
    rw [← h.1]
  | cons f rest ih =>
    intro ov ov' e hne h
    have hf : f.name ≠ key := hne f (List.mem_cons_self _ _)
    have hrest : ∀ g ∈ rest, g.name ≠ key := fun g hg => hne g (List.mem_cons_of_mem _ hg)
    cases hb : body f ov with
    | runtimePanic m => simp [reflect.eachField, hb] at h
    | ret ov1 e1 =>
      have h1 := hframe f ov ov1 e1 hf hb
      cases e1 with
      | none =>
        simp only [reflect.eachField, hb] at h
        rw [ih ov1 ov' e hrest h, h1]
      | some msg =>
        simp only [reflect.eachField, hb, GoResult.ret.injEq] at h
        rw [← h.1, h1]

/-- A successful loop over fields with distinct names, one of which is named `key`, ends
with the value that the body gives the field `key` on that local field. -/
theorem eachField_sets (body : reflect.PtrField → reflect.Struct → GoResult reflect.Struct)
    (key : String) (target : reflect.Value) (Pre : Option reflect.Value → Prop)
    (f0 : reflect.PtrField) (hkey : f0.name = key)
    (hframe : ∀ f ov ov1 e, f.name ≠ key → body f ov = GoResult.ret ov1 e →
      ov1.FieldByName key = ov.FieldByName key)
    (hstep : ∀ ov ov1 e, Pre (ov.FieldByName key) → body f0 ov = GoResult.ret ov1 e →
      ov1.FieldByName key = some target)
    (fields : List reflect.PtrField) :
    ∀ (ov ov' : reflect.Struct), (fields.map (fun f => f.name)).Nodup → f0 ∈ fields →
      Pre (ov.FieldByName key) →
      reflect.eachField body fields ov = GoResult.ret ov' none →
      ov'.FieldByName key = some target := by
  induction fields with
  | nil =>
    intro ov ov' _ hmem
    simp at hmem
  | cons f rest ih =>
    intro ov ov' hnd hmem hpre h
    simp only [List.map_cons, List.nodup_cons] at hnd
    obtain ⟨hnotin, hndrest⟩ := hnd
    cases hb : body f ov with
    | runtimePanic m => simp [reflect.eachField, hb] at h
    | ret ov1 e1 =>
      cases e1 with
      | some msg => simp [reflect.eachField, hb] at h
      | none =>
        simp only [reflect.eachField, hb] at h
        rcases List.mem_cons.mp hmem with heq | hin
        · subst heq
          have h1 := hstep ov ov1 none hpre hb
          have hrest : ∀ g ∈ rest, g.name ≠ key := by
            intro g hg hgk
            apply hnotin
            rw [hkey, ← hgk]
            exact List.mem_map_of_mem _ hg
          rw [eachField_frame body key hframe rest ov1 ov' none hrest h, h1]
        · have hf : f.name ≠ key := by
            intro hfk
            apply hnotin
            rw [hfk, ← hkey]
            exact List.mem_map_of_mem _ hin
          have h1 := hframe f ov ov1 none hf hb
          exact ih ov1 ov' hndrest hin (by rw [h1]; exact hpre) h

/-! ## Option resolvers of the `config` package -/

/-- The body of `applyCheckConfig` on a local field changes no field of the options
struct other than `MetricsPusher` and the field named like the local field. -/
theorem checkField_other (global : config.CheckGlobalConfig) (fresh : Int)
    (f : reflect.PtrField) (key : String) (ov ov1 : reflect.Struct) (e : GoError)
    (hk1 : key ≠ "MetricsPusher") (hk2 : key ≠ f.name)
    (h : config.checkField global fresh f ov = GoResult.ret ov1 e) :
    ov1.FieldByName key = ov.FieldByName key := by
  unfold config.checkField at h
  repeat' split at h
  all_goals first
    | exact setField_other _ _ _ _ _ _ hk1 h
    | exact setField_other _ _ _ _ _ _ hk2 h
    | exact setLocal_other _ _ _ _ _ _ hk2 h
    | (simp only [GoResult.ret.injEq] at h; rw [← h.1])
    | simp at h

/-- The body of `applySimulationConfig` is the body of `applyCheckConfig`. -/
theorem simulationField_eq (global : config.SimulationGlobalConfig) (fresh : Int)
    (f : reflect.PtrField) (ov : reflect.Struct) :
    config.simulationField global fresh f ov =
      config.checkField
        { MetricsEnabled := global.MetricsEnabled, MetricsPusher := global.MetricsPusher,
          Seed := global.Seed } fresh f ov := by
  rfl

theorem applySimulationConfig_eq (global : config.SimulationGlobalConfig) (fresh : Int)
    (loc : List reflect.PtrField) (ov : reflect.Struct) :
    config.applySimulationConfig global fresh loc ov =
      config.applyCheckConfig
        { MetricsEnabled := global.MetricsEnabled, MetricsPusher := global.MetricsPusher,
          Seed := global.Seed } fresh loc ov := by
  have hbody : config.simulationField global fresh =
      config.checkField
        { MetricsEnabled := global.MetricsEnabled, MetricsPusher := global.MetricsPusher,
          Seed := global.Seed } fresh := by
    funext f ov
    exact simulationField_eq global fresh f ov
  unfold config.applySimulationConfig config.applyCheckConfig
  rw [hbody]

/-- Outside the metrics case the body of `applyOptions` is the body of
`applyCheckConfig` with the common seed as global seed. -/
theorem optionsField_eq (cfg : config.CommonOptions) (fresh : Int) (f : reflect.PtrField)
    (ov : reflect.Struct) (hm : f.name ≠ "MetricsEnabled") :
    config.optionsField cfg fresh f ov =
      config.checkField
        { MetricsEnabled := cfg.MetricsEnabled, MetricsPusher := none, Seed := cfg.Seed }
        fresh f ov := by
  unfold config.optionsField config.checkField
  simp only [if_neg hm]

theorem optionsField_other (cfg : config.CommonOptions) (fresh : Int)
    (f : reflect.PtrField) (key : String) (ov ov1 : reflect.Struct) (e : GoError)
    (hk1 : key ≠ "MetricsPusher") (hk2 : key ≠ f.name)
    (h : config.optionsField cfg fresh f ov = GoResult.ret ov1 e) :
    ov1.FieldByName key = ov.FieldByName key := by
  unfold config.optionsField at h
  repeat' split at h
  all_goals first
    | exact setField_other _ _ _ _ _ _ hk1 h
    | exact setField_other _ _ _ _ _ _ hk2 h
    | exact setLocal_other _ _ _ _ _ _ hk2 h
    | (simp only [GoResult.ret.injEq] at h; rw [← h.1])
    | simp at h

/-- On the local field `Seed` holding a pointer to an `int64`, the body of
`applyCheckConfig` copies the pointed-to value when the options struct has an `int64`
field `Seed`. -/
theorem checkField_seed_local (global : config.CheckGlobalConfig) (fresh : Int)
    (v : reflect.Value) (ov ov1 : reflect.Struct) (e : GoError)
    (hpre : ∃ v0, ov.FieldByName "Seed" = some (reflect.Value.int64 v0))
    (h : config.checkField global fresh
      { name := "Seed", elem := reflect.GoType.int64, val := some v } ov =
        GoResult.ret ov1 e) :
    ov1.FieldByName "Seed" = some v := by
  obtain ⟨v0, hv0⟩ := hpre
  have hne : ¬ ("Seed" = "MetricsEnabled") := by decide
  simp only [config.checkField, if_neg hne, if_true] at h
  exact setLocal_same { name := "Seed", elem := reflect.GoType.int64, val := some v } v
    (reflect.Value.int64 v0) ov ov1 e hv0 rfl h

/-- A successful `applyCheckConfig` on a local struct whose `Seed` field points to a
value ends with that value in the `int64` field `Seed` of the options struct. -/
theorem applyCheckConfig_local_seed (global : config.CheckGlobalConfig) (fresh : Int)
    (loc : List reflect.PtrField) (ov ov' : reflect.Struct) (v : reflect.Value) (v0 : Int)
    (hnd : (loc.map (fun f => f.name)).Nodup)
    (hf : (reflect.PtrField.mk "Seed" reflect.GoType.int64 (some v)) ∈ loc)
    (hov : ov.FieldByName "Seed" = some (reflect.Value.int64 v0))
    (hret : config.applyCheckConfig global fresh loc ov = GoResult.ret ov' none) :
    ov'.FieldByName "Seed" = some v :=
  eachField_sets (config.checkField global fresh) "Seed" v
    (fun o => ∃ v0, o = some (reflect.Value.int64 v0))
    { name := "Seed", elem := reflect.GoType.int64, val := some v } rfl
    (fun f ov ov1 e hne h =>
      checkField_other global fresh f "Seed" ov ov1 e (by decide) (Ne.symm hne) h)
    (fun ov ov1 e hpre h => checkField_seed_local global fresh v ov ov1 e hpre h)
    loc ov ov' hnd hf ⟨v0, hov⟩ hret

/-- The same for `applyOptions`. -/
theorem applyOptions_local_seed (cfg : config.CommonOptions) (fresh : Int)
    (loc : List reflect.PtrField) (ov ov' : reflect.Struct) (v : reflect.Value) (v0 : Int)
    (hnd : (loc.map (fun f => f.name)).Nodup)
    (hf : (reflect.PtrField.mk "Seed" reflect.GoType.int64 (some v)) ∈ loc)
    (hov : ov.FieldByName "Seed" = some (reflect.Value.int64 v0))
    (hret : config.applyOptions cfg fresh loc ov = GoResult.ret ov' none) :
    ov'.FieldByName "Seed" = some v :=
  eachField_sets (config.optionsField cfg fresh) "Seed" v
    (fun o => ∃ v0, o = some (reflect.Value.int64 v0))
    { name := "Seed", elem := reflect.GoType.int64, val := some v } rfl
    (fun f ov ov1 e hne h =>
      optionsField_other cfg fresh f "Seed" ov ov1 e (by decide) (Ne.symm hne) h)
    (fun ov ov1 e hpre h => by
      rw [optionsField_eq cfg fresh _ ov
        (show ("Seed" : String) ≠ "MetricsEnabled" by decide)] at h
      exact checkField_seed_local _ fresh v ov ov1 e hpre h)
    loc ov ov' hnd hf ⟨v0, hov⟩ hret

/-- Runs of the three resolvers on the sample structs: with the local seed set to `0` the
options end with seed `0`; with the local seed unset and the global seed `-1` the options
of `applyCheckConfig` end with the fresh value `42`. -/
theorem resolvers_sample_runs :
    config.applyCheckConfig { MetricsEnabled := false, MetricsPusher := none, Seed := 7 } 42
        (config.sampleLocal 0) config.sampleOpts =
      GoResult.ret [("DryRun", reflect.Value.bool false),
        ("FileName", reflect.Value.string "balances"), ("Seed", reflect.Value.int64 0),
        ("UploadNodeCount", reflect.Value.int 2)] none ∧
    config.applyOptions { MetricsEnabled := false, Seed := 7, Namespace := "ns" } 42
        (config.sampleLocal 0) config.sampleOpts =
      GoResult.ret [("DryRun", reflect.Value.bool false),
        ("FileName", reflect.Value.string "balances"), ("Seed", reflect.Value.int64 0),
        ("UploadNodeCount", reflect.Value.int 2)] none ∧
    config.applySimulationConfig { MetricsEnabled := false, MetricsPusher := none, Seed := 7 }
        42 (config.sampleLocal 0) config.sampleOpts =
      GoResult.ret [("DryRun", reflect.Value.bool false),
        ("FileName", reflect.Value.string "balances"), ("Seed", reflect.Value.int64 0),
        ("UploadNodeCount", reflect.Value.int 2)] none ∧
    config.applyCheckConfig { MetricsEnabled := false, MetricsPusher := none, Seed := -1 } 42
        config.sampleLocalUnset config.sampleOpts =
      GoResult.ret [("DryRun", reflect.Value.bool false),
        ("FileName", reflect.Value.string "balances"), ("Seed", reflect.Value.int64 42),
        ("UploadNodeCount", reflect.Value.int 2)] none := by
  decide

/-- C17 fails on the code: with an explicit local seed `0`, and with no local seed and
the global default seed `0`, the `balances` options get the fresh random value (`42`
here), not the seed `0`. -/
theorem registry_seed_zero_replaced :
    (cmd.balancesNewOptions { Seed := 7, MetricsEnabled := false, Namespace := "ns" } "b"
      { DryRun := none, FileName := none, FileSize := none, NodeGroup := none,
        Seed := some 0, UploadNodeCount := none, WaitBeforeDownload := none }
      none 42).1.map (fun o => o.Seed) = some 42 ∧
    (cmd.balancesNewOptions { Seed := 0, MetricsEnabled := false, Namespace := "ns" } "b"
      { DryRun := none, FileName := none, FileSize := none, NodeGroup := none,
        Seed := none, UploadNodeCount := none, WaitBeforeDownload := none }
      none 42).1.map (fun o => o.Seed) = some 42 := by
  decide

/-- C17 as amended: in the check registry of `cmd/checks.go` (the `NewOptions` functions
of `balances` and `pushsync`) a seed is kept only when it is strictly positive: an
explicit local seed `s > 0` resolves to `Seed = s`, and with no local seed a global
default seed `g > 0` resolves to `Seed = g`; a seed of exactly `0` is not kept: an
explicit local seed `0`, and the global default seed `0` with no local seed, resolve to
the freshly generated random value. -/
theorem registry_seed_kept_iff_positive (s g : Int) (hs : 0 < s) (hg : 0 < g)
    (cfg : cmd.RunConfig) (name : String) (fresh : Int) (ob : cmd.balancesOptions)
    (op : cmd.pushSyncOptions) :
    ((cmd.balancesNewOptions cfg name { ob with Seed := some s } none fresh).1.map
        (fun o => o.Seed) = some s ∧
      (cmd.balancesNewOptions { cfg with Seed := g } name { ob with Seed := none } none
        fresh).1.map (fun o => o.Seed) = some g ∧
      (cmd.balancesNewOptions cfg name { ob with Seed := some 0 } none fresh).1.map
        (fun o => o.Seed) = some fresh ∧
      (cmd.balancesNewOptions { cfg with Seed := 0 } name { ob with Seed := none } none
        fresh).1.map (fun o => o.Seed) = some fresh) ∧
    ((cmd.pushSyncNewOptions cfg name { op with Seed := some s } none fresh).1.map
        (fun o => o.Seed) = some s ∧
      (cmd.pushSyncNewOptions { cfg with Seed := g } name { op with Seed := none } none
        fresh).1.map (fun o => o.Seed) = some g ∧
      (cmd.pushSyncNewOptions cfg name { op with Seed := some 0 } none fresh).1.map
        (fun o => o.Seed) = some fresh ∧
      (cmd.pushSyncNewOptions { cfg with Seed := 0 } name { op with Seed := none } none
        fresh).1.map (fun o => o.Seed) = some fresh) := by
  have hs' : s > 0 := hs
  have hg' : g > 0 := hg
  simp [cmd.balancesNewOptions, cmd.pushSyncNewOptions, hs', hg']

/-- Witness for the amended C17: the local seed `5` and the global seed `7`. -/
theorem registry_seed_kept_iff_positive_witness :
    (0 : Int) < 5 ∧ (0 : Int) < 7 ∧
    (cmd.balancesNewOptions { Seed := 0, MetricsEnabled := false, Namespace := "ns" } "b"
      { DryRun := none, FileName := none, FileSize := none, NodeGroup := none,
        Seed := some 5, UploadNodeCount := none, WaitBeforeDownload := none }
      none 42).1.map (fun o => o.Seed) = some 5 :=
  ⟨by decide, by decide,
    (registry_seed_kept_iff_positive 5 7 (by decide) (by decide)
      { Seed := 0, MetricsEnabled := false, Namespace := "ns" } "b" 42
      { DryRun := none, FileName := none, FileSize := none, NodeGroup := none,
        Seed := none, UploadNodeCount := none, WaitBeforeDownload := none }
      { ChunksPerNode := none, FileSize := none, FilesPerNode := none,
        MetricsEnabled := none, Mode := none, NodeGroup := none, Retries := none,
        RetryDelay := none, Seed := none, UploadNodeCount := none }).1.1⟩

/-- C19: in the standalone `chunkrepair` and `pin-remote` commands the seed passed to the
check equals the value of the seed flag whenever the flag was explicitly given, for every
value (`0` and negative values included) and whatever the random source would return,
and it is the freshly generated random value when the flag was not given, whatever the
value of the flag is. -/
theorem standalone_seed_from_flag (v fresh : Int) (n a w size divisor : Int) :
    (cmd.chunkRepairOptions { Changed := true, Value := v } n a w fresh).Seed = v ∧
    (cmd.chunkRepairOptions { Changed := false, Value := v } n a w fresh).Seed = fresh ∧
    (cmd.pinRemoteOptions { Changed := true, Value := v } size divisor a w fresh).Seed = v ∧
    (cmd.pinRemoteOptions { Changed := false, Value := v } size divisor a w fresh).Seed =
      fresh := by
  simp [cmd.chunkRepairOptions, cmd.pinRemoteOptions]

/-! ## The run loop of the `check` command -/

/-- When the loop gets through the checks `pre` without an error, it goes on with the
checks after them from the cluster state reached. -/
theorem runChecks_append {ω Opt : Type} (cfgChecks : String → Option config.CheckConfig)
    (registry : String → Option (config.CheckType ω Opt))
    (global : config.CheckGlobalConfig) (pre : List String) :
    ∀ (rest : List String) (w w1 : ω),
      cmd.runChecks cfgChecks registry global pre w = (w1, none) →
      cmd.runChecks cfgChecks registry global (pre ++ rest) w =
        cmd.runChecks cfgChecks registry global rest w1 := by
  induction pre with
  | nil =>
    intro rest w w1 h
    simp only [cmd.runChecks, Prod.mk.injEq] at h
    rw [List.nil_append, h.1]
  | cons name pre ih =>
    intro rest w w1 h
    simp only [List.cons_append, cmd.runChecks] at h ⊢
    cases hc : cfgChecks name with
    | none => simp [hc] at h
    | some c =>
      simp only [hc] at h ⊢
      cases hr : registry c.TypeName with
      | none => simp [hr] at h
      | some chk =>
        simp only [hr] at h ⊢
        rcases ho : chk.NewOptions global c with ⟨o, eo⟩
        cases eo with
        | some msg => simp [ho] at h
        | none =>
          simp only [ho] at h ⊢
          rcases hrun : chk.Run o w with ⟨w2, er⟩
          cases er with
          | some msg => simp [hrun] at h
          | none =>
            simp only [hrun] at h ⊢
            exact ih rest w2 w1 h

/-- C20 fails on the code: of the listed checks `first`, `second`, `third` the second
one fails; the loop returns its error with the cluster state reached by the first two
checks, and the third check is not run, although it runs when the second is not
listed. -/
theorem runChecks_stops_on_sample :
    cmd.runChecks cmd.sampleChecks cmd.sampleRegistry cmd.sampleGlobal
      ["first", "second", "third"] [] =
        (["first ran", "second ran"], some "running check second: replication too low") ∧
    cmd.runChecks cmd.sampleChecks cmd.sampleRegistry cmd.sampleGlobal
      ["first", "third"] [] = (["first ran", "third ran"], none) := by
  decide

/-- C20 as amended: the run loop of the `check` command stops at the first failing
check.  When the checks listed before `name` ran without error and the run of `name`
fails with error `e`, the command returns "running check name: e" with the cluster in the
state that run left it in, whatever checks `post` are listed after it: none of them is
configured or run. -/
theorem runChecks_stops_at_first_failure {ω Opt : Type}
    (cfgChecks : String → Option config.CheckConfig)
    (registry : String → Option (config.CheckType ω Opt))
    (global : config.CheckGlobalConfig) (pre post : List String) (name : String)
    (w w1 w2 : ω) (c : config.CheckConfig) (chk : config.CheckType ω Opt) (o : Opt)
    (e : String)
    (hpre : cmd.runChecks cfgChecks registry global pre w = (w1, none))
    (hc : cfgChecks name = some c)
    (hr : registry c.TypeName = some chk)
    (ho : chk.NewOptions global c = (o, none))
    (hrun : chk.Run o w1 = (w2, some e)) :
    cmd.runChecks cfgChecks registry global (pre ++ name :: post) w =
      (w2, some ("running check " ++ name ++ ": " ++ e)) := by
  rw [runChecks_append cfgChecks registry global pre (name :: post) w w1 hpre]
  simp only [cmd.runChecks, hc, hr, ho, hrun]

/-- Witness for the amended C20: the sample checks, where `second` fails after `first`
and before `third`. -/
theorem runChecks_stops_at_first_failure_witness :
    cmd.runChecks cmd.sampleChecks cmd.sampleRegistry cmd.sampleGlobal ["first"] [] =
      (["first ran"], none) ∧
    cmd.sampleChecks "second" =
      some { Options := "second ran", Timeout := none, TypeName := "bad" } ∧
    cmd.runChecks cmd.sampleChecks cmd.sampleRegistry cmd.sampleGlobal
      (["first"] ++ "second" :: ["third"]) [] =
        (["first ran", "second ran"],
          some ("running check " ++ "second" ++ ": " ++ "replication too low")) :=
  ⟨by decide, by decide,
    runChecks_stops_at_first_failure cmd.sampleChecks cmd.sampleRegistry cmd.sampleGlobal
      ["first"] ["third"] "second" [] ["first ran"] ["first ran", "second ran"]
      { Options := "second ran", Timeout := none, TypeName := "bad" }
      { NewOptions := fun _ c => (c.Options, none),
        Run := fun o w => (w ++ [o], some "replication too low") }
      "second ran" "replication too low"
      (by decide) (by decide) (by simp [cmd.sampleRegistry]) rfl rfl⟩

/-- C30: in the run loop of the `check` command the checks are processed one at a time
in the order of the list: after the checks `pre` ran without error the loop goes on with
the checks after them from the cluster state reached.  If the next listed name is not
defined in the configuration the command returns "check name doesn't exist", and if its
type is not in the registry it returns "check type not implemented"; in both cases the
cluster is in the state the earlier checks left it in, whatever checks `post` are listed
after it: none of them is run. -/
theorem runChecks_unknown_check {ω Opt : Type}
    (cfgChecks : String → Option config.CheckConfig)
    (registry : String → Option (config.CheckType ω Opt))
    (global : config.CheckGlobalConfig) (pre post : List String) (name : String)
    (w w1 : ω)
    (hpre : cmd.runChecks cfgChecks registry global pre w = (w1, none)) :
    (cfgChecks name = none →
      cmd.runChecks cfgChecks registry global (pre ++ name :: post) w =
        (w1, some ("check " ++ name ++ " doesn't exist"))) ∧
    (∀ c : config.CheckConfig, cfgChecks name = some c → registry c.TypeName = none →
      cmd.runChecks cfgChecks registry global (pre ++ name :: post) w =
        (w1, some ("check " ++ c.TypeName ++ " not implemented"))) ∧
    (∀ rest : List String,
      cmd.runChecks cfgChecks registry global (pre ++ rest) w =
        cmd.runChecks cfgChecks registry global rest w1) := by
  refine ⟨?_, ?_, ?_⟩
  · intro hc
    rw [runChecks_append cfgChecks registry global pre (name :: post) w w1 hpre]
    simp only [cmd.runChecks, hc]
  · intro c hc hr
    rw [runChecks_append cfgChecks registry global pre (name :: post) w w1 hpre]
    simp only [cmd.runChecks, hc, hr]
  · intro rest
    exact runChecks_append cfgChecks registry global pre rest w w1 hpre

/-- Witness for C30: after the sample check `first`, the name `nope` is not defined. -/
theorem runChecks_unknown_check_witness :
    cmd.runChecks cmd.sampleChecks cmd.sampleRegistry cmd.sampleGlobal ["first"] [] =
      (["first ran"], none) ∧
    ((cmd.sampleChecks "nope" = none →
      cmd.runChecks cmd.sampleChecks cmd.sampleRegistry cmd.sampleGlobal
        (["first"] ++ "nope" :: ["third"]) [] =
          (["first ran"], some ("check " ++ "nope" ++ " doesn't exist"))) ∧
    (∀ c : config.CheckConfig, cmd.sampleChecks "nope" = some c →
      cmd.sampleRegistry c.TypeName = none →
      cmd.runChecks cmd.sampleChecks cmd.sampleRegistry cmd.sampleGlobal
        (["first"] ++ "nope" :: ["third"]) [] =
          (["first ran"], some ("check " ++ c.TypeName ++ " not implemented"))) ∧
    (∀ rest : List String,
      cmd.runChecks cmd.sampleChecks cmd.sampleRegistry cmd.sampleGlobal
        (["first"] ++ rest) [] =
        cmd.runChecks cmd.sampleChecks cmd.sampleRegistry cmd.sampleGlobal rest
          ["first ran"])) :=
  ⟨by decide,
    runChecks_unknown_check cmd.sampleChecks cmd.sampleRegistry cmd.sampleGlobal
      ["first"] ["third"] "nope" [] ["first ran"] (by decide)⟩

/-- Runs of the loop on the sample checks with a name that is not defined and with a
check whose type is not in the registry. -/
theorem runChecks_unknown_sample :
    cmd.runChecks cmd.sampleChecks cmd.sampleRegistry cmd.sampleGlobal
      ["first", "nope", "third"] [] = (["first ran"], some "check nope doesn't exist") ∧
    cmd.runChecks
      (fun n => if n = "odd" then
        some { Options := "", Timeout := none, TypeName := "unheard" }
        else cmd.sampleChecks n)
      cmd.sampleRegistry cmd.sampleGlobal ["first", "odd", "third"] [] =
        (["first ran"], some "check unheard not implemented") := by
  decide

/-! ## Chunks without an address, and the `soc` action -/

/-- C26: every chunk built by `NewChunk` or `NewRandomChunk` has the zero-value address,
of length zero; therefore, for such a chunk and every candidate list of length at least
two whose first two candidates are not both of length zero, `ClosestNode` returns the
zero address and the wrapped length error instead of a closest node. -/
theorem constructed_chunk_ClosestNode_error {σ : Type} (data : List Byte)
    (R : rand.Rand σ) (r : σ) (n0 n1 : swarm.Address) (rest : List swarm.Address)
    (hne : ¬ (n0.Bytes.length = 0 ∧ n1.Bytes.length = 0)) :
    ((bee.NewChunk data).1.Address = swarm.Address.zero ∧
      (bee.NewChunk data).1.Address.Bytes.length = 0 ∧
      (bee.NewRandomChunk R r).1.1.Address = swarm.Address.zero ∧
      (bee.NewRandomChunk R r).1.1.Address.Bytes.length = 0) ∧
    (bee.NewChunk data).1.ClosestNode (n0 :: n1 :: rest) =
      GoResult.ret swarm.Address.zero (some "find closest node: address length must match") ∧
    (bee.NewRandomChunk R r).1.1.ClosestNode (n0 :: n1 :: rest) =
      GoResult.ret swarm.Address.zero (some "find closest node: address length must match") := by
  have hN : (bee.NewChunk data).1.Address = swarm.Address.zero := by
    by_cases h : (data.length : Int) > bee.maxChunkSize
    · simp only [bee.NewChunk, if_pos h]; rfl
    · simp only [bee.NewChunk, if_neg h]; rfl
  have hR : (bee.NewRandomChunk R r).1.1.Address = swarm.Address.zero := by
    rw [NewRandomChunk_eq]; rfl
  have hloop : ∀ addr : swarm.Address, addr = swarm.Address.zero →
      bee.closestLoop addr n0 (n1 :: rest) =
        (swarm.Address.zero, some "find closest node: address length must match") := by
    intro addr haddr
    apply closestLoop_mismatch
    subst haddr
    have hz : swarm.Address.zero.Bytes.length = 0 := rfl
    rw [hz]
    by_cases h0 : n0.Bytes.length = 0
    · right
      exact ⟨n1, List.mem_cons_self _ _, fun h1 => hne ⟨h0, h1⟩⟩
    · left
      exact ⟨h0, by simp⟩
  refine ⟨⟨hN, by rw [hN]; rfl, hR, by rw [hR]; rfl⟩, ?_, ?_⟩
  · simp only [bee.Chunk.ClosestNode, hloop _ hN]
  · simp only [bee.Chunk.ClosestNode, hloop _ hR]

/-- Witness for C26: two candidates of two bytes each and the chunk built from one
byte. -/
theorem constructed_chunk_ClosestNode_error_witness :
    ¬ ((swarm.Address.mk [1, 3]).Bytes.length = 0 ∧ (swarm.Address.mk [0, 2]).Bytes.length = 0) ∧
    (bee.NewChunk [7]).1.ClosestNode [swarm.Address.mk [1, 3], swarm.Address.mk [0, 2]] =
      GoResult.ret swarm.Address.zero (some "find closest node: address length must match") :=
  ⟨by decide,
    (constructed_chunk_ClosestNode_error [7] rand.lcg 65536 (swarm.Address.mk [1, 3])
      (swarm.Address.mk [0, 2]) [] (by decide)).2.1⟩

/-- C27: the action `soc.NewCheck` returns (type `Check2`) performs no operation: for
every context, cluster and options value its `Run` returns nil and leaves the cluster as
it was; the registry entry of the `soc` check runs this action. -/
theorem soc_Check2_Run_nothing {κ ω α Opt : Type} (ctx : κ) (cluster : ω) (o : α)
    (newOptions : config.CheckGlobalConfig → config.CheckConfig → Opt × GoError)
    (o' : Opt) :
    soc.Check2.Run ctx cluster o = (cluster, none) ∧
    (config.socCheckType newOptions).Run o' cluster = (cluster, none) := by
  exact ⟨rfl, rfl⟩

/-! ## Frame and metrics of the option resolvers -/

/-- The branch "set locally" changes nothing when the options struct has no field of
that name or a field of another type. -/
theorem setLocal_skip (f : reflect.PtrField) (v : reflect.Value) (ov : reflect.Struct)
    (h : ov.FieldByName f.name = none ∨
      ∃ old, ov.FieldByName f.name = some old ∧ f.elem ≠ old.type) :
    config.setLocal f v ov = GoResult.ret ov none := by
  unfold config.setLocal
  rcases h with h | ⟨old, hold, hty⟩
  · simp only [h]
  · simp only [hold, if_neg hty]

/-- Outside the cases `MetricsEnabled` and `Seed` the body of `applyCheckConfig` is the
branch "set locally" on a set field and does nothing on an unset field. -/
theorem checkField_default (global : config.CheckGlobalConfig) (fresh : Int)
    (f : reflect.PtrField) (ov : reflect.Struct) (hm : f.name ≠ "MetricsEnabled")
    (hs : f.name ≠ "Seed") :
    config.checkField global fresh f ov =
      match f.val with
      | none => GoResult.ret ov none
      | some v => config.setLocal f v ov := by
  simp only [config.checkField, if_neg hm, if_neg hs]

/-- The metrics case of the body of `applyCheckConfig` on a local field
`MetricsEnabled *bool` with value `lv`. -/
theorem checkField_metrics (global : config.CheckGlobalConfig) (fresh : Int)
    (lv : Option Bool) (ov : reflect.Struct) :
    config.checkField global fresh
        (reflect.PtrField.mk "MetricsEnabled" reflect.GoType.bool
          (lv.map reflect.Value.bool)) ov =
      if (lv = none ∧ global.MetricsEnabled = true) ∨ lv = some true then
        match global.MetricsPusher with
        | none => GoResult.ret ov (some "metrics pusher is nil (not set)")
        | some p => config.setField "MetricsPusher" (reflect.Value.pusher (some p)) ov
      else GoResult.ret ov none := by
  cases lv with
  | none =>
    cases hg : global.MetricsEnabled <;> simp [config.checkField, hg]
  | some b =>
    cases b <;> simp [config.checkField]

theorem Profiles_get_set (m : config.Profiles) (k k' : String) (v : config.Profile) :
    (m.set k v).get k' = if k = k' then some v else m.get k' := by
  induction m with
  | nil =>
    simp [config.Profiles.set, config.Profiles.get]
  | cons p rest ih =>
    obtain ⟨n, old⟩ := p
    by_cases hn : n = k
    · subst hn
      by_cases hk : n = k' <;> simp [config.Profiles.set, config.Profiles.get, hk]
    · by_cases hk : k = k'
      · subst hk
        simp [config.Profiles.set, config.Profiles.get, hn, ih]
      · simp only [config.Profiles.set, if_neg hn, config.Profiles.get, ih, if_neg hk]

theorem Profiles_get_none (m : config.Profiles) (k : String)
    (h : k ∉ m.map (fun p => p.1)) : m.get k = none := by
  induction m with
  | nil => rfl
  | cons p rest ih =>
    obtain ⟨n, v⟩ := p
    simp only [List.map_cons, List.mem_cons, not_or] at h
    have hn : ¬ n = k := fun e => h.1 e.symm
    simp only [config.Profiles.get, if_neg hn]
    exact ih h.2

theorem Profiles_mem_of_get (m : config.Profiles) (k : String) (v : config.Profile)
    (h : m.get k = some v) : (k, v) ∈ m := by
  induction m with
  | nil => simp [config.Profiles.get] at h
  | cons p rest ih =>
    obtain ⟨n, w⟩ := p
    by_cases hn : n = k
    · simp only [config.Profiles.get, if_pos hn, Option.some.injEq] at h
      rw [hn, h]
      exact List.mem_cons_self _ _
    · simp only [config.Profiles.get, if_neg hn] at h
      exact List.mem_cons_of_mem _ (ih h)

theorem Profiles_get_of_mem (m : config.Profiles) (k : String) (v : config.Profile)
    (hnd : (m.map (fun p => p.1)).Nodup) (h : (k, v) ∈ m) : m.get k = some v := by
  induction m with
  | nil => simp at h
  | cons p rest ih =>
    obtain ⟨n, w⟩ := p
    simp only [List.map_cons, List.nodup_cons] at hnd
    rcases List.mem_cons.mp h with heq | hin
    · simp only [Prod.mk.injEq] at heq
      simp [config.Profiles.get, heq.1, heq.2]
    · have hn : ¬ n = k := by
        intro e
        apply hnd.1
        rw [e]
        exact List.mem_map_of_mem (fun p => p.1) hin
      simp only [config.Profiles.get, if_neg hn]
      exact ih hnd.2 hin

/-- Two lists of entries with the same entries in another order are the same map. -/
theorem Profiles_get_perm (m₁ m₂ : config.Profiles) (hp : m₁.Perm m₂)
    (hnd : (m₁.map (fun p => p.1)).Nodup) (k : String) : m₁.get k = m₂.get k := by
  have hnd₂ : (m₂.map (fun p => p.1)).Nodup := (hp.map _).nodup_iff.mp hnd
  cases h₁ : m₁.get k with
  | some v =>
    have hm := hp.mem_iff.mp (Profiles_mem_of_get m₁ k v h₁)
    rw [Profiles_get_of_mem m₂ k v hnd₂ hm]
  | none =>
    cases h₂ : m₂.get k with
    | none => rfl
    | some v =>
      have hm := hp.mem_iff.mpr (Profiles_mem_of_get m₂ k v h₂)
      rw [Profiles_get_of_mem m₁ k v hnd hm] at h₁
      simp at h₁

/-- The field loop keeps the number of fields, keeps every field set in the child, gives
a field unset in the child the parent's value when the parent sets it, and leaves it
unset when the parent does not set it. -/
theorem mergeFields_spec (ms : List (Option reflect.Value)) :
    ∀ ps : List (Option reflect.Value),
      (config.mergeFields ms ps).length = ms.length ∧
      (∀ (i : Nat) (x : reflect.Value), ms[i]? = some (some x) →
        (config.mergeFields ms ps)[i]? = some (some x)) ∧
      (∀ (i : Nat) (y : reflect.Value), ms[i]? = some none → ps[i]? = some (some y) →
        (config.mergeFields ms ps)[i]? = some (some y)) ∧
      (∀ (i : Nat), ms[i]? = some none → ps[i]? = some none →
        (config.mergeFields ms ps)[i]? = some none) := by
  induction ms with
  | nil =>
    intro ps
    cases ps <;> simp [config.mergeFields]
  | cons m ms ih =>
    intro ps
    cases ps with
    | nil => simp [config.mergeFields]
    | cons p ps =>
      obtain ⟨hlen, hset, hpar, hnone⟩ := ih ps
      refine ⟨by simp [config.mergeFields, hlen], ?_, ?_, ?_⟩
      · intro i x hi
        cases i with
        | zero =>
          simp only [List.getElem?_cons_zero, Option.some.injEq] at hi
          simp [config.mergeFields, hi]
        | succ j =>
          simp only [List.getElem?_cons_succ] at hi
          simp only [config.mergeFields, List.getElem?_cons_succ]
          exact hset j x hi
      · intro i y hi hp
        cases i with
        | zero =>
          simp only [List.getElem?_cons_zero, Option.some.injEq] at hi hp
          simp [config.mergeFields, hi, hp]
        | succ j =>
          simp only [List.getElem?_cons_succ] at hi hp
          simp only [config.mergeFields, List.getElem?_cons_succ]
          exact hpar j y hi hp
      · intro i hi hp
        cases i with
        | zero =>
          simp only [List.getElem?_cons_zero, Option.some.injEq] at hi hp
          simp [config.mergeFields, hi, hp]
        | succ j =>
          simp only [List.getElem?_cons_succ] at hi hp
          simp only [config.mergeFields, List.getElem?_cons_succ]
          exact hnone j hi hp

/-- One step of a merge loop in terms of the merged value of the visited profile. -/
theorem mergeLoop_cons (kind : String) (all : config.Profiles) (name : String)
    (v : config.Profile) (rest merged : config.Profiles) :
    config.mergeLoop kind all ((name, v) :: rest) merged =
      match config.mergedProfile all v with
      | some v' => config.mergeLoop kind all rest (merged.set name v')
      | none => (merged, some (kind ++ v.ParrentName ++ " doesn't exist")) := by
  by_cases h0 : v.ParrentName.length = 0
  · simp only [config.mergeLoop, config.mergedProfile, if_pos h0]
  · cases hp : all.get v.ParrentName with
    | none => simp [config.mergeLoop, config.mergedProfile, h0, hp]
    | some parent => simp [config.mergeLoop, config.mergedProfile, h0, hp]

/-- A merge loop returns no error exactly when every visited profile has a merged
value, that is, names no parent or a parent that is in the map. -/
theorem mergeLoop_ok_iff (kind : String) (all : config.Profiles)
    (visit : config.Profiles) :
    ∀ merged : config.Profiles,
      (config.mergeLoop kind all visit merged).2 = none ↔
        ∀ p ∈ visit, config.mergedProfile all p.2 ≠ none := by
  induction visit with
  | nil =>
    intro merged
    simp [config.mergeLoop]
  | cons p rest ih =>
    intro merged
    obtain ⟨name, v⟩ := p
    rw [mergeLoop_cons]
    cases hm : config.mergedProfile all v with
    | none => simp [hm]
    | some v' =>
      simp only [List.mem_cons, forall_eq_or_imp, hm, ne_eq, not_false_eq_true,
        reduceCtorEq, true_and]
      exact ih (merged.set name v')

/-- The error of a merge loop names the missing parent of a visited profile. -/
theorem mergeLoop_error_names (kind : String) (all : config.Profiles)
    (visit : config.Profiles) :
    ∀ (merged : config.Profiles) (e : String),
      (config.mergeLoop kind all visit merged).2 = some e →
      ∃ p ∈ visit, p.2.ParrentName.length ≠ 0 ∧ all.get p.2.ParrentName = none ∧
        e = kind ++ p.2.ParrentName ++ " doesn't exist" := by
  induction visit with
  | nil =>
    intro merged e h
    simp [config.mergeLoop] at h
  | cons p rest ih =>
    intro merged e h
    obtain ⟨name, v⟩ := p
    rw [mergeLoop_cons] at h
    cases hm : config.mergedProfile all v with
    | some v' =>
      simp only [hm] at h
      obtain ⟨q, hq, hrest⟩ := ih (merged.set name v') e h
      exact ⟨q, List.mem_cons_of_mem _ hq, hrest⟩
    | none =>
      simp only [hm, Option.some.injEq] at h
      refine ⟨(name, v), List.mem_cons_self _ _, ?_⟩
      by_cases h0 : v.ParrentName.length = 0
      · simp [config.mergedProfile, h0] at hm
      · cases hp : all.get v.ParrentName with
        | some parent => simp [config.mergedProfile, h0, hp] at hm
        | none => exact ⟨h0, rfl, h.symm⟩

/-- The map a successful merge loop builds: a visited name maps to the merged value of
its profile, any other name to what the map built before held. -/
theorem mergeLoop_get (kind : String) (all : config.Profiles) (visit : config.Profiles) :
    ∀ merged : config.Profiles, (visit.map (fun p => p.1)).Nodup →
      (config.mergeLoop kind all visit merged).2 = none →
      ∀ name : String, (config.mergeLoop kind all visit merged).1.get name =
        match visit.get name with
        | some v => config.mergedProfile all v
        | none => merged.get name := by
  induction visit with
  | nil =>
    intro merged _ _ name
    simp [config.mergeLoop, config.Profiles.get]
  | cons p rest ih =>
    intro merged hnd hok name
    obtain ⟨n, v⟩ := p
    simp only [List.map_cons, List.nodup_cons] at hnd
    rw [mergeLoop_cons] at hok ⊢
    cases hm : config.mergedProfile all v with
    | none => simp [hm] at hok
    | some v' =>
      simp only [hm] at hok ⊢
      rw [ih (merged.set n v') hnd.2 hok name]
      by_cases hn : n = name
      · subst hn
        rw [Profiles_get_none rest n hnd.1]
        simp [config.Profiles.get, Profiles_get_set, hm]
      · simp only [config.Profiles.get, if_neg hn]
        cases hr : config.Profiles.get rest name with
        | some w => rfl
        | none => simp [Profiles_get_set, hn]

/-- A merge loop over the whole map, started with the empty map. -/
theorem mergeLoop_all_get (kind : String) (all : config.Profiles)
    (hnd : (all.map (fun p => p.1)).Nodup)
    (hok : (config.mergeLoop kind all all []).2 = none) (name : String) :
    (config.mergeLoop kind all all []).1.get name =
      (all.get name).bind (config.mergedProfile all) := by
  rw [mergeLoop_get kind all all [] hnd hok name]
  cases all.get name <;> rfl

/-- Success of a merge loop and the map it builds depend on the map only, not on the
order of its entries. -/
theorem mergeLoop_ext (kind : String) (m₁ m₂ : config.Profiles)
    (hnd₁ : (m₁.map (fun p => p.1)).Nodup) (hnd₂ : (m₂.map (fun p => p.1)).Nodup)
    (hget : ∀ k, m₁.get k = m₂.get k) :
    ((config.mergeLoop kind m₁ m₁ []).2 = none ↔ (config.mergeLoop kind m₂ m₂ []).2 = none) ∧
    ((config.mergeLoop kind m₁ m₁ []).2 = none → ∀ name,
      (config.mergeLoop kind m₁ m₁ []).1.get name =
        (config.mergeLoop kind m₂ m₂ []).1.get name) := by
  have hdir : ∀ (a b : config.Profiles), (b.map (fun p => p.1)).Nodup →
      (∀ k, a.get k = b.get k) →
      (config.mergeLoop kind a a []).2 = none → (config.mergeLoop kind b b []).2 = none := by
    intro a b hndb hab hok
    have hmab : ∀ v, config.mergedProfile a v = config.mergedProfile b v := by
      intro v
      simp only [config.mergedProfile, hab]
    rw [mergeLoop_ok_iff] at hok ⊢
    intro p hp
    have hpb : b.get p.1 = some p.2 := Profiles_get_of_mem b p.1 p.2 hndb hp
    have hpa : (p.1, p.2) ∈ a := Profiles_mem_of_get a p.1 p.2 (by rw [hab, hpb])
    rw [← hmab]
    exact hok (p.1, p.2) hpa
  have hiff : (config.mergeLoop kind m₁ m₁ []).2 = none ↔
      (config.mergeLoop kind m₂ m₂ []).2 = none :=
    ⟨hdir m₁ m₂ hnd₂ hget, hdir m₂ m₁ hnd₁ (fun k => (hget k).symm)⟩
  refine ⟨hiff, ?_⟩
  intro hok name
  have hmp : config.mergedProfile m₁ = config.mergedProfile m₂ := by
    funext v
    simp only [config.mergedProfile, hget]
  rw [mergeLoop_all_get kind m₁ hnd₁ hok name,
    mergeLoop_all_get kind m₂ hnd₂ (hiff.mp hok) name, hget, hmp]

/-- A successful `merge`: the three loops return no error and the three maps of the
result are the maps the loops built. -/
theorem merge_ok (c c' : config.Config) (h : c.merge = (c', none)) :
    ((config.mergeLoop "bee profile " c.BeeConfigs c.BeeConfigs []).2 = none ∧
      c'.BeeConfigs = (config.mergeLoop "bee profile " c.BeeConfigs c.BeeConfigs []).1) ∧
    ((config.mergeLoop "node group profile " c.NodeGroups c.NodeGroups []).2 = none ∧
      c'.NodeGroups =
        (config.mergeLoop "node group profile " c.NodeGroups c.NodeGroups []).1) ∧
    ((config.mergeLoop "bee profile " c.Clusters c.Clusters []).2 = none ∧
      c'.Clusters = (config.mergeLoop "bee profile " c.Clusters c.Clusters []).1) := by
  unfold config.Config.merge at h
  rcases h1 : config.mergeLoop "bee profile " c.BeeConfigs c.BeeConfigs [] with ⟨m1, e1⟩
  rcases h2 : config.mergeLoop "node group profile " c.NodeGroups c.NodeGroups [] with
    ⟨m2, e2⟩
  rcases h3 : config.mergeLoop "bee profile " c.Clusters c.Clusters [] with ⟨m3, e3⟩
  rw [h1] at h
  cases e1 with
  | some x => simp at h
  | none =>
    simp only [h2] at h
    cases e2 with
    | some x => simp at h
    | none =>
      simp only [h3] at h
      cases e3 with
      | some x => simp at h
      | none =>
        simp only [Prod.mk.injEq, and_true] at h
        rw [← h]
        exact ⟨⟨rfl, rfl⟩, ⟨rfl, rfl⟩, ⟨rfl, rfl⟩⟩

/-- When the three loops return no error, `merge` returns no error. -/
theorem merge_of_ok (c : config.Config)
    (h1 : (config.mergeLoop "bee profile " c.BeeConfigs c.BeeConfigs []).2 = none)
    (h2 : (config.mergeLoop "node group profile " c.NodeGroups c.NodeGroups []).2 = none)
    (h3 : (config.mergeLoop "bee profile " c.Clusters c.Clusters []).2 = none) :
    (c.merge).2 = none := by
  unfold config.Config.merge
  rcases h1' : config.mergeLoop "bee profile " c.BeeConfigs c.BeeConfigs [] with ⟨m1, e1⟩
  rcases h2' : config.mergeLoop "node group profile " c.NodeGroups c.NodeGroups [] with
    ⟨m2, e2⟩
  rcases h3' : config.mergeLoop "bee profile " c.Clusters c.Clusters [] with ⟨m3, e3⟩
  rw [h1'] at h1
  rw [h2'] at h2
  rw [h3'] at h3
  simp only at h1 h2 h3
  subst h1 h2 h3
  simp only [h2', h3']

/-- An error of `merge` is the error of one of the three loops. -/
theorem merge_error (c : config.Config) (e : String) (h : (c.merge).2 = some e) :
    (config.mergeLoop "bee profile " c.BeeConfigs c.BeeConfigs []).2 = some e ∨
    (config.mergeLoop "node group profile " c.NodeGroups c.NodeGroups []).2 = some e ∨
    (config.mergeLoop "bee profile " c.Clusters c.Clusters []).2 = some e := by
  unfold config.Config.merge at h
  rcases h1 : config.mergeLoop "bee profile " c.BeeConfigs c.BeeConfigs [] with ⟨m1, e1⟩
  rcases h2 : config.mergeLoop "node group profile " c.NodeGroups c.NodeGroups [] with
    ⟨m2, e2⟩
  rcases h3 : config.mergeLoop "bee profile " c.Clusters c.Clusters [] with ⟨m3, e3⟩
  rw [h1] at h
  cases e1 with
  | some x =>
    simp only at h
    exact Or.inl h
  | none =>
    simp only [h2] at h
    cases e2 with
    | some x =>
      simp only at h
      exact Or.inr (Or.inl h)
    | none =>
      simp only [h3] at h
      cases e3 with
      | some x =>
        simp only at h
        exact Or.inr (Or.inr h)
      | none => simp at h

/-- For each of the three maps, a successful `merge` replaces the map by the map its
loop built. -/
theorem merge_ok_sel (c c' : config.Config) (sel : config.Config → config.Profiles)
    (hsel : sel = config.Config.BeeConfigs ∨ sel = config.Config.NodeGroups ∨
      sel = config.Config.Clusters)
    (h : c.merge = (c', none)) :
    ∃ kind : String, (config.mergeLoop kind (sel c) (sel c) []).2 = none ∧
      sel c' = (config.mergeLoop kind (sel c) (sel c) []).1 := by
  obtain ⟨hb, hn, hc⟩ := merge_ok c c' h
  rcases hsel with hs | hs | hs
  · subst hs; exact ⟨"bee profile ", hb⟩
  · subst hs; exact ⟨"node group profile ", hn⟩
  · subst hs; exact ⟨"bee profile ", hc⟩

/-- Runs of `merge` on the sample chain: the child takes field 1 from its parent and
keeps its own field 2, and field 0, which only the grandparent sets, stays unset in the
child; visiting the profiles in the reverse order gives the same merged profiles; a
node group naming a parent that is not in the map makes `merge` fail. -/
theorem merge_sample_runs :
    config.sampleConfig.merge =
      ({ Clusters := [], NodeGroups := [],
         BeeConfigs :=
          [("child", config.Profile.mk "parent"
              [none, some (reflect.Value.bool true), some (reflect.Value.int 3)]),
           ("grandparent", config.Profile.mk "" [some (reflect.Value.string "g"), none, none]),
           ("parent", config.Profile.mk "grandparent"
              [some (reflect.Value.string "g"), some (reflect.Value.bool true),
               some (reflect.Value.int 2)])],
         Checks := [], Simulations := [] }, none) ∧
    ({ config.sampleConfig with BeeConfigs := config.sampleProfiles.reverse }).merge.1.BeeConfigs
      = config.sampleConfig.merge.1.BeeConfigs.reverse ∧
    ({ config.sampleConfig with
        NodeGroups := [("a", config.Profile.mk "zz" [])] }).merge.2 =
      some "node group profile zz doesn't exist" := by
  decide

/-- C28: on success `Config.merge` keeps the set of profile names of each of the maps
`BeeConfigs`, `NodeGroups` and `Clusters`; a profile with no parent name is unchanged;
for a profile whose named parent exists, the parent name and the number of fields are
kept, every field set in the child keeps the child's value and every field unset in the
child takes the parent's value if the parent sets it.  If some profile names a parent
that does not exist in the same map, `merge` returns an error that names a missing
parent. -/
theorem merge_spec (c : config.Config) (sel : config.Config → config.Profiles)
    (hsel : sel = config.Config.BeeConfigs ∨ sel = config.Config.NodeGroups ∨
      sel = config.Config.Clusters)
    (hnd : ((sel c).map (fun p => p.1)).Nodup) :
    (∀ c' : config.Config, c.merge = (c', none) →
      (∀ name : String, ((sel c').get name).isSome = ((sel c).get name).isSome) ∧
      (∀ (name : String) (v : config.Profile), (sel c).get name = some v →
        v.ParrentName.length = 0 → (sel c').get name = some v) ∧
      (∀ (name : String) (v parent : config.Profile), (sel c).get name = some v →
        v.ParrentName.length ≠ 0 → (sel c).get v.ParrentName = some parent →
        ∃ v' : config.Profile, (sel c').get name = some v' ∧
          v'.ParrentName = v.ParrentName ∧ v'.fields.length = v.fields.length ∧
          (∀ (i : Nat) (x : reflect.Value), v.fields[i]? = some (some x) →
            v'.fields[i]? = some (some x)) ∧
          (∀ (i : Nat) (y : reflect.Value), v.fields[i]? = some none →
            parent.fields[i]? = some (some y) → v'.fields[i]? = some (some y)))) ∧
    ((∃ (name : String) (v : config.Profile), (sel c).get name = some v ∧
        v.ParrentName.length ≠ 0 ∧ (sel c).get v.ParrentName = none) →
      ∃ e : String, (c.merge).2 = some e ∧
        ∃ m ∈ [c.BeeConfigs, c.NodeGroups, c.Clusters], ∃ p ∈ m,
          p.2.ParrentName.length ≠ 0 ∧ m.get p.2.ParrentName = none ∧
          (e = "bee profile " ++ p.2.ParrentName ++ " doesn't exist" ∨
            e = "node group profile " ++ p.2.ParrentName ++ " doesn't exist")) := by
  constructor
  · intro c' h
    obtain ⟨kind, hok, hres⟩ := merge_ok_sel c c' sel hsel h
    have hget : ∀ name, (sel c').get name =
        ((sel c).get name).bind (config.mergedProfile (sel c)) := by
      intro name
      rw [hres]
      exact mergeLoop_all_get kind (sel c) hnd hok name
    have hall := (mergeLoop_ok_iff kind (sel c) (sel c) []).mp hok
    refine ⟨?_, ?_, ?_⟩
    · intro name
      rw [hget]
      cases hv : (sel c).get name with
      | none => rfl
      | some v =>
        have hne := hall (name, v) (Profiles_mem_of_get (sel c) name v hv)
        cases hm : config.mergedProfile (sel c) v with
        | none => exact absurd hm hne
        | some w => simp [hm]
    · intro name v hv h0
      rw [hget, hv]
      simp [config.mergedProfile, h0]
    · intro name v parent hv h0 hp
      refine ⟨{ v with fields := config.mergeFields v.fields parent.fields }, ?_, rfl, ?_, ?_, ?_⟩
      · rw [hget, hv]
        simp [config.mergedProfile, h0, hp]
      · exact (mergeFields_spec v.fields parent.fields).1
      · exact (mergeFields_spec v.fields parent.fields).2.1
      · exact (mergeFields_spec v.fields parent.fields).2.2.1
  · intro hmiss
    obtain ⟨name, v, hv, h0, hp⟩ := hmiss
    have hbad : ∀ kind, (config.mergeLoop kind (sel c) (sel c) []).2 ≠ none := by
      intro kind hok
      have hall := (mergeLoop_ok_iff kind (sel c) (sel c) []).mp hok
      apply hall (name, v) (Profiles_mem_of_get (sel c) name v hv)
      simp [config.mergedProfile, h0, hp]
    have hfail : (c.merge).2 ≠ none := by
      intro hnone
      have hm : c.merge = ((c.merge).1, none) := by rw [← hnone]
      obtain ⟨kind, hok, _⟩ := merge_ok_sel c (c.merge).1 sel hsel hm
      exact hbad kind hok
    cases he : (c.merge).2 with
    | none => exact absurd he hfail
    | some e =>
      refine ⟨e, rfl, ?_⟩
      rcases merge_error c e he with h1 | h1 | h1
      · obtain ⟨p, hp1, hp2, hp3, hp4⟩ := mergeLoop_error_names _ _ _ _ e h1
        exact ⟨c.BeeConfigs, by simp, p, hp1, hp2, hp3, Or.inl hp4⟩
      · obtain ⟨p, hp1, hp2, hp3, hp4⟩ := mergeLoop_error_names _ _ _ _ e h1
        exact ⟨c.NodeGroups, by simp, p, hp1, hp2, hp3, Or.inr hp4⟩
      · obtain ⟨p, hp1, hp2, hp3, hp4⟩ := mergeLoop_error_names _ _ _ _ e h1
        exact ⟨c.Clusters, by simp, p, hp1, hp2, hp3, Or.inl hp4⟩

/-- Witness for C28: the bee profiles of the sample configuration. -/
theorem merge_spec_witness :
    ((config.Config.BeeConfigs config.sampleConfig).map (fun p => p.1)).Nodup ∧
    (∀ name : String,
      ((config.Config.BeeConfigs config.sampleConfig.merge.1).get name).isSome =
        ((config.Config.BeeConfigs config.sampleConfig).get name).isSome) :=
  ⟨by decide,
    ((merge_spec config.sampleConfig config.Config.BeeConfigs (Or.inl rfl) (by decide)).1
      config.sampleConfig.merge.1 (by decide)).1⟩

/-- C29: in `Config.merge` the merged value of a profile depends only on that profile's
and its direct parent's values before the merge.  Two configurations that agree on a
profile and on its parent merge it to the same value; visiting the profiles of the three
maps in another order succeeds as well and gives the same merged profiles; and a field
that neither the child nor its parent sets is unset in the merged child, whatever the
parent's own parent holds. -/
theorem merge_depends_on_parent_only (c₁ c₁' : config.Config)
    (sel : config.Config → config.Profiles)
    (hsel : sel = config.Config.BeeConfigs ∨ sel = config.Config.NodeGroups ∨
      sel = config.Config.Clusters)
    (hndB : (c₁.BeeConfigs.map (fun p => p.1)).Nodup)
    (hndN : (c₁.NodeGroups.map (fun p => p.1)).Nodup)
    (hndC : (c₁.Clusters.map (fun p => p.1)).Nodup)
    (h₁ : c₁.merge = (c₁', none)) :
    (∀ (c₂ c₂' : config.Config) (name : String) (v : config.Profile),
      ((sel c₂).map (fun p => p.1)).Nodup → c₂.merge = (c₂', none) →
      (sel c₁).get name = some v → (sel c₂).get name = some v →
      (sel c₁).get v.ParrentName = (sel c₂).get v.ParrentName →
      (sel c₁').get name = (sel c₂').get name) ∧
    (∀ c₂ : config.Config, c₁.BeeConfigs.Perm c₂.BeeConfigs →
      c₁.NodeGroups.Perm c₂.NodeGroups → c₁.Clusters.Perm c₂.Clusters →
      (c₂.merge).2 = none ∧
        ∀ name : String, (sel (c₂.merge).1).get name = (sel c₁').get name) ∧
    (∀ (name : String) (v parent : config.Profile) (i : Nat),
      (sel c₁).get name = some v → v.ParrentName.length ≠ 0 →
      (sel c₁).get v.ParrentName = some parent →
      v.fields[i]? = some none → parent.fields[i]? = some none →
      ∃ v' : config.Profile, (sel c₁').get name = some v' ∧ v'.fields[i]? = some none) := by
  have hnd₁ : ((sel c₁).map (fun p => p.1)).Nodup := by
    rcases hsel with hs | hs | hs <;> subst hs <;> assumption
  obtain ⟨kind, hok₁, hres₁⟩ := merge_ok_sel c₁ c₁' sel hsel h₁
  have hget₁ : ∀ name, (sel c₁').get name =
      ((sel c₁).get name).bind (config.mergedProfile (sel c₁)) := by
    intro name
    rw [hres₁]
    exact mergeLoop_all_get kind (sel c₁) hnd₁ hok₁ name
  refine ⟨?_, ?_, ?_⟩
  · intro c₂ c₂' name v hnd₂ h₂ hv₁ hv₂ hpar
    obtain ⟨kind₂, hok₂, hres₂⟩ := merge_ok_sel c₂ c₂' sel hsel h₂
    rw [hget₁, hres₂, mergeLoop_all_get kind₂ (sel c₂) hnd₂ hok₂ name, hv₁, hv₂]
    simp only [Option.some_bind, config.mergedProfile, hpar]
  · intro c₂ hpB hpN hpC
    obtain ⟨⟨hb, hb'⟩, ⟨hn, hn'⟩, ⟨hc, hc'⟩⟩ := merge_ok c₁ c₁' h₁
    have hndB₂ : (c₂.BeeConfigs.map (fun p => p.1)).Nodup := (hpB.map _).nodup_iff.mp hndB
    have hndN₂ : (c₂.NodeGroups.map (fun p => p.1)).Nodup := (hpN.map _).nodup_iff.mp hndN
    have hndC₂ : (c₂.Clusters.map (fun p => p.1)).Nodup := (hpC.map _).nodup_iff.mp hndC
    have eB := mergeLoop_ext "bee profile " c₁.BeeConfigs c₂.BeeConfigs hndB hndB₂
      (Profiles_get_perm _ _ hpB hndB)
    have eN := mergeLoop_ext "node group profile " c₁.NodeGroups c₂.NodeGroups hndN hndN₂
      (Profiles_get_perm _ _ hpN hndN)
    have eC := mergeLoop_ext "bee profile " c₁.Clusters c₂.Clusters hndC hndC₂
      (Profiles_get_perm _ _ hpC hndC)
    have hok₂ : (c₂.merge).2 = none :=
      merge_of_ok c₂ (eB.1.mp hb) (eN.1.mp hn) (eC.1.mp hc)
    refine ⟨hok₂, ?_⟩
    intro name
    have hm : c₂.merge = ((c₂.merge).1, none) := by rw [← hok₂]
    obtain ⟨⟨_, hb₂⟩, ⟨_, hn₂⟩, ⟨_, hc₂⟩⟩ := merge_ok c₂ (c₂.merge).1 hm
    rcases hsel with hs | hs | hs
    · subst hs
      rw [hb₂, hb']
      exact (eB.2 hb name).symm
    · subst hs
      rw [hn₂, hn']
      exact (eN.2 hn name).symm
    · subst hs
      rw [hc₂, hc']
      exact (eC.2 hc name).symm
  · intro name v parent i hv h0 hp hvi hpi
    refine ⟨{ v with fields := config.mergeFields v.fields parent.fields }, ?_, ?_⟩
    · rw [hget₁, hv]
      simp [config.mergedProfile, h0, hp]
    · exact (mergeFields_spec v.fields parent.fields).2.2.2 i hvi hpi

/-- Witness for C29: in the sample chain field 0 is set only in the grandparent, and the
merged child has it unset. -/
theorem merge_depends_on_parent_only_witness :
    (config.sampleConfig.BeeConfigs.map (fun p => p.1)).Nodup ∧
    (config.sampleConfig.NodeGroups.map (fun p => p.1)).Nodup ∧
    (config.sampleConfig.Clusters.map (fun p => p.1)).Nodup ∧
    (∃ v' : config.Profile,
      (config.Config.BeeConfigs config.sampleConfig.merge.1).get "child" = some v' ∧
        v'.fields[0]? = some none) :=
  ⟨by decide, by decide, by decide,
    (merge_depends_on_parent_only config.sampleConfig config.sampleConfig.merge.1
      config.Config.BeeConfigs (Or.inl rfl) (by decide) (by decide) (by decide)
      (by decide)).2.2 "child"
      (config.Profile.mk "parent" [none, none, some (reflect.Value.int 3)])
      (config.Profile.mk "grandparent"
        [none, some (reflect.Value.bool true), some (reflect.Value.int 2)])
      0 (by decide) (by decide) (by decide) (by decide) (by decide)⟩

/-! ## The smoke check -/

/-- The loop of `Run` over `j + k` iterations is the loop over the first `j` of them
followed, when none of them made `Run` return, by the loop over the other `k`. -/
theorem runLoop_split {ω σ ρ : Type} (E : smoke.Env ω σ ρ) (o : smoke.Options)
    (nodes : List String) (fuel : Nat) (k : Nat) (j : Nat) :
    ∀ (i : Nat) (st : smoke.State ω σ ρ),
      smoke.runLoop E o nodes fuel i (j + k) st =
        match smoke.runLoop E o nodes fuel i j st with
        | Except.error fin => Except.error fin
        | Except.ok stj => smoke.runLoop E o nodes fuel (i + j) k stj := by
  induction j with
  | zero =>
    intro i st
    simp [smoke.runLoop]
  | succ j ih =>
    intro i st
    rw [Nat.succ_add]
    simp only [smoke.runLoop]
    cases hit : smoke.iteration E o nodes fuel i st with
    | error fin => rfl
    | ok st1 =>
      simp only []
      rw [ih (i + 1) st1]
      have hidx : i + 1 + j = i + (j + 1) := by omega
      rw [hidx]

/-- When the loop of `Run` gets through `n` iterations, it got through the first `j` of
them, and iteration `j` got through as well. -/
theorem runLoop_ok_prefix {ω σ ρ : Type} (E : smoke.Env ω σ ρ) (o : smoke.Options)
    (nodes : List String) (fuel : Nat) (i n j : Nat) (st st' : smoke.State ω σ ρ)
    (hj : j < n) (h : smoke.runLoop E o nodes fuel i n st = Except.ok st') :
    ∃ stj st1, smoke.runLoop E o nodes fuel i j st = Except.ok stj ∧
      smoke.iteration E o nodes fuel (i + j) stj = Except.ok st1 := by
  have hn : n = j + ((n - j - 1) + 1) := by omega
  rw [hn, runLoop_split] at h
  cases hpre : smoke.runLoop E o nodes fuel i j st with
  | error fin => simp [hpre] at h
  | ok stj =>
    simp only [hpre, smoke.runLoop] at h
    cases hit : smoke.iteration E o nodes fuel (i + j) stj with
    | error fin => simp [hit] at h
    | ok st1 => exact ⟨stj, st1, rfl, hit⟩

/-- An iteration that does not make `Run` return reached the comparison with downloaded
bytes equal to the payload. -/
theorem iteration_ok {ω σ ρ : Type} (E : smoke.Env ω σ ρ) (o : smoke.Options)
    (nodes : List String) (fuel : Nat) (i : Nat) (st st1 : smoke.State ω σ ρ)
    (h : smoke.iteration E o nodes fuel i st = Except.ok st1) :
    ∃ t, smoke.transfer E o nodes fuel i st = Except.ok t ∧ t.data = t.dd := by
  unfold smoke.iteration at h
  cases ht : smoke.transfer E o nodes fuel i st with
  | error fin => simp [ht] at h
  | ok t =>
    simp only [ht] at h
    by_cases hd : t.data ≠ t.dd
    · simp [hd] at h
    · exact ⟨t, rfl, not_not.mp hd⟩

/-- The payload an iteration compares with is the one read from the generator `rnd`,
it is the payload that was uploaded, and the bytes it is compared with are the ones the
download node gave for the address of that upload, after a wait that did not fail. -/
theorem transfer_exchange {ω σ ρ : Type} (E : smoke.Env ω σ ρ) (o : smoke.Options)
    (nodes : List String) (fuel : Nat) (i : Nat) (st : smoke.State ω σ ρ)
    (t : smoke.Transfer ω σ ρ) (h : smoke.transfer E o nodes fuel i st = Except.ok t) :
    t.data = (E.P.Read o.Bytes.toNat st.rnd).1.1 ∧
    ∃ name uid addr w1 w2 w3,
      E.UploadBytes name t.data uid w1 = ((addr, none), w2) ∧
      E.WaitSync name uid o.Timeout w2 = (none, w3) ∧
      E.DownloadBytes t.downloadNode addr o.Timeout w3 = ((t.dd, none), t.st.cluster) := by
  unfold smoke.transfer at h
  by_cases hlen : nodes.length = 0
  · simp [hlen] at h
  · simp only [if_neg hlen] at h
    cases hname : nodes[(E.R.Intn nodes.length st.r).1]? with
    | none => simp [hname] at h
    | some nodeName =>
      simp only [hname] at h
      rcases htag : E.CreateTag nodeName st.cluster with ⟨⟨uid, et⟩, w1⟩
      cases et with
      | some e => simp [htag] at h
      | none =>
        simp only [htag] at h
        by_cases hb : o.Bytes < 0
        · simp [hb] at h
        · simp only [if_neg hb] at h
          cases hrd : (E.P.Read o.Bytes.toNat st.rnd).1.2.2 with
          | some e => simp [hrd] at h
          | none =>
            simp only [hrd] at h
            rcases hup : E.UploadBytes nodeName (E.P.Read o.Bytes.toNat st.rnd).1.1 uid w1
              with ⟨⟨addr, eu⟩, w2⟩
            cases eu with
            | some e => simp [hup] at h
            | none =>
              simp only [hup] at h
              rcases hsync : E.WaitSync nodeName uid o.Timeout w2 with ⟨es, w3⟩
              cases es with
              | some e => simp [hsync] at h
              | none =>
                simp only [hsync] at h
                cases hpick : smoke.randNot E.R fuel (E.R.Intn nodes.length st.r).2
                    nodes.length (E.R.Intn nodes.length st.r).1 with
                | none => simp [hpick] at h
                | some pick =>
                  obtain ⟨⟨n, r2⟩, lines⟩ := pick
                  simp only [hpick] at h
                  cases hdn : nodes[n.toNat]? with
                  | none => simp [hdn] at h
                  | some downloadNode =>
                    simp only [hdn] at h
                    rcases hdl : E.DownloadBytes downloadNode addr o.Timeout w3 with
                      ⟨⟨dd, ed⟩, w4⟩
                    cases ed with
                    | some e => simp [hdl] at h
                    | none =>
                      simp only [hdl, Except.ok.injEq] at h
                      rw [← h]
                      exact ⟨rfl, nodeName, uid, addr, w1, w2, w3, hup, hsync, hdl⟩

/-- An iteration whose download differs from the payload makes `Run` return the
mismatch error, in the state right after the download. -/
theorem iteration_mismatch {ω σ ρ : Type} (E : smoke.Env ω σ ρ) (o : smoke.Options)
    (nodes : List String) (fuel : Nat) (i : Nat) (st : smoke.State ω σ ρ)
    (t : smoke.Transfer ω σ ρ) (ht : smoke.transfer E o nodes fuel i st = Except.ok t)
    (hd : t.dd ≠ t.data) :
    smoke.iteration E o nodes fuel i st =
      Except.error (some (GoResult.ret t.st (some "download data mismatch"))) := by
  have hd' : t.data ≠ t.dd := fun e => hd e.symm
  simp only [smoke.iteration, ht, if_pos hd']

/-- When the first `j` iterations went through and iteration `j` makes `Run` return,
`Run` ends the way that iteration says, whatever the number of runs asked for. -/
theorem Run_of_iteration_error {ω σ ρ : Type} (E : smoke.Env ω σ ρ) (fuel : Nat)
    (o : smoke.Options) (cluster : ω) (j : Nat) (stj : smoke.State ω σ ρ)
    (fin : smoke.Final ω σ ρ) (hj : j < o.Runs.toNat)
    (hpre : smoke.runLoop E o (E.NodesSorted o.NodeGroup cluster) fuel 0 j
      (smoke.startState E o cluster) = Except.ok stj)
    (hit : smoke.iteration E o (E.NodesSorted o.NodeGroup cluster) fuel j stj =
      Except.error fin) :
    smoke.Run E fuel o cluster = fin := by
  have hn : o.Runs.toNat = j + ((o.Runs.toNat - j - 1) + 1) := by omega
  unfold smoke.Run
  rw [hn, runLoop_split, hpre]
  simp only [smoke.runLoop, Nat.zero_add, hit]

/-- An iteration in which the tag is created, the payload uploaded, and the wait for the
sync fails makes `Run` return the wrapped error in the state right after the wait:
the generator `r` has made the uploader draw only, and the cluster has seen no
download. -/
theorem transfer_sync_failure {ω σ ρ : Type} (E : smoke.Env ω σ ρ) (o : smoke.Options)
    (nodes : List String) (fuel : Nat) (i : Nat) (st : smoke.State ω σ ρ)
    (name : String) (uid : Nat) (w1 w2 w3 : ω) (addr : swarm.Address) (e : String)
    (hname : nodes[(E.R.Intn nodes.length st.r).1]? = some name)
    (hbytes : 0 ≤ o.Bytes)
    (htag : E.CreateTag name st.cluster = ((uid, none), w1))
    (hup : E.UploadBytes name (E.P.Read o.Bytes.toNat st.rnd).1.1 uid w1 =
      ((addr, none), w2))
    (hsync : E.WaitSync name uid o.Timeout w2 = (some e, w3)) :
    smoke.iteration E o nodes fuel i st =
      Except.error (some (GoResult.ret
        { cluster := w3, r := (E.R.Intn nodes.length st.r).2,
          rnd := (E.P.Read o.Bytes.toNat st.rnd).2,
          out := st.out ++ ["run " ++ toString i ++ ", uploader node is: " ++ name] }
        (some ("sync with node " ++ name ++ ": " ++ e)))) := by
  have hlen : ¬ nodes.length = 0 := by
    intro h0
    have hnil : nodes = [] := List.length_eq_zero.mp h0
    rw [hnil] at hname
    simp at hname
  have hb : ¬ o.Bytes < 0 := by omega
  have hrd : (E.P.Read o.Bytes.toNat st.rnd).1.2.2 = none := by
    rw [E.P.Read_result]
  simp only [smoke.iteration, smoke.transfer, if_neg hlen, hname, htag, if_neg hb, hrd, hup,
    hsync]

/-- A `return` of `Run` inside the part of an iteration up to the download carries an
error: it is never a return of nil. -/
theorem transfer_error_not_nil {ω σ ρ : Type} (E : smoke.Env ω σ ρ) (o : smoke.Options)
    (nodes : List String) (fuel : Nat) (i : Nat) (st : smoke.State ω σ ρ)
    (fin : smoke.Final ω σ ρ) (h : smoke.transfer E o nodes fuel i st = Except.error fin)
    (st1 : smoke.State ω σ ρ) : fin ≠ some (GoResult.ret st1 none) := by
  unfold smoke.transfer at h
  by_cases hlen : nodes.length = 0
  · simp only [if_pos hlen, Except.error.injEq] at h
    rw [← h]; simp
  · simp only [if_neg hlen] at h
    cases hname : nodes[(E.R.Intn nodes.length st.r).1]? with
    | none =>
      simp only [hname, Except.error.injEq] at h
      rw [← h]; simp
    | some nodeName =>
      simp only [hname] at h
      rcases htag : E.CreateTag nodeName st.cluster with ⟨⟨uid, et⟩, w1⟩
      cases et with
      | some e =>
        simp only [htag, Except.error.injEq] at h
        rw [← h]; simp
      | none =>
        simp only [htag] at h
        by_cases hb : o.Bytes < 0
        · simp only [if_pos hb, Except.error.injEq] at h
          rw [← h]; simp
        · simp only [if_neg hb] at h
          cases hrd : (E.P.Read o.Bytes.toNat st.rnd).1.2.2 with
          | some e =>
            simp only [hrd, Except.error.injEq] at h
            rw [← h]; simp
          | none =>
            simp only [hrd] at h
            rcases hup : E.UploadBytes nodeName (E.P.Read o.Bytes.toNat st.rnd).1.1 uid w1
              with ⟨⟨addr, eu⟩, w2⟩
            cases eu with
            | some e =>
              simp only [hup, Except.error.injEq] at h
              rw [← h]; simp
            | none =>
              simp only [hup] at h
              rcases hsync : E.WaitSync nodeName uid o.Timeout w2 with ⟨es, w3⟩
              cases es with
              | some e =>
                simp only [hsync, Except.error.injEq] at h
                rw [← h]; simp
              | none =>
                simp only [hsync] at h
                cases hpick : smoke.randNot E.R fuel (E.R.Intn nodes.length st.r).2
                    nodes.length (E.R.Intn nodes.length st.r).1 with
                | none =>
                  simp only [hpick, Except.error.injEq] at h
                  rw [← h]; simp
                | some pick =>
                  obtain ⟨⟨n, r2⟩, lines⟩ := pick
                  simp only [hpick] at h
                  cases hdn : nodes[n.toNat]? with
                  | none =>
                    simp only [hdn, Except.error.injEq] at h
                    rw [← h]; simp
                  | some downloadNode =>
                    simp only [hdn] at h
                    rcases hdl : E.DownloadBytes downloadNode addr o.Timeout w3 with
                      ⟨⟨dd, ed⟩, w4⟩
                    cases ed with
                    | some e =>
                      simp only [hdl, Except.error.injEq] at h
                      rw [← h]; simp
                    | none => simp [hdl] at h

/-- A `return` of `Run` inside an iteration is never a return of nil. -/
theorem iteration_error_not_nil {ω σ ρ : Type} (E : smoke.Env ω σ ρ) (o : smoke.Options)
    (nodes : List String) (fuel : Nat) (i : Nat) (st : smoke.State ω σ ρ)
    (fin : smoke.Final ω σ ρ) (h : smoke.iteration E o nodes fuel i st = Except.error fin)
    (st1 : smoke.State ω σ ρ) : fin ≠ some (GoResult.ret st1 none) := by
  unfold smoke.iteration at h
  cases ht : smoke.transfer E o nodes fuel i st with
  | error f =>
    simp only [ht, Except.error.injEq] at h
    rw [← h]
    exact transfer_error_not_nil E o nodes fuel i st f ht st1
  | ok t =>
    simp only [ht] at h
    by_cases hd : t.data ≠ t.dd
    · simp only [if_pos hd, Except.error.injEq] at h
      rw [← h]; simp
    · simp [hd] at h

/-- A `return` of `Run` inside its loop is never a return of nil. -/
theorem runLoop_error_not_nil {ω σ ρ : Type} (E : smoke.Env ω σ ρ) (o : smoke.Options)
    (nodes : List String) (fuel : Nat) (k : Nat) :
    ∀ (i : Nat) (st : smoke.State ω σ ρ) (fin : smoke.Final ω σ ρ),
      smoke.runLoop E o nodes fuel i k st = Except.error fin →
      ∀ st1, fin ≠ some (GoResult.ret st1 none) := by
  induction k with
  | zero =>
    intro i st fin h
    simp [smoke.runLoop] at h
  | succ k ih =>
    intro i st fin h st1
    simp only [smoke.runLoop] at h
    cases hit : smoke.iteration E o nodes fuel i st with
    | error f =>
      simp only [hit, Except.error.injEq] at h
      rw [← h]
      exact iteration_error_not_nil E o nodes fuel i st f hit st1
    | ok st2 =>
      simp only [hit] at h
      exact ih (i + 1) st2 fin h st1

/-- Claim C21: `Run` returns nil only if, in every one of its `o.Runs` iterations, the
bytes downloaded from the download node equal the payload that was generated and
uploaded in that iteration; and when the download of some iteration differs, `Run`
returns "download data mismatch" in the state right after that download, so that no
further iteration starts. -/
theorem Run_nil_only_if_downloads_match {ω σ ρ : Type} (E : smoke.Env ω σ ρ) (fuel : Nat)
    (o : smoke.Options) (cluster : ω) :
    (∀ st, smoke.Run E fuel o cluster = some (GoResult.ret st none) →
      ∀ j, j < o.Runs.toNat → ∃ stj t,
        smoke.runLoop E o (E.NodesSorted o.NodeGroup cluster) fuel 0 j
          (smoke.startState E o cluster) = Except.ok stj ∧
        smoke.transfer E o (E.NodesSorted o.NodeGroup cluster) fuel j stj = Except.ok t ∧
        t.data = (E.P.Read o.Bytes.toNat stj.rnd).1.1 ∧
        (∃ name uid addr w1 w2 w3,
          E.UploadBytes name t.data uid w1 = ((addr, none), w2) ∧
          E.WaitSync name uid o.Timeout w2 = (none, w3) ∧
          E.DownloadBytes t.downloadNode addr o.Timeout w3 =
            ((t.dd, none), t.st.cluster)) ∧
        t.dd = t.data) ∧
    (∀ j stj t, j < o.Runs.toNat →
      smoke.runLoop E o (E.NodesSorted o.NodeGroup cluster) fuel 0 j
        (smoke.startState E o cluster) = Except.ok stj →
      smoke.transfer E o (E.NodesSorted o.NodeGroup cluster) fuel j stj = Except.ok t →
      t.dd ≠ t.data →
      smoke.Run E fuel o cluster =
        some (GoResult.ret t.st (some "download data mismatch"))) := by
  refine ⟨?_, ?_⟩
  · intro st hrun j hj
    unfold smoke.Run at hrun
    cases hloop : smoke.runLoop E o (E.NodesSorted o.NodeGroup cluster) fuel 0 o.Runs.toNat
        (smoke.startState E o cluster) with
    | error fin =>
      rw [hloop] at hrun
      exact absurd hrun (runLoop_error_not_nil E o _ fuel _ 0 _ fin hloop st)
    | ok stn =>
      obtain ⟨stj, st1, hpre, hit⟩ := runLoop_ok_prefix E o _ fuel 0 o.Runs.toNat j _ stn hj hloop
      rw [Nat.zero_add] at hit
      obtain ⟨t, ht, hdd⟩ := iteration_ok E o _ fuel j stj st1 hit
      obtain ⟨hdata, hex⟩ := transfer_exchange E o _ fuel j stj t ht
      exact ⟨stj, t, hpre, ht, hdata, hex, hdd.symm⟩
  · intro j stj t hj hpre ht hd
    exact Run_of_iteration_error E fuel o cluster j stj _ hj hpre
      (iteration_mismatch E o _ fuel j stj t ht hd)

/-- Witness for C21 on the sample cluster with two runs: the sound cluster makes `Run`
return nil, so the second iteration downloaded what it uploaded; on the spoiled cluster
the first download differs and `Run` returns the mismatch error after four
operations. -/
theorem Run_nil_only_if_downloads_match_witness :
    (∃ stj t,
      smoke.runLoop (smoke.sampleEnv false false) smoke.sampleOptions
        ["bee-0", "bee-1", "bee-2"] 10 0 1
        (smoke.startState (smoke.sampleEnv false false) smoke.sampleOptions []) =
          Except.ok stj ∧
      smoke.transfer (smoke.sampleEnv false false) smoke.sampleOptions
        ["bee-0", "bee-1", "bee-2"] 10 1 stj = Except.ok t ∧
      t.data = (rand.lcg.Read 2 stj.rnd).1.1 ∧
      (∃ name uid addr w1 w2 w3,
        (smoke.sampleEnv false false).UploadBytes name t.data uid w1 = ((addr, none), w2) ∧
        (smoke.sampleEnv false false).WaitSync name uid 0 w2 = (none, w3) ∧
        (smoke.sampleEnv false false).DownloadBytes t.downloadNode addr 0 w3 =
          ((t.dd, none), t.st.cluster)) ∧
      t.dd = t.data) ∧
    smoke.Run (smoke.sampleEnv true false) 10 smoke.sampleOptions [] =
      some (GoResult.ret
        { cluster := ["tag bee-1", "upload bee-1", "sync bee-1", "download bee-2"],
          r := 319028003254796569, rnd := 1948519611011111707,
          out := ["seed: 65536", "run 0, uploader node is: bee-1"] }
        (some "download data mismatch")) :=
  ⟨(Run_nil_only_if_downloads_match (smoke.sampleEnv false false) 10 smoke.sampleOptions
      []).1
      { cluster := ["tag bee-1", "upload bee-1", "sync bee-1", "download bee-2",
          "tag bee-0", "upload bee-0", "sync bee-0", "download bee-1"],
        r := 3855274586663249576, rnd := 2082607238469670853,
        out := ["seed: 65536", "run 0, uploader node is: bee-1",
          "Downloaded successfully from node: bee-2", "run 1, uploader node is: bee-0",
          "Downloaded successfully from node: bee-1", "smoke test completed successfully"] }
      (by decide) 1 (by decide),
   (Run_nil_only_if_downloads_match (smoke.sampleEnv true false) 10 smoke.sampleOptions
      []).2 0
      (smoke.startState (smoke.sampleEnv true false) smoke.sampleOptions [])
      (smoke.Transfer.mk
        { cluster := ["tag bee-1", "upload bee-1", "sync bee-1", "download bee-2"],
          r := 319028003254796569, rnd := 1948519611011111707,
          out := ["seed: 65536", "run 0, uploader node is: bee-1"] }
        "bee-2" [0, 195] [0, 195, 0])
      (by decide) rfl rfl (by decide)⟩

/-- Claim C22: when the first `j` iterations went through and in iteration `j` the tag
is created, the payload uploaded, and the wait for the sync fails with `e`, `Run`
returns the error "sync with node <name>: <e>" in the state right after the wait: the
cluster has seen no operation after the wait (no download, no later iteration), and
the generator `r` has made the uploader draw of this iteration only (no node is
selected again). -/
theorem Run_sync_failure_returns {ω σ ρ : Type} (E : smoke.Env ω σ ρ) (fuel : Nat)
    (o : smoke.Options) (cluster : ω) (j : Nat) (stj : smoke.State ω σ ρ)
    (name : String) (uid : Nat) (w1 w2 w3 : ω) (addr : swarm.Address) (e : String)
    (hj : j < o.Runs.toNat)
    (hpre : smoke.runLoop E o (E.NodesSorted o.NodeGroup cluster) fuel 0 j
      (smoke.startState E o cluster) = Except.ok stj)
    (hname : (E.NodesSorted o.NodeGroup cluster)[(E.R.Intn
      (E.NodesSorted o.NodeGroup cluster).length stj.r).1]? = some name)
    (hbytes : 0 ≤ o.Bytes)
    (htag : E.CreateTag name stj.cluster = ((uid, none), w1))
    (hup : E.UploadBytes name (E.P.Read o.Bytes.toNat stj.rnd).1.1 uid w1 =
      ((addr, none), w2))
    (hsync : E.WaitSync name uid o.Timeout w2 = (some e, w3)) :
    smoke.Run E fuel o cluster =
      some (GoResult.ret
        { cluster := w3,
          r := (E.R.Intn (E.NodesSorted o.NodeGroup cluster).length stj.r).2,
          rnd := (E.P.Read o.Bytes.toNat stj.rnd).2,
          out := stj.out ++ ["run " ++ toString j ++ ", uploader node is: " ++ name] }
        (some ("sync with node " ++ name ++ ": " ++ e))) :=
  Run_of_iteration_error E fuel o cluster j stj _ hj hpre
    (transfer_sync_failure E o _ fuel j stj name uid w1 w2 w3 addr e hname hbytes htag hup
      hsync)

/-- Witness for C22 on the sample cluster whose sync fails: `Run` returns after the
first wait, the cluster has seen three operations and no download, and `r` is the
state after one draw. -/
theorem Run_sync_failure_returns_witness :
    smoke.Run (smoke.sampleEnv false true) 10 smoke.sampleOptions [] =
      some (GoResult.ret
        { cluster := ["tag bee-1", "upload bee-1", "sync bee-1"],
          r := (rand.lcg.Intn 3 65536).2, rnd := 1948519611011111707,
          out := ["seed: 65536", "run 0, uploader node is: bee-1"] }
        (some "sync with node bee-1: context deadline exceeded")) :=
  Run_sync_failure_returns (smoke.sampleEnv false true) 10 smoke.sampleOptions [] 0
    (smoke.startState (smoke.sampleEnv false true) smoke.sampleOptions [])
    "bee-1" 1 ["tag bee-1"] ["tag bee-1", "upload bee-1"]
    ["tag bee-1", "upload bee-1", "sync bee-1"] (swarm.Address.mk [0, 195])
    "context deadline exceeded" (by decide) rfl (by decide) (by decide) rfl rfl rfl

/-! ## The single-owner-chunk check -/

/-- Counterexample for C23: on the spoiled sample world the retrieved bytes differ from
the data of the signed chunk, and `Check` fails with the error "soc: retrieved chunk
data does NOT match soc chunk", a message in which the words "retrieved content does
not match signed content" do not occur. -/
theorem soc_Check_mismatch_message :
    (∃ st, soc.Check (soc.sampleEnv true) [] soc.sampleOptions () true =
        GoResult.ret st (some "soc: retrieved chunk data does NOT match soc chunk") ∧
      st.world = ["key", "read", "sign", "upload bee-0", "download bee-0"]) ∧
    ((soc.sampleEnv true).DownloadChunk "bee-0" time.Minute (swarm.Address.mk [3]) ""
      ["key", "read", "sign", "upload bee-0"]).1.1 ≠ soc.sampleData ∧
    ¬ ("retrieved content does not match signed content".toList <:+:
      "soc: retrieved chunk data does NOT match soc chunk".toList) :=
  ⟨⟨_, rfl, rfl⟩, by decide, by decide⟩

/-- Claim C23, amended: when no operation of `Check` fails (the key, the content chunk,
the random id, the signature, the public key and the owner address are made, the node
group has a first node, the upload and the download succeed), `Check` returns nil when
the retrieved bytes equal the data of the signed chunk, and otherwise the error "soc:
retrieved chunk data does NOT match soc chunk". -/
theorem soc_Check_compares {ω κ π Ψ : Type} (E : soc.Env ω κ π) (c : ω) (o : soc.Options)
    (pusher : Ψ) (pushMetrics : Bool) (privKey : κ) (w1 w2 w3 w4 w5 : ω)
    (ch sch : swarm.Chunk) (idBytes ownerBytes retrieved : List Byte) (publicKey : π)
    (nodeName : String) (ref : swarm.Address)
    (hkey : E.GenerateSecp256k1Key c = ((privKey, none), w1))
    (hcac : E.cacNew soc.payload = (ch, none))
    (hid : E.randRead 32 w1 = ((idBytes, none), w2))
    (hsign : E.Sign idBytes ch privKey w2 = ((sch, none), w3))
    (hcap : soc.IdSize + soc.SignatureSize ≤ sch.data.length + sch.spare.length)
    (hpub : E.PublicKey privKey = (some publicKey, none))
    (hown : E.NewEthereumAddress publicKey = (ownerBytes, none))
    (hnode : (E.NodesSorted o.NodeGroup c)[0]? = some nodeName)
    (hup : E.UploadSOC nodeName time.Minute (hex.EncodeToString ownerBytes)
      (hex.EncodeToString idBytes)
      (hex.EncodeToString (((sch.data ++ sch.spare).drop soc.IdSize).take
        soc.SignatureSize)) ch.data w3 = ((ref, none), w4))
    (hdl : E.DownloadChunk nodeName time.Minute ref "" w4 = ((retrieved, none), w5)) :
    soc.Check E c o pusher pushMetrics =
      GoResult.ret
        { world := w5,
          out := ["soc: submitting soc chunk " ++ sch.address.String ++ " to node " ++
              nodeName,
            "soc: owner " ++ hex.EncodeToString ownerBytes,
            "soc: id " ++ hex.EncodeToString idBytes,
            "soc: sig " ++ hex.EncodeToString (((sch.data ++ sch.spare).drop
              soc.IdSize).take soc.SignatureSize)] }
        (if retrieved = sch.data then none
          else some "soc: retrieved chunk data does NOT match soc chunk") := by
  have hid1 : soc.randomID E w1 = ((idBytes, none), w2) := by
    simp only [soc.randomID, hid]
  have hcap1 : ¬ (sch.data.length + sch.spare.length < soc.IdSize + soc.SignatureSize) := by
    omega
  simp only [soc.Check, hkey, hcac, hid1, hsign, if_neg hcap1, hpub, hown, hnode, hup, hdl]
  by_cases h : retrieved = sch.data <;> simp [h]

/-- Witness for C23 on the sound sample world: every operation succeeds, the download
gives the data of the signed chunk, and `Check` returns nil after the upload and the
download through the first node. -/
theorem soc_Check_compares_witness :
    ∃ out, soc.Check (soc.sampleEnv false) [] soc.sampleOptions () true =
      GoResult.ret
        { world := ["key", "read", "sign", "upload bee-0", "download bee-0"], out := out }
        none :=
  ⟨_, soc_Check_compares (soc.sampleEnv false) [] soc.sampleOptions () true 7
    ["key"] ["key", "read"] ["key", "read", "sign"]
    ["key", "read", "sign", "upload bee-0"]
    ["key", "read", "sign", "upload bee-0", "download bee-0"]
    (swarm.Chunk.mk (swarm.Address.mk [1]) ([14, 0, 0, 0, 0, 0, 0, 0] ++ soc.payload) [])
    (swarm.Chunk.mk (swarm.Address.mk [2]) soc.sampleData [])
    (List.replicate 32 5) (List.replicate 20 8) soc.sampleData 8 "bee-0"
    (swarm.Address.mk [3]) rfl rfl rfl rfl (by decide) rfl rfl rfl rfl rfl⟩

/-! ## The download node of the smoke check -/

/-- One draw of the loop of `randNot`: a draw that differs from `not` is returned with the
generator state after it, and after a draw equal to `not` the loop goes on from that
state. -/
theorem randNot_step {σ : Type} (R : rand.Rand σ) (l : Int) (hl : 2 ≤ l) (fuel : Nat)
    (r : σ) (not : Int) :
    smoke.randNot R (fuel + 1) r l not =
      if ((R.Intn l.toNat r).1 : Int) ≠ not then
        some ((((R.Intn l.toNat r).1 : Int), (R.Intn l.toNat r).2), [])
      else smoke.randNot R fuel (R.Intn l.toNat r).2 l not := by
  have hl2 : ¬ l < 2 := by omega
  simp only [smoke.randNot, if_neg hl2, smoke.randNotLoop]
  by_cases hp : ((R.Intn l.toNat r).1 : Int) ≠ not
  · simp only [if_pos hp, Option.map_some']
  · simp only [if_neg hp]

/-- A pick returned by `randNot` on a population of at least two lies in `[0, l)` and
differs from `not`. -/
theorem randNot_returned {σ : Type} (R : rand.Rand σ) (l : Int) (hl : 2 ≤ l) (fuel : Nat)
    (r : σ) (not p : Int) (r' : σ) (out : List String)
    (h : smoke.randNot R fuel r l not = some ((p, r'), out)) : 0 ≤ p ∧ p < l ∧ p ≠ not := by
  have hl2 : ¬ l < 2 := by omega
  simp only [smoke.randNot, if_neg hl2] at h
  cases hloop : smoke.randNotLoop R l not fuel r with
  | none => simp [hloop] at h
  | some x =>
    simp only [hloop, Option.map_some', Option.some.injEq, Prod.mk.injEq] at h
    exact randNotLoop_pick R l not (by omega) fuel r p r' (by rw [hloop, ← h.1])

/-- An iteration that reaches the comparison has created a tag on the uploader, the node
at the index drawn by `r.Intn`, uploaded the payload there, waited for the sync, drawn
the download index by `randNot` with the uploader index excluded, and downloaded from
the node at that index. -/
theorem transfer_picks {ω σ ρ : Type} (E : smoke.Env ω σ ρ) (o : smoke.Options)
    (nodes : List String) (fuel : Nat) (i : Nat) (st : smoke.State ω σ ρ)
    (t : smoke.Transfer ω σ ρ) (h : smoke.transfer E o nodes fuel i st = Except.ok t) :
    ∃ name uid addr w1 w2 w3 n r2 lines,
      nodes[(E.R.Intn nodes.length st.r).1]? = some name ∧
      E.CreateTag name st.cluster = ((uid, none), w1) ∧
      E.UploadBytes name t.data uid w1 = ((addr, none), w2) ∧
      E.WaitSync name uid o.Timeout w2 = (none, w3) ∧
      smoke.randNot E.R fuel (E.R.Intn nodes.length st.r).2 (nodes.length : Int)
        ((E.R.Intn nodes.length st.r).1 : Int) = some ((n, r2), lines) ∧
      nodes[n.toNat]? = some t.downloadNode ∧
      E.DownloadBytes t.downloadNode addr o.Timeout w3 = ((t.dd, none), t.st.cluster) := by
  unfold smoke.transfer at h
  by_cases hlen : nodes.length = 0
  · simp [hlen] at h
  · simp only [if_neg hlen] at h
    cases hname : nodes[(E.R.Intn nodes.length st.r).1]? with
    | none => simp [hname] at h
    | some nodeName =>
      simp only [hname] at h
      rcases htag : E.CreateTag nodeName st.cluster with ⟨⟨uid, et⟩, w1⟩
      cases et with
      | some e => simp [htag] at h
      | none =>
        simp only [htag] at h
        by_cases hb : o.Bytes < 0
        · simp [hb] at h
        · simp only [if_neg hb] at h
          cases hrd : (E.P.Read o.Bytes.toNat st.rnd).1.2.2 with
          | some e => simp [hrd] at h
          | none =>
            simp only [hrd] at h
            rcases hup : E.UploadBytes nodeName (E.P.Read o.Bytes.toNat st.rnd).1.1 uid w1
              with ⟨⟨addr, eu⟩, w2⟩
            cases eu with
            | some e => simp [hup] at h
            | none =>
              simp only [hup] at h
              rcases hsync : E.WaitSync nodeName uid o.Timeout w2 with ⟨es, w3⟩
              cases es with
              | some e => simp [hsync] at h
              | none =>
                simp only [hsync] at h
                cases hpick : smoke.randNot E.R fuel (E.R.Intn nodes.length st.r).2
                    nodes.length (E.R.Intn nodes.length st.r).1 with
                | none => simp [hpick] at h
                | some pick =>
                  obtain ⟨⟨n, r2⟩, lines⟩ := pick
                  simp only [hpick] at h
                  cases hdn : nodes[n.toNat]? with
                  | none => simp [hdn] at h
                  | some downloadNode =>
                    simp only [hdn] at h
                    rcases hdl : E.DownloadBytes downloadNode addr o.Timeout w3 with
                      ⟨⟨dd, ed⟩, w4⟩
                    cases ed with
                    | some e => simp [hdl] at h
                    | none =>
                      simp only [hdl, Except.ok.injEq] at h
                      rw [← h]
                      exact ⟨nodeName, uid, addr, w1, w2, w3, n, r2, lines, rfl, htag, hup,
                        hsync, rfl, hdn, hdl⟩

/-- An iteration in which the tag is created, the payload uploaded, the wait for the sync
succeeds and `randNot` returns the index `n` of the node `dn` downloads from `dn`: it
reaches the comparison when the download succeeds, and makes `Run` return the wrapped
error of the download otherwise. -/
theorem transfer_download {ω σ ρ : Type} (E : smoke.Env ω σ ρ) (o : smoke.Options)
    (nodes : List String) (fuel : Nat) (i : Nat) (st : smoke.State ω σ ρ)
    (name dn : String) (uid : Nat) (w1 w2 w3 : ω) (addr : swarm.Address) (n : Int)
    (r2 : σ) (lines : List String)
    (hname : nodes[(E.R.Intn nodes.length st.r).1]? = some name)
    (hbytes : 0 ≤ o.Bytes)
    (htag : E.CreateTag name st.cluster = ((uid, none), w1))
    (hup : E.UploadBytes name (E.P.Read o.Bytes.toNat st.rnd).1.1 uid w1 =
      ((addr, none), w2))
    (hsync : E.WaitSync name uid o.Timeout w2 = (none, w3))
    (hpick : smoke.randNot E.R fuel (E.R.Intn nodes.length st.r).2 (nodes.length : Int)
      ((E.R.Intn nodes.length st.r).1 : Int) = some ((n, r2), lines))
    (hdn : nodes[n.toNat]? = some dn) :
    (∀ (dd : List Byte) (w4 : ω),
      E.DownloadBytes dn addr o.Timeout w3 = ((dd, none), w4) →
      smoke.transfer E o nodes fuel i st =
        Except.ok
          { st :=
              { cluster := w4, r := r2, rnd := (E.P.Read o.Bytes.toNat st.rnd).2,
                out := st.out ++ ["run " ++ toString i ++ ", uploader node is: " ++ name] ++
                  lines }
            downloadNode := dn
            data := (E.P.Read o.Bytes.toNat st.rnd).1.1
            dd := dd }) ∧
    (∀ (x : List Byte) (e : String) (w4 : ω),
      E.DownloadBytes dn addr o.Timeout w3 = ((x, some e), w4) →
      smoke.transfer E o nodes fuel i st =
        Except.error (some (GoResult.ret
          { cluster := w4, r := r2, rnd := (E.P.Read o.Bytes.toNat st.rnd).2,
            out := st.out ++ ["run " ++ toString i ++ ", uploader node is: " ++ name] ++
              lines }
          (some ("download from node " ++ name ++ ": " ++ e))))) := by
  have hlen : ¬ nodes.length = 0 := by
    intro h0
    have hnil : nodes = [] := List.length_eq_zero.mp h0
    rw [hnil] at hname
    simp at hname
  have hb : ¬ o.Bytes < 0 := by omega
  have hrd : (E.P.Read o.Bytes.toNat st.rnd).1.2.2 = none := by
    rw [E.P.Read_result]
  constructor
  · intro dd w4 hdl
    simp only [smoke.transfer, if_neg hlen, hname, htag, if_neg hb, hrd, hup, hsync, hpick,
      hdn, hdl]
  · intro x e w4 hdl
    simp only [smoke.transfer, if_neg hlen, hname, htag, if_neg hb, hrd, hup, hsync, hpick,
      hdn, hdl]

/-- A run that returns nil went through every one of its iterations up to the
comparison. -/
theorem Run_nil_iterations {ω σ ρ : Type} (E : smoke.Env ω σ ρ) (fuel : Nat)
    (o : smoke.Options) (cluster : ω) (st : smoke.State ω σ ρ)
    (hrun : smoke.Run E fuel o cluster = some (GoResult.ret st none)) (j : Nat)
    (hj : j < o.Runs.toNat) :
    ∃ stj t,
      smoke.runLoop E o (E.NodesSorted o.NodeGroup cluster) fuel 0 j
        (smoke.startState E o cluster) = Except.ok stj ∧
      smoke.transfer E o (E.NodesSorted o.NodeGroup cluster) fuel j stj = Except.ok t := by
  unfold smoke.Run at hrun
  cases hloop : smoke.runLoop E o (E.NodesSorted o.NodeGroup cluster) fuel 0 o.Runs.toNat
      (smoke.startState E o cluster) with
  | error fin =>
    rw [hloop] at hrun
    exact absurd hrun (runLoop_error_not_nil E o _ fuel _ 0 _ fin hloop st)
  | ok stn =>
    obtain ⟨stj, st1, hpre, hit⟩ :=
      runLoop_ok_prefix E o _ fuel 0 o.Runs.toNat j _ stn hj hloop
    rw [Nat.zero_add] at hit
    obtain ⟨t, ht, _⟩ := iteration_ok E o _ fuel j stj st1 hit
    exact ⟨stj, t, hpre, ht⟩

/-- C13: for every population size `l ≥ 2` and every excluded index `not`, whenever
`randNot` returns, its result `p` satisfies `0 ≤ p < l` and `p ≠ not`; it returns the
first draw that differs from `not`.  Consequently in `smoke.Run` with `l ≥ 2` nodes the
download node index differs from the uploader index: an iteration that reaches the
comparison has uploaded through the node at the index `r.Intn(l)` and downloaded from
the node at an index `n` in `[0, l)` other than that index; an iteration in which
`randNot` returns `n` makes its download, successful or not, from the node at `n`, and
`n` is not the uploader index; and a run that returns nil did so in each of its
`o.Runs` iterations. -/
theorem randNot_pick_valid {ω σ ρ : Type} (E : smoke.Env ω σ ρ) (R : rand.Rand σ)
    (l : Int) (hl : 2 ≤ l) :
    (∀ (fuel : Nat) (r : σ) (not p : Int) (r' : σ) (out : List String),
      smoke.randNot R fuel r l not = some ((p, r'), out) → 0 ≤ p ∧ p < l ∧ p ≠ not) ∧
    (∀ (fuel : Nat) (r : σ) (not : Int),
      smoke.randNot R (fuel + 1) r l not =
        if ((R.Intn l.toNat r).1 : Int) ≠ not then
          some ((((R.Intn l.toNat r).1 : Int), (R.Intn l.toNat r).2), [])
        else smoke.randNot R fuel (R.Intn l.toNat r).2 l not) ∧
    (∀ (o : smoke.Options) (nodes : List String) (fuel i : Nat) (st : smoke.State ω σ ρ)
        (t : smoke.Transfer ω σ ρ),
      (nodes.length : Int) = l → smoke.transfer E o nodes fuel i st = Except.ok t →
      ∃ (name : String) (n : Int),
        nodes[(E.R.Intn nodes.length st.r).1]? = some name ∧
        nodes[n.toNat]? = some t.downloadNode ∧
        0 ≤ n ∧ n < l ∧ n ≠ ((E.R.Intn nodes.length st.r).1 : Int) ∧
        ∃ uid addr w1 w2 w3,
          E.UploadBytes name t.data uid w1 = ((addr, none), w2) ∧
          E.WaitSync name uid o.Timeout w2 = (none, w3) ∧
          E.DownloadBytes t.downloadNode addr o.Timeout w3 =
            ((t.dd, none), t.st.cluster)) ∧
    (∀ (o : smoke.Options) (nodes : List String) (fuel i : Nat) (st : smoke.State ω σ ρ)
        (name : String) (uid : Nat) (w1 w2 w3 : ω) (addr : swarm.Address) (n : Int)
        (r2 : σ) (lines : List String),
      (nodes.length : Int) = l →
      nodes[(E.R.Intn nodes.length st.r).1]? = some name →
      0 ≤ o.Bytes →
      E.CreateTag name st.cluster = ((uid, none), w1) →
      E.UploadBytes name (E.P.Read o.Bytes.toNat st.rnd).1.1 uid w1 = ((addr, none), w2) →
      E.WaitSync name uid o.Timeout w2 = (none, w3) →
      smoke.randNot E.R fuel (E.R.Intn nodes.length st.r).2 (nodes.length : Int)
        ((E.R.Intn nodes.length st.r).1 : Int) = some ((n, r2), lines) →
      0 ≤ n ∧ n < l ∧ n ≠ ((E.R.Intn nodes.length st.r).1 : Int) ∧
      ∃ dn, nodes[n.toNat]? = some dn ∧
        (∀ (dd : List Byte) (w4 : ω),
          E.DownloadBytes dn addr o.Timeout w3 = ((dd, none), w4) →
          ∃ t, smoke.transfer E o nodes fuel i st = Except.ok t ∧
            t.downloadNode = dn ∧ t.dd = dd ∧ t.st.cluster = w4) ∧
        (∀ (x : List Byte) (e : String) (w4 : ω),
          E.DownloadBytes dn addr o.Timeout w3 = ((x, some e), w4) →
          ∃ st1, st1.cluster = w4 ∧ smoke.transfer E o nodes fuel i st =
            Except.error (some (GoResult.ret st1
              (some ("download from node " ++ name ++ ": " ++ e)))))) ∧
    (∀ (fuel : Nat) (o : smoke.Options) (cluster : ω) (st : smoke.State ω σ ρ),
      ((E.NodesSorted o.NodeGroup cluster).length : Int) = l →
      smoke.Run E fuel o cluster = some (GoResult.ret st none) →
      ∀ j, j < o.Runs.toNat → ∃ stj t name n,
        smoke.runLoop E o (E.NodesSorted o.NodeGroup cluster) fuel 0 j
          (smoke.startState E o cluster) = Except.ok stj ∧
        smoke.transfer E o (E.NodesSorted o.NodeGroup cluster) fuel j stj = Except.ok t ∧
        (E.NodesSorted o.NodeGroup cluster)[(E.R.Intn
          (E.NodesSorted o.NodeGroup cluster).length stj.r).1]? = some name ∧
        (E.NodesSorted o.NodeGroup cluster)[n.toNat]? = some t.downloadNode ∧
        0 ≤ n ∧ n < l ∧
        n ≠ ((E.R.Intn (E.NodesSorted o.NodeGroup cluster).length stj.r).1 : Int)) := by
  have hinv : ∀ (o : smoke.Options) (nodes : List String) (fuel i : Nat)
      (st : smoke.State ω σ ρ) (t : smoke.Transfer ω σ ρ),
      (nodes.length : Int) = l → smoke.transfer E o nodes fuel i st = Except.ok t →
      ∃ (name : String) (n : Int),
        nodes[(E.R.Intn nodes.length st.r).1]? = some name ∧
        nodes[n.toNat]? = some t.downloadNode ∧
        0 ≤ n ∧ n < l ∧ n ≠ ((E.R.Intn nodes.length st.r).1 : Int) ∧
        ∃ uid addr w1 w2 w3,
          E.UploadBytes name t.data uid w1 = ((addr, none), w2) ∧
          E.WaitSync name uid o.Timeout w2 = (none, w3) ∧
          E.DownloadBytes t.downloadNode addr o.Timeout w3 =
            ((t.dd, none), t.st.cluster) := by
    intro o nodes fuel i st t hlen ht
    obtain ⟨name, uid, addr, w1, w2, w3, n, r2, lines, hname, _, hup, hsync, hpick, hdn,
      hdl⟩ := transfer_picks E o nodes fuel i st t ht
    obtain ⟨h0, h1, h2⟩ := randNot_returned E.R (nodes.length : Int) (by omega) fuel _ _ n
      r2 lines hpick
    exact ⟨name, n, hname, hdn, h0, by omega, h2, uid, addr, w1, w2, w3, hup, hsync, hdl⟩
  refine ⟨?_, ?_, hinv, ?_, ?_⟩
  · intro fuel r not p r' out h
    exact randNot_returned R l hl fuel r not p r' out h
  · intro fuel r not
    exact randNot_step R l hl fuel r not
  · intro o nodes fuel i st name uid w1 w2 w3 addr n r2 lines hlen hname hbytes htag hup
      hsync hpick
    obtain ⟨h0, h1, h2⟩ := randNot_returned E.R (nodes.length : Int) (by omega) fuel _ _ n
      r2 lines hpick
    have hlt : n.toNat < nodes.length := by omega
    refine ⟨h0, by omega, h2, nodes[n.toNat], List.getElem?_eq_getElem hlt, ?_, ?_⟩
    · intro dd w4 hdl
      exact ⟨_, (transfer_download E o nodes fuel i st name _ uid w1 w2 w3 addr n r2 lines
        hname hbytes htag hup hsync hpick (List.getElem?_eq_getElem hlt)).1 dd w4 hdl,
        rfl, rfl, rfl⟩
    · intro x e w4 hdl
      exact ⟨_, rfl, (transfer_download E o nodes fuel i st name _ uid w1 w2 w3 addr n r2
        lines hname hbytes htag hup hsync hpick (List.getElem?_eq_getElem hlt)).2 x e w4
        hdl⟩
  · intro fuel o cluster st hlen hrun j hj
    obtain ⟨stj, t, hpre, ht⟩ := Run_nil_iterations E fuel o cluster st hrun j hj
    obtain ⟨name, n, hname, hdn, h0, h1, h2, _⟩ := hinv o _ fuel j stj t hlen ht
    exact ⟨stj, t, name, n, hpre, ht, hname, hdn, h0, h1, h2⟩

/-- Witness for C13 on three nodes and the concrete generator: `randNot` with index 1
excluded returns 2 after three draws; the first iteration of the sample run uploads
through `bee-1` and downloads from `bee-2`; and the sample run returns nil, so its
second iteration downloaded from a node other than its uploader. -/
theorem randNot_pick_valid_witness :
    (2 : Int) ≤ 3 ∧
    smoke.randNot rand.lcg 3 65536 3 1 = some ((2, 319028003254796569), []) ∧
    ((0 : Int) ≤ 2 ∧ (2 : Int) < 3 ∧ (2 : Int) ≠ 1) ∧
    (∃ (name : String) (n : Int),
      ["bee-0", "bee-1", "bee-2"][(rand.lcg.Intn 3 65536).1]? = some name ∧
      ["bee-0", "bee-1", "bee-2"][n.toNat]? = some "bee-2" ∧
      0 ≤ n ∧ n < 3 ∧ n ≠ ((rand.lcg.Intn 3 65536).1 : Int) ∧
      ∃ uid addr w1 w2 w3,
        (smoke.sampleEnv false false).UploadBytes name [0, 195] uid w1 =
          ((addr, none), w2) ∧
        (smoke.sampleEnv false false).WaitSync name uid 0 w2 = (none, w3) ∧
        (smoke.sampleEnv false false).DownloadBytes "bee-2" addr 0 w3 =
          (([0, 195], none),
            ["tag bee-1", "upload bee-1", "sync bee-1", "download bee-2"])) ∧
    (∃ stj t name n,
      smoke.runLoop (smoke.sampleEnv false false) smoke.sampleOptions
        ["bee-0", "bee-1", "bee-2"] 10 0 1
        (smoke.startState (smoke.sampleEnv false false) smoke.sampleOptions []) =
          Except.ok stj ∧
      smoke.transfer (smoke.sampleEnv false false) smoke.sampleOptions
        ["bee-0", "bee-1", "bee-2"] 10 1 stj = Except.ok t ∧
      ["bee-0", "bee-1", "bee-2"][(rand.lcg.Intn 3 stj.r).1]? = some name ∧
      ["bee-0", "bee-1", "bee-2"][n.toNat]? = some t.downloadNode ∧
      0 ≤ n ∧ n < 3 ∧ n ≠ ((rand.lcg.Intn 3 stj.r).1 : Int)) :=
  ⟨by decide, by decide,
   (randNot_pick_valid (smoke.sampleEnv false false) rand.lcg 3 (by decide)).1
      3 65536 1 2 319028003254796569 [] (by decide),
   (randNot_pick_valid (smoke.sampleEnv false false) rand.lcg 3 (by decide)).2.2.1
      smoke.sampleOptions ["bee-0", "bee-1", "bee-2"] 10 0
      (smoke.startState (smoke.sampleEnv false false) smoke.sampleOptions [])
      (smoke.Transfer.mk
        { cluster := ["tag bee-1", "upload bee-1", "sync bee-1", "download bee-2"],
          r := 319028003254796569, rnd := 1948519611011111707,
          out := ["seed: 65536", "run 0, uploader node is: bee-1"] }
        "bee-2" [0, 195] [0, 195])
      rfl rfl,
   (randNot_pick_valid (smoke.sampleEnv false false) rand.lcg 3 (by decide)).2.2.2.2
      10 smoke.sampleOptions []
      { cluster := ["tag bee-1", "upload bee-1", "sync bee-1", "download bee-2",
          "tag bee-0", "upload bee-0", "sync bee-0", "download bee-1"],
        r := 3855274586663249576, rnd := 2082607238469670853,
        out := ["seed: 65536", "run 0, uploader node is: bee-1",
          "Downloaded successfully from node: bee-2", "run 1, uploader node is: bee-0",
          "Downloaded successfully from node: bee-1", "smoke test completed successfully"] }
      rfl (by decide) 1 (by decide)⟩

/-! ## Calls of the resolvers that return no error -/

/-- A successful `Set` found a field of that name whose type is the type of the value. -/
theorem Struct_Set_old (ov : reflect.Struct) (name : String) (v : reflect.Value) :
    ∀ ov1, ov.Set name v = some ov1 →
      ∃ old, ov.FieldByName name = some old ∧ v.type = old.type := by
  induction ov with
  | nil =>
    intro ov1 h
    simp [reflect.Struct.Set] at h
  | cons p rest ih =>
    intro ov1 h
    obtain ⟨n, old⟩ := p
    by_cases hn : n = name
    · by_cases ht : v.type = old.type
      · exact ⟨old, by simp [reflect.Struct.FieldByName, hn], ht⟩
      · simp [reflect.Struct.Set, hn, ht] at h
    · simp only [reflect.Struct.Set, if_neg hn] at h
      cases hr : reflect.Struct.Set rest name v with
      | none => simp [hr] at h
      | some r =>
        obtain ⟨old1, h1, h2⟩ := ih r hr
        exact ⟨old1, by simp only [reflect.Struct.FieldByName, if_neg hn]; exact h1, h2⟩

/-- The assignment `Set` succeeds on a field that exists and has the type of the
value. -/
theorem Struct_Set_ok (ov : reflect.Struct) (name : String) (v : reflect.Value) :
    ∀ old, ov.FieldByName name = some old → v.type = old.type →
      ∃ ov1, ov.Set name v = some ov1 := by
  induction ov with
  | nil =>
    intro old h
    simp [reflect.Struct.FieldByName] at h
  | cons p rest ih =>
    intro old h ht
    obtain ⟨n, o⟩ := p
    by_cases hn : n = name
    · simp only [reflect.Struct.FieldByName, if_pos hn, Option.some.injEq] at h
      rw [← h] at ht
      exact ⟨(n, v) :: rest, by simp only [reflect.Struct.Set, if_pos hn, if_pos ht]⟩
    · simp only [reflect.Struct.FieldByName, if_neg hn] at h
      obtain ⟨r, hr⟩ := ih old h ht
      exact ⟨(n, o) :: r, by simp only [reflect.Struct.Set, if_neg hn, hr, Option.map_some']⟩

/-- The assignment `Set` keeps the type of every field. -/
theorem Struct_Set_types (ov ov1 : reflect.Struct) (name : String) (v : reflect.Value)
    (h : ov.Set name v = some ov1) (key : String) :
    (ov1.FieldByName key).map reflect.Value.type =
      (ov.FieldByName key).map reflect.Value.type := by
  by_cases hk : key = name
  · obtain ⟨old, hold, ht⟩ := Struct_Set_old ov name v ov1 h
    rw [hk, Struct_Set_same ov name v ov1 h, hold]
    simp only [Option.map_some', ht]
  · rw [Struct_Set_other ov name key v hk ov1 h]

/-- The branch "set locally" neither fails nor panics when the local pointer points to a
value of its element type, and it keeps the type of every field. -/
theorem setLocal_total (f : reflect.PtrField) (v : reflect.Value) (ov : reflect.Struct)
    (hv : v.type = f.elem) :
    ∃ ov1, config.setLocal f v ov = GoResult.ret ov1 none ∧
      ∀ key, (ov1.FieldByName key).map reflect.Value.type =
        (ov.FieldByName key).map reflect.Value.type := by
  unfold config.setLocal
  cases hf : ov.FieldByName f.name with
  | none => exact ⟨ov, rfl, fun _ => rfl⟩
  | some old =>
    by_cases ht : f.elem = old.type
    · obtain ⟨ov1, hs⟩ := Struct_Set_ok ov f.name v old hf (hv.trans ht)
      refine ⟨ov1, ?_, fun key => Struct_Set_types ov ov1 f.name v hs key⟩
      simp only [if_pos ht, hs]
    · refine ⟨ov, ?_, fun _ => rfl⟩
      simp only [if_neg ht]

/-- The assignment `setField` neither fails nor panics on a field that exists and has the
type of the value, and it keeps the type of every field. -/
theorem setField_total (name : String) (v old : reflect.Value) (ov : reflect.Struct)
    (hold : ov.FieldByName name = some old) (ht : v.type = old.type) :
    ∃ ov1, config.setField name v ov = GoResult.ret ov1 none ∧
      ∀ key, (ov1.FieldByName key).map reflect.Value.type =
        (ov.FieldByName key).map reflect.Value.type := by
  obtain ⟨ov1, hs⟩ := Struct_Set_ok ov name v old hold ht
  refine ⟨ov1, ?_, fun key => Struct_Set_types ov ov1 name v hs key⟩
  simp only [config.setField, hs]

/-- A field whose type is `*push.Pusher` holds a pusher or nil, and a field whose type is
`int64` holds an integer. -/
theorem value_of_type (o : Option reflect.Value) :
    (o.map reflect.Value.type = some reflect.GoType.pusher →
      ∃ p0, o = some (reflect.Value.pusher p0)) ∧
    (o.map reflect.Value.type = some reflect.GoType.int64 →
      ∃ v0, o = some (reflect.Value.int64 v0)) ∧
    (o.map reflect.Value.type = some reflect.GoType.bool →
      ∃ b, o = some (reflect.Value.bool b)) := by
  cases o with
  | none => simp
  | some x => cases x <;> simp [reflect.Value.type]

/-- The body of `applyCheckConfig` on a well-typed local field: it returns the error of
the metrics case when the field is `MetricsEnabled`, metrics are effective and the
global pusher is nil, and otherwise it returns no error and keeps the type of every
field of the options struct.  The options struct has a field `MetricsPusher` of pointer
type when the local field is `MetricsEnabled`, and a field `Seed int64` when the local
field is an unset `Seed`. -/
theorem checkField_total (global : config.CheckGlobalConfig) (fresh : Int)
    (f : reflect.PtrField) (ov : reflect.Struct)
    (hwt : ∀ v, f.val = some v → v.type = f.elem)
    (hme : f.name = "MetricsEnabled" → f.elem = reflect.GoType.bool)
    (hmp : f.name = "MetricsEnabled" →
      (ov.FieldByName "MetricsPusher").map reflect.Value.type = some reflect.GoType.pusher)
    (hseed : f.name = "Seed" → f.val = none →
      (ov.FieldByName "Seed").map reflect.Value.type = some reflect.GoType.int64) :
    ((f.name = "MetricsEnabled" ∧ global.MetricsPusher = none ∧
        ((f.val = none ∧ global.MetricsEnabled = true) ∨
          f.val = some (reflect.Value.bool true))) →
      config.checkField global fresh f ov =
        GoResult.ret ov (some "metrics pusher is nil (not set)")) ∧
    (¬ (f.name = "MetricsEnabled" ∧ global.MetricsPusher = none ∧
        ((f.val = none ∧ global.MetricsEnabled = true) ∨
          f.val = some (reflect.Value.bool true))) →
      ∃ ov1, config.checkField global fresh f ov = GoResult.ret ov1 none ∧
        ∀ key, (ov1.FieldByName key).map reflect.Value.type =
          (ov.FieldByName key).map reflect.Value.type) := by
  obtain ⟨name, elem, val⟩ := f
  simp only at hwt hme hmp hseed ⊢
  by_cases hm : name = "MetricsEnabled"
  · subst hm
    have helem : elem = reflect.GoType.bool := hme rfl
    subst helem
    obtain ⟨p0, hp0⟩ := (value_of_type _).1 (hmp rfl)
    have hlv : ∃ lv : Option Bool, val = lv.map reflect.Value.bool := by
      cases hval : val with
      | none => exact ⟨none, rfl⟩
      | some v =>
        obtain ⟨b, hb⟩ := (value_of_type (some v)).2.2 (by
          simp only [Option.map_some', hwt v hval])
        exact ⟨some b, by simp only [Option.map_some', hb]⟩
    obtain ⟨lv, hlv⟩ := hlv
    subst hlv
    rw [checkField_metrics global fresh lv ov]
    have heff : ((lv.map reflect.Value.bool = none ∧ global.MetricsEnabled = true) ∨
        lv.map reflect.Value.bool = some (reflect.Value.bool true)) ↔
        ((lv = none ∧ global.MetricsEnabled = true) ∨ lv = some true) := by
      cases lv with
      | none => simp
      | some b => simp
    constructor
    · intro hbad
      have he := heff.mp hbad.2.2
      simp only [if_pos he, hbad.2.1]
    · intro hgood
      by_cases he : (lv = none ∧ global.MetricsEnabled = true) ∨ lv = some true
      · cases hp : global.MetricsPusher with
        | none => exact absurd ⟨rfl, hp, heff.mpr he⟩ hgood
        | some p =>
          simp only [if_pos he]
          exact setField_total "MetricsPusher" (reflect.Value.pusher (some p))
            (reflect.Value.pusher p0) ov hp0 rfl
      · exact ⟨ov, by simp only [if_neg he], fun _ => rfl⟩
  · constructor
    · intro hbad
      exact absurd hbad.1 hm
    · intro _
      by_cases hs : name = "Seed"
      · subst hs
        have hne : ¬ ("Seed" = "MetricsEnabled") := by decide
        cases hval : val with
        | none =>
          obtain ⟨v0, hv0⟩ := (value_of_type _).2.1 (hseed rfl hval)
          simp only [config.checkField, if_neg hne, if_true]
          by_cases hg : global.Seed ≥ 0
          · simp only [if_pos hg]
            exact setField_total "Seed" _ (reflect.Value.int64 v0) ov hv0 rfl
          · simp only [if_neg hg]
            exact setField_total "Seed" _ (reflect.Value.int64 v0) ov hv0 rfl
        | some v =>
          simp only [config.checkField, if_neg hne, if_true]
          exact setLocal_total _ v ov (hwt v hval)
      · rw [checkField_default global fresh _ ov hm hs]
        cases hval : val with
        | none => exact ⟨ov, rfl, fun _ => rfl⟩
        | some v => exact setLocal_total _ v ov (hwt v hval)

/-- The body of `applyOptions` on a well-typed local field returns no error and keeps the
type of every field of the options struct. -/
theorem optionsField_total (cfg : config.CommonOptions) (fresh : Int)
    (f : reflect.PtrField) (ov : reflect.Struct)
    (hwt : ∀ v, f.val = some v → v.type = f.elem)
    (hme : f.name = "MetricsEnabled" → f.elem = reflect.GoType.bool)
    (hmp : f.name = "MetricsEnabled" →
      (ov.FieldByName "MetricsPusher").map reflect.Value.type = some reflect.GoType.pusher)
    (hseed : f.name = "Seed" → f.val = none →
      (ov.FieldByName "Seed").map reflect.Value.type = some reflect.GoType.int64) :
    ∃ ov1, config.optionsField cfg fresh f ov = GoResult.ret ov1 none ∧
      ∀ key, (ov1.FieldByName key).map reflect.Value.type =
        (ov.FieldByName key).map reflect.Value.type := by
  by_cases hm : f.name = "MetricsEnabled"
  · obtain ⟨p0, hp0⟩ := (value_of_type _).1 (hmp hm)
    cases hval : f.val with
    | none =>
      by_cases hg : cfg.MetricsEnabled = true
      · simp only [config.optionsField, if_pos hm, hval, hg, if_true]
        exact setField_total "MetricsPusher" _ (reflect.Value.pusher p0) ov hp0 rfl
      · exact ⟨ov, by simp [config.optionsField, hm, hval, hg], fun _ => rfl⟩
    | some v =>
      obtain ⟨b, hb⟩ := (value_of_type (some v)).2.2 (by
        simp only [Option.map_some', hwt v hval, hme hm])
      simp only [Option.some.injEq] at hb
      subst hb
      cases b with
      | true =>
        simp only [config.optionsField, if_pos hm, hval, if_true]
        exact setField_total "MetricsPusher" _ (reflect.Value.pusher p0) ov hp0 rfl
      | false => exact ⟨ov, by simp [config.optionsField, hm, hval], fun _ => rfl⟩
  · rw [optionsField_eq cfg fresh f ov hm]
    exact (checkField_total _ fresh f ov hwt hme hmp hseed).2 (fun hbad => hm hbad.1)

/-- A loop over local fields on each of which the body either returns the error `msg`
(on the fields that are `bad`) or returns no error and keeps the type of every field of
the options struct: the loop returns `msg` when some field is `bad`, and returns no
error, with the types kept, when none is. -/
theorem eachField_total
    (body : reflect.PtrField → reflect.Struct → GoResult reflect.Struct) (msg : String)
    (bad : reflect.PtrField → Prop) (fields : List reflect.PtrField) :
    ∀ (ov : reflect.Struct),
      (∀ f ∈ fields, ∀ ov0 : reflect.Struct,
        (∀ key, (ov0.FieldByName key).map reflect.Value.type =
          (ov.FieldByName key).map reflect.Value.type) →
        (bad f → body f ov0 = GoResult.ret ov0 (some msg)) ∧
        (¬ bad f → ∃ ov1, body f ov0 = GoResult.ret ov1 none ∧
          ∀ key, (ov1.FieldByName key).map reflect.Value.type =
            (ov0.FieldByName key).map reflect.Value.type)) →
      ((∃ f ∈ fields, bad f) →
        ∃ ov1, reflect.eachField body fields ov = GoResult.ret ov1 (some msg)) ∧
      ((∀ f ∈ fields, ¬ bad f) →
        ∃ ov1, reflect.eachField body fields ov = GoResult.ret ov1 none) := by
  induction fields with
  | nil =>
    intro ov _
    exact ⟨fun h => by simp at h, fun _ => ⟨ov, rfl⟩⟩
  | cons f rest ih =>
    intro ov hstep
    have hf := hstep f (List.mem_cons_self f rest) ov (fun _ => rfl)
    by_cases hb : bad f
    · constructor
      · intro _
        exact ⟨ov, by simp only [reflect.eachField, hf.1 hb]⟩
      · intro hall
        exact absurd hb (hall f (List.mem_cons_self f rest))
    · obtain ⟨ov1, hbody, htypes⟩ := hf.2 hb
      have hrest := ih ov1 (fun g hg ov0 h0 =>
        hstep g (List.mem_cons_of_mem f hg) ov0 (fun key => (h0 key).trans (htypes key)))
      have hloop : reflect.eachField body (f :: rest) ov = reflect.eachField body rest ov1 := by
        simp only [reflect.eachField, hbody]
      rw [hloop]
      constructor
      · intro hex
        obtain ⟨g, hg, hgb⟩ := hex
        rcases List.mem_cons.mp hg with heq | hmem
        · rw [heq] at hgb
          exact absurd hgb hb
        · exact hrest.1 ⟨g, hmem, hgb⟩
      · intro hall
        exact hrest.2 (fun g hg => hall g (List.mem_cons_of_mem f hg))

/-- The three resolvers on a well-typed local struct, with the options struct holding a
field `MetricsPusher` of pointer type when the local struct has `MetricsEnabled`, and a
field `Seed int64` when the local `Seed` is unset.  `applyCheckConfig` returns the error
"metrics pusher is nil (not set)" when metrics are effective and the global pusher is
nil, and returns nil otherwise; `applyOptions` returns nil. -/
theorem resolvers_total (loc : List reflect.PtrField) (ov : reflect.Struct)
    (hwt : ∀ f ∈ loc, ∀ v, f.val = some v → v.type = f.elem)
    (hme : ∀ f ∈ loc, f.name = "MetricsEnabled" → f.elem = reflect.GoType.bool)
    (hmp : (∃ f ∈ loc, f.name = "MetricsEnabled") →
      ∃ p0, ov.FieldByName "MetricsPusher" = some (reflect.Value.pusher p0))
    (hsd : ∀ f ∈ loc, f.name = "Seed" → f.val = none →
      ∃ v0, ov.FieldByName "Seed" = some (reflect.Value.int64 v0)) :
    (∀ (global : config.CheckGlobalConfig) (fresh : Int),
      ((∃ f ∈ loc, f.name = "MetricsEnabled" ∧ global.MetricsPusher = none ∧
          ((f.val = none ∧ global.MetricsEnabled = true) ∨
            f.val = some (reflect.Value.bool true))) →
        ∃ ov1, config.applyCheckConfig global fresh loc ov =
          GoResult.ret ov1 (some "metrics pusher is nil (not set)")) ∧
      ((∀ f ∈ loc, ¬ (f.name = "MetricsEnabled" ∧ global.MetricsPusher = none ∧
          ((f.val = none ∧ global.MetricsEnabled = true) ∨
            f.val = some (reflect.Value.bool true)))) →
        ∃ ov1, config.applyCheckConfig global fresh loc ov = GoResult.ret ov1 none)) ∧
    (∀ (cfg : config.CommonOptions) (fresh : Int),
      ∃ ov1, config.applyOptions cfg fresh loc ov = GoResult.ret ov1 none) := by
  have hmpT : ∀ f ∈ loc, ∀ ov0 : reflect.Struct,
      (∀ key, (ov0.FieldByName key).map reflect.Value.type =
        (ov.FieldByName key).map reflect.Value.type) →
      f.name = "MetricsEnabled" →
      (ov0.FieldByName "MetricsPusher").map reflect.Value.type =
        some reflect.GoType.pusher := by
    intro f hf ov0 h0 hm
    obtain ⟨p0, hp0⟩ := hmp ⟨f, hf, hm⟩
    rw [h0, hp0]
    rfl
  have hsdT : ∀ f ∈ loc, ∀ ov0 : reflect.Struct,
      (∀ key, (ov0.FieldByName key).map reflect.Value.type =
        (ov.FieldByName key).map reflect.Value.type) →
      f.name = "Seed" → f.val = none →
      (ov0.FieldByName "Seed").map reflect.Value.type = some reflect.GoType.int64 := by
    intro f hf ov0 h0 hs hv
    obtain ⟨v0, hv0⟩ := hsd f hf hs hv
    rw [h0, hv0]
    rfl
  constructor
  · intro global fresh
    exact eachField_total (config.checkField global fresh) "metrics pusher is nil (not set)"
      (fun f => f.name = "MetricsEnabled" ∧ global.MetricsPusher = none ∧
        ((f.val = none ∧ global.MetricsEnabled = true) ∨
          f.val = some (reflect.Value.bool true)))
      loc ov
      (fun f hf ov0 h0 => checkField_total global fresh f ov0 (hwt f hf) (hme f hf)
        (hmpT f hf ov0 h0) (hsdT f hf ov0 h0))
  · intro cfg fresh
    exact (eachField_total (config.optionsField cfg fresh) "" (fun _ => False) loc ov
      (fun f hf ov0 h0 => ⟨fun hb => absurd hb id,
        fun _ => optionsField_total cfg fresh f ov0 (hwt f hf) (hme f hf)
          (hmpT f hf ov0 h0) (hsdT f hf ov0 h0)⟩)).2 (fun _ _ => id)

/-- C15 fails on the code for some global configurations: with metrics enabled globally
and a nil global pusher, `applyCheckConfig` and `applySimulationConfig` on the local
struct of the `chunk-repair` check with the seed explicitly set to `5` return the error
"metrics pusher is nil (not set)" at the field `MetricsEnabled`, before the field
`Seed` is looked at: the `Seed` option is left at `0`, not `5`. -/
theorem local_seed_unresolved_nil_pusher :
    config.applyCheckConfig { MetricsEnabled := true, MetricsPusher := none, Seed := 7 } 42
        (config.sampleRepairLocal none 5) config.sampleRepairOpts =
      GoResult.ret config.sampleRepairOpts (some "metrics pusher is nil (not set)") ∧
    config.applySimulationConfig { MetricsEnabled := true, MetricsPusher := none, Seed := 7 }
        42 (config.sampleRepairLocal none 5) config.sampleRepairOpts =
      GoResult.ret config.sampleRepairOpts (some "metrics pusher is nil (not set)") ∧
    config.sampleRepairOpts.FieldByName "Seed" = some (reflect.Value.int64 0) ∧
    reflect.PtrField.mk "Seed" reflect.GoType.int64 (some (reflect.Value.int64 5)) ∈
      config.sampleRepairLocal none 5 := by
  decide

/-- Claim C15, amended: for a local struct with fields of distinct names, each pointer
nil or pointing to a value of its element type, with `MetricsEnabled` (if present) a
`*bool` and `Seed *int64` pointing to a non-negative `s` (`s = 0` included), and an
options struct with a field `Seed int64` (and `MetricsPusher` of pointer type if the
local struct has `MetricsEnabled`): `applyOptions` returns nil with the `Seed` option
equal to `s` for every configuration; `applyCheckConfig` and `applySimulationConfig`
return nil with the `Seed` option equal to `s` for every global configuration, except
when metrics are effective (the local `MetricsEnabled` is nil and the global flag is
true, or it points to true) and the global pusher is nil: then, and only then, they
return the error "metrics pusher is nil (not set)". -/
theorem resolvers_keep_local_seed (s : Int) (_hs : 0 ≤ s) (loc : List reflect.PtrField)
    (ov : reflect.Struct) (v0 : Int)
    (hnd : (loc.map (fun f => f.name)).Nodup)
    (hwt : ∀ f ∈ loc, ∀ v, f.val = some v → v.type = f.elem)
    (hme : ∀ f ∈ loc, f.name = "MetricsEnabled" → f.elem = reflect.GoType.bool)
    (hmp : (∃ f ∈ loc, f.name = "MetricsEnabled") →
      ∃ p0, ov.FieldByName "MetricsPusher" = some (reflect.Value.pusher p0))
    (hf : (reflect.PtrField.mk "Seed" reflect.GoType.int64 (some (reflect.Value.int64 s))) ∈ loc)
    (hov : ov.FieldByName "Seed" = some (reflect.Value.int64 v0)) :
    (∀ (global : config.CheckGlobalConfig) (fresh : Int),
      ((∃ f ∈ loc, f.name = "MetricsEnabled" ∧ global.MetricsPusher = none ∧
          ((f.val = none ∧ global.MetricsEnabled = true) ∨
            f.val = some (reflect.Value.bool true))) →
        ∃ ov1, config.applyCheckConfig global fresh loc ov =
          GoResult.ret ov1 (some "metrics pusher is nil (not set)")) ∧
      ((∀ f ∈ loc, ¬ (f.name = "MetricsEnabled" ∧ global.MetricsPusher = none ∧
          ((f.val = none ∧ global.MetricsEnabled = true) ∨
            f.val = some (reflect.Value.bool true)))) →
        ∃ ov', config.applyCheckConfig global fresh loc ov = GoResult.ret ov' none ∧
          ov'.FieldByName "Seed" = some (reflect.Value.int64 s))) ∧
    (∀ (cfg : config.CommonOptions) (fresh : Int),
      ∃ ov', config.applyOptions cfg fresh loc ov = GoResult.ret ov' none ∧
        ov'.FieldByName "Seed" = some (reflect.Value.int64 s)) ∧
    (∀ (global : config.SimulationGlobalConfig) (fresh : Int),
      ((∃ f ∈ loc, f.name = "MetricsEnabled" ∧ global.MetricsPusher = none ∧
          ((f.val = none ∧ global.MetricsEnabled = true) ∨
            f.val = some (reflect.Value.bool true))) →
        ∃ ov1, config.applySimulationConfig global fresh loc ov =
          GoResult.ret ov1 (some "metrics pusher is nil (not set)")) ∧
      ((∀ f ∈ loc, ¬ (f.name = "MetricsEnabled" ∧ global.MetricsPusher = none ∧
          ((f.val = none ∧ global.MetricsEnabled = true) ∨
            f.val = some (reflect.Value.bool true)))) →
        ∃ ov', config.applySimulationConfig global fresh loc ov = GoResult.ret ov' none ∧
          ov'.FieldByName "Seed" = some (reflect.Value.int64 s))) := by
  have htot := resolvers_total loc ov hwt hme hmp (fun _ _ _ _ => ⟨v0, hov⟩)
  refine ⟨?_, ?_, ?_⟩
  · intro global fresh
    refine ⟨(htot.1 global fresh).1, ?_⟩
    intro hgood
    obtain ⟨ov', hret⟩ := (htot.1 global fresh).2 hgood
    exact ⟨ov', hret, applyCheckConfig_local_seed global fresh loc ov ov' _ v0 hnd hf hov hret⟩
  · intro cfg fresh
    obtain ⟨ov', hret⟩ := htot.2 cfg fresh
    exact ⟨ov', hret, applyOptions_local_seed cfg fresh loc ov ov' _ v0 hnd hf hov hret⟩
  · intro global fresh
    rw [applySimulationConfig_eq]
    have hc := htot.1 (config.CheckGlobalConfig.mk global.MetricsEnabled
      global.MetricsPusher global.Seed) fresh
    refine ⟨hc.1, ?_⟩
    intro hgood
    obtain ⟨ov', hret⟩ := hc.2 hgood
    exact ⟨ov', hret, applyCheckConfig_local_seed _ fresh loc ov ov' _ v0 hnd hf hov hret⟩

/-- Witness for C15 on the local struct of the `chunk-repair` check with the seed set to
`5`: with metrics enabled and a global pusher set, `applyCheckConfig` and
`applySimulationConfig` return nil with the seed `5`, and so does `applyOptions`. -/
theorem resolvers_keep_local_seed_witness :
    (0 : Int) ≤ 5 ∧
    (∃ ov', config.applyCheckConfig
        { MetricsEnabled := true, MetricsPusher := some config.samplePusher, Seed := 7 } 42
        (config.sampleRepairLocal none 5) config.sampleRepairOpts = GoResult.ret ov' none ∧
      ov'.FieldByName "Seed" = some (reflect.Value.int64 5)) ∧
    (∃ ov', config.applyOptions { MetricsEnabled := true, Seed := 7, Namespace := "ns" } 42
        (config.sampleRepairLocal none 5) config.sampleRepairOpts = GoResult.ret ov' none ∧
      ov'.FieldByName "Seed" = some (reflect.Value.int64 5)) ∧
    (∃ ov', config.applySimulationConfig
        { MetricsEnabled := false, MetricsPusher := none, Seed := -1 } 42
        (config.sampleRepairLocal none 5) config.sampleRepairOpts = GoResult.ret ov' none ∧
      ov'.FieldByName "Seed" = some (reflect.Value.int64 5)) :=
  have hall := resolvers_keep_local_seed 5 (by decide) (config.sampleRepairLocal none 5)
    config.sampleRepairOpts 0 (by decide)
    (by
      intro f hf v hv
      simp only [config.sampleRepairLocal, List.mem_cons, List.mem_singleton,
        List.mem_nil_iff, or_false] at hf
      rcases hf with rfl | rfl | rfl | rfl <;> cases hv
      rfl)
    (by decide) (fun _ => ⟨none, rfl⟩) (by decide) rfl
  ⟨by decide,
    (hall.1 { MetricsEnabled := true, MetricsPusher := some config.samplePusher, Seed := 7 }
      42).2 (by decide),
    hall.2.1 { MetricsEnabled := true, Seed := 7, Namespace := "ns" } 42,
    (hall.2.2 { MetricsEnabled := false, MetricsPusher := none, Seed := -1 } 42).2
      (by decide)⟩
